import Mathlib

/-! Glint3D: ray tracing core and CLI services.

A shallow embedding of parts of the Glint3D sources and theorems about them.

* `engine/modules/raytracing/{ray.h, triangle.h, RayUtils.h, microfacet_sampling.h}`:
  embedded twice. In the first embedding floating point numbers are read as
  elements of a linearly ordered field `K` (exact arithmetic) and `glm::sqrt` is
  a parameter. In the second, the namespace `Binary32`, they are IEEE 754
  binary32 values `F32` (finite numbers with subnormals and signed zeros, the
  infinities, NaN) and every operation rounds to nearest, ties to even.
* `cli/src/services/run_manifest_validator.cpp`, `run_manifest_writer.cpp`,
  `cli/src/config_resolver.cpp`, `cli/src/command_dispatcher.cpp`: machine
  integers are natural numbers with explicit reduction modulo `2^w`; a
  `std::string` is a list of bytes; rapidjson documents are trees.
-/

set_option autoImplicit false

namespace Glint

/-! ## glm vectors -/

/-- The `glm::vec3` value type over the scalar field `K`. -/
structure Vec3 (K : Type) where
  x : K
  y : K
  z : K
  deriving DecidableEq

namespace Vec3

variable {K : Type} [LinearOrderedField K]

/-- Componentwise `a + b`. -/
def add (a b : Vec3 K) : Vec3 K := ⟨a.x + b.x, a.y + b.y, a.z + b.z⟩

/-- Componentwise `a - b`. -/
def sub (a b : Vec3 K) : Vec3 K := ⟨a.x - b.x, a.y - b.y, a.z - b.z⟩

/-- Scalar multiple `s * a`. -/
def smul (s : K) (a : Vec3 K) : Vec3 K := ⟨s * a.x, s * a.y, s * a.z⟩

/-- The product `glm::dot`. -/
def dot (a b : Vec3 K) : K := a.x * b.x + a.y * b.y + a.z * b.z

/-- The product `glm::cross`. -/
def cross (a b : Vec3 K) : Vec3 K :=
  ⟨a.y * b.z - b.y * a.z, a.z * b.x - b.z * a.x, a.x * b.y - b.x * a.y⟩

/-- The function `glm::length`, with the square root as a parameter. -/
def length (sqrt : K → K) (a : Vec3 K) : K := sqrt (dot a a)

/-- The function `glm::normalize`: `a * inversesqrt(dot(a, a))`. -/
def normalize (sqrt : K → K) (a : Vec3 K) : Vec3 K := smul (1 / sqrt (dot a a)) a

end Vec3

/-! ## `ray.h` -/

/-- The class `Ray`: origin and direction. -/
structure Ray (K : Type) where
  origin : Vec3 K
  direction : Vec3 K
  deriving DecidableEq

/-- The constructor `Ray::Ray(orig, dir)`, which normalizes the direction, read in exact
arithmetic and meaningful for a direction other than zero, where no division by zero
occurs; `Binary32.Ray.new` is the same text in `float` arithmetic. -/
def Ray.new {K : Type} [LinearOrderedField K] (sqrt : K → K) (orig dir : Vec3 K) : Ray K :=
  ⟨orig, Vec3.normalize sqrt dir⟩

/-! ## `triangle.h` -/

/-- The geometric fields of the class `Triangle`. -/
structure Triangle (K : Type) where
  v0 : Vec3 K
  v1 : Vec3 K
  v2 : Vec3 K
  normal : Vec3 K
  deriving DecidableEq

/-- The constructor `Triangle::Triangle(a, b, c)`: the face normal is derived. -/
def Triangle.new {K : Type} [LinearOrderedField K] (sqrt : K → K) (a b c : Vec3 K) :
    Triangle K :=
  ⟨a, b, c, Vec3.normalize sqrt (Vec3.cross (Vec3.sub b a) (Vec3.sub c a))⟩

/-- The constant `EPS = 1e-6f` of `Triangle::intersect`, read in exact arithmetic as the
number `1/1000000`; its `float` value is `Binary32.EPS`. -/
def EPS {K : Type} [LinearOrderedField K] : K := 1 / 1000000

/-- The function `std::max` over three values, as in `std::max({a, b, c})`. -/
def max3 {K : Type} [LinearOrderedField K] (a b c : K) : K := max (max a b) c

/-- The method `Triangle::intersect(r, tOut, nOut)`, read in exact arithmetic (the
literals `0.1f` and `0.5f` as `1/10` and `1/2`); `Binary32.Triangle.intersect` is the same
text in `float` arithmetic. The result is the returned flag together with the values of
the reference parameters `tOut` and `nOut` after the call. -/
def Triangle.intersect {K : Type} [LinearOrderedField K] (sqrt : K → K)
    (tri : Triangle K) (r : Ray K) (tOut : K) (nOut : Vec3 K) : Bool × K × Vec3 K :=
  let e1 := Vec3.sub tri.v1 tri.v0
  let e2 := Vec3.sub tri.v2 tri.v0
  let p := Vec3.cross r.direction e2
  let det := Vec3.dot e1 p
  if |det| < EPS then (false, tOut, nOut) else
  let invDet := 1 / det
  let s := Vec3.sub r.origin tri.v0
  let u := Vec3.dot s p * invDet
  if u < 0 ∨ u > 1 then (false, tOut, nOut) else
  let q := Vec3.cross s e1
  let v := Vec3.dot r.direction q * invDet
  if v < 0 ∨ u + v > 1 then (false, tOut, nOut) else
  let t := Vec3.dot e2 q * invDet
  if t ≤ EPS then (false, tOut, nOut) else
  let hitPoint := Vec3.add r.origin (Vec3.smul t r.direction)
  let d0 := Vec3.length sqrt tri.v0
  let d1 := Vec3.length sqrt tri.v1
  let d2 := Vec3.length sqrt tri.v2
  let avgDist := (d0 + d1 + d2) / 3
  let maxDiff := max3 |d0 - avgDist| |d1 - avgDist| |d2 - avgDist|
  if maxDiff < avgDist * (1 / 10) ∧ avgDist > 1 / 2 then
    (true, t, Vec3.normalize sqrt hitPoint)
  else
    (true, t, tri.normal)

/-! ## `RayUtils.h` -/

/-- The inline function `rayIntersectsAABB(ray, aabbMin, aabbMax, t)`, read in exact
arithmetic and meaningful for a direction without zero component, where no division by
zero occurs; `Binary32.rayIntersectsAABB` is the same text in `float` arithmetic. The
result is the returned flag together with the value of the reference parameter `t` after
the call. -/
def rayIntersectsAABB {K : Type} [LinearOrderedField K]
    (ray : Ray K) (aabbMin aabbMax : Vec3 K) (t : K) : Bool × K :=
  let tmin0 := (aabbMin.x - ray.origin.x) / ray.direction.x
  let tmax0 := (aabbMax.x - ray.origin.x) / ray.direction.x
  let tmin := if tmin0 > tmax0 then tmax0 else tmin0
  let tmax := if tmin0 > tmax0 then tmin0 else tmax0
  let tymin0 := (aabbMin.y - ray.origin.y) / ray.direction.y
  let tymax0 := (aabbMax.y - ray.origin.y) / ray.direction.y
  let tymin := if tymin0 > tymax0 then tymax0 else tymin0
  let tymax := if tymin0 > tymax0 then tymin0 else tymax0
  if tmin > tymax ∨ tymin > tmax then (false, t) else
  let tmin := if tymin > tmin then tymin else tmin
  let tmax := if tymax < tmax then tymax else tmax
  let tzmin0 := (aabbMin.z - ray.origin.z) / ray.direction.z
  let tzmax0 := (aabbMax.z - ray.origin.z) / ray.direction.z
  let tzmin := if tzmin0 > tzmax0 then tzmax0 else tzmin0
  let tzmax := if tzmin0 > tzmax0 then tzmin0 else tzmax0
  if tmin > tzmax ∨ tzmin > tmax then (false, t) else
  let tmin := if tzmin > tmin then tzmin else tmin
  let tmax := if tzmax < tmax then tzmax else tmax
  if tmin < 0 then
    if tmax < 0 then (false, tmax) else (true, tmax)
  else (true, tmin)

/-! ## Notions used to state the geometric claims -/

/-- The determinant `det = e1 . (d x e2)` computed by `Triangle::intersect`. -/
def Triangle.det {K : Type} [LinearOrderedField K] (tri : Triangle K) (r : Ray K) : K :=
  Vec3.dot (Vec3.sub tri.v1 tri.v0) (Vec3.cross r.direction (Vec3.sub tri.v2 tri.v0))

/-- The barycentric coordinate `u` computed by `Triangle::intersect`. -/
def Triangle.baryU {K : Type} [LinearOrderedField K] (tri : Triangle K) (r : Ray K) : K :=
  Vec3.dot (Vec3.sub r.origin tri.v0) (Vec3.cross r.direction (Vec3.sub tri.v2 tri.v0)) *
    (1 / tri.det r)

/-- The barycentric coordinate `v` computed by `Triangle::intersect`. -/
def Triangle.baryV {K : Type} [LinearOrderedField K] (tri : Triangle K) (r : Ray K) : K :=
  Vec3.dot r.direction (Vec3.cross (Vec3.sub r.origin tri.v0) (Vec3.sub tri.v1 tri.v0)) *
    (1 / tri.det r)

/-- The ray parameter `t` computed by `Triangle::intersect`. -/
def Triangle.paramT {K : Type} [LinearOrderedField K] (tri : Triangle K) (r : Ray K) : K :=
  Vec3.dot (Vec3.sub tri.v2 tri.v0)
    (Vec3.cross (Vec3.sub r.origin tri.v0) (Vec3.sub tri.v1 tri.v0)) * (1 / tri.det r)

/-- The point `v0 + u * (v1 - v0) + v * (v2 - v0)` of the plane of the triangle. -/
def Triangle.pointAt {K : Type} [LinearOrderedField K] (tri : Triangle K) (u v : K) : Vec3 K :=
  Vec3.add tri.v0 (Vec3.add (Vec3.smul u (Vec3.sub tri.v1 tri.v0))
    (Vec3.smul v (Vec3.sub tri.v2 tri.v0)))

/-- The point `origin + t * direction` of the ray. -/
def Ray.pointAt {K : Type} [LinearOrderedField K] (r : Ray K) (t : K) : Vec3 K :=
  Vec3.add r.origin (Vec3.smul t r.direction)

/-- Membership of a point in the closed box `[aabbMin, aabbMax]`. -/
def inBox {K : Type} [LinearOrderedField K] (p aabbMin aabbMax : Vec3 K) : Prop :=
  aabbMin.x ≤ p.x ∧ p.x ≤ aabbMax.x ∧ aabbMin.y ≤ p.y ∧ p.y ≤ aabbMax.y ∧
    aabbMin.z ≤ p.z ∧ p.z ≤ aabbMax.z

/-! ### Concrete rays, triangles and boxes over the rationals -/

/-- The triangle `(0,0,0), (1,0,0), (0,1,0)` in the plane `z = 0`. -/
def unitTriangle : Triangle ℚ := ⟨⟨0, 0, 0⟩, ⟨1, 0, 0⟩, ⟨0, 1, 0⟩, ⟨0, 0, 1⟩⟩

/-- A triangle in the plane `z = 0` whose two edges have length `1/10000`. -/
def tinyTriangle : Triangle ℚ :=
  ⟨⟨0, 0, 0⟩, ⟨1 / 10000, 0, 0⟩, ⟨0, 1 / 10000, 0⟩, ⟨0, 0, 1⟩⟩

/-- The ray from `(1/4, 1/4, 1)` straight down. -/
def downRay : Ray ℚ := ⟨⟨1 / 4, 1 / 4, 1⟩, ⟨0, 0, -1⟩⟩

/-- The ray from `(0, 0, 1)` straight down, through the vertex `v0` of `tinyTriangle`. -/
def downRayAtOrigin : Ray ℚ := ⟨⟨0, 0, 1⟩, ⟨0, 0, -1⟩⟩

/-- A ray that enters the unit cube through its face `x = 0`. -/
def slantRay : Ray ℚ := ⟨⟨-1, 1 / 2, 1 / 2⟩, ⟨1, 1 / 10, 1 / 10⟩⟩

/-! ## `microfacet_sampling.h`: the deterministic sampler -/

/-- The standard library parts of `SeededRNG`, as parameters: `construct s` is the state of
a `std::mt19937` constructed from the 32-bit seed `s`, `reseed e s` the state of the engine
`e` after `e.seed(s)`, `distribution` the state of a newly constructed
`std::uniform_real_distribution<float>{0.0f, 1.0f}`, and `draw d e` one call `d(e)`: the
sample, and the distribution and the engine after the call. -/
structure Engine (σ δ K : Type) where
  construct : Nat → σ
  reseed : σ → Nat → σ
  distribution : δ
  draw : δ → σ → K × δ × σ

/-- What the claims about `SeededRNG` take from the standard library: after `e.seed(s)` the
engine equals one constructed from `s` (the C++ standard, engine requirements), and a call
of the distribution does not depend on the state of the distribution object (the standard
allows a distribution to keep state; `std::uniform_real_distribution` keeps none in the
implementations). -/
structure Engine.Lawful {σ δ K : Type} (E : Engine σ δ K) : Prop where
  reseed_eq : ∀ (e : σ) (s : Nat), E.reseed e s = E.construct s
  draw_sample : ∀ (d d2 : δ) (e : σ), (E.draw d e).1 = (E.draw d2 e).1
  draw_engine : ∀ (d d2 : δ) (e : σ), (E.draw d e).2.2 = (E.draw d2 e).2.2

/-- The class `microfacet::SeededRNG`: the engine `m_rng` and the distribution
`m_uniform`. -/
structure SeededRNG (σ δ : Type) where
  m_rng : σ
  m_uniform : δ

namespace SeededRNG

variable {σ δ K : Type}

/-- The constructor `SeededRNG(uint32_t seed)`: `m_rng(seed)`, and `m_uniform` from its
default member initializer. -/
def new (E : Engine σ δ K) (seed : Nat) : SeededRNG σ δ :=
  ⟨E.construct (seed % 2 ^ 32), E.distribution⟩

/-- The method `setSeed(uint32_t seed)`: `m_rng.seed(seed)`; `m_uniform` is not touched. -/
def setSeed (E : Engine σ δ K) (rng : SeededRNG σ δ) (seed : Nat) : SeededRNG σ δ :=
  ⟨E.reseed rng.m_rng (seed % 2 ^ 32), rng.m_uniform⟩

/-- The method `uniform()`: the sample `m_uniform(m_rng)` and the object after the call. -/
def uniform (E : Engine σ δ K) (rng : SeededRNG σ δ) : K × SeededRNG σ δ :=
  ((E.draw rng.m_uniform rng.m_rng).1,
    ⟨(E.draw rng.m_uniform rng.m_rng).2.2, (E.draw rng.m_uniform rng.m_rng).2.1⟩)

/-- The method `stratified(sample, totalSamples, jitter)`: the sample and the object after
the call. The operations are read in exact arithmetic and the literal `0.999999f` as the
number `999999/1000000`. -/
def stratified [LinearOrderedField K] (rng : SeededRNG σ δ) (sample totalSamples : Int)
    (jitter : K) : K × SeededRNG σ δ :=
  let base := ((sample : K) + jitter) / (totalSamples : K)
  (min (999999 / 1000000) base, rng)

end SeededRNG

/-- One call on a `SeededRNG` object. -/
inductive SamplerCall (K : Type) where
  | uniform
  | stratified (sample totalSamples : Int) (jitter : K)
  | setSeed (seed : Nat)

/-- A sequence of calls on one `SeededRNG` object: the values returned by the `uniform` and
`stratified` calls, in order, and the object after the last call. -/
def SeededRNG.run {σ δ K : Type} [LinearOrderedField K] (E : Engine σ δ K) :
    SeededRNG σ δ → List (SamplerCall K) → List K × SeededRNG σ δ
  | rng, [] => ([], rng)
  | rng, .uniform :: calls =>
      let r := SeededRNG.uniform E rng
      let rest := SeededRNG.run E r.2 calls
      (r.1 :: rest.1, rest.2)
  | rng, .stratified sample totalSamples jitter :: calls =>
      let r := SeededRNG.stratified rng sample totalSamples jitter
      let rest := SeededRNG.run E r.2 calls
      (r.1 :: rest.1, rest.2)
  | rng, .setSeed seed :: calls => SeededRNG.run E (SeededRNG.setSeed E rng seed) calls

/-- A linear congruential engine with 32-bit state, and a distribution object that counts
its calls without using the count: a concrete standard library for the examples. -/
def countingEngine : Engine Nat Nat ℚ where
  construct := fun s => s
  reseed := fun _ s => s
  distribution := 0
  draw := fun d e => ((e % 1000 : Nat) / 1000, d + 1, (1103515245 * e + 12345) % 2 ^ 32)

/-! ## `command_dispatcher.cpp` -/

/-- The enumeration `LogLevel` of `logger.h`. -/
inductive LogLevel where
  | Quiet | Warn | Info | Debug
  deriving DecidableEq, Repr

/-- The enumerators of `CLIExitCode` (declared in `application/cli_parser.h`) that the CLI
sources name. -/
inductive CLIExitCode where
  | Success | SchemaValidationError | FileNotFound | DependencyError | RuntimeError
  | UnknownFlag
  deriving DecidableEq, Repr

/-- The struct `GlobalOptions`. -/
structure GlobalOptions where
  jsonOutput : Bool := false
  logLevel : LogLevel := LogLevel.Info
  projectPath : String := ""
  configPath : String := ""
  deriving DecidableEq, Repr

/-- The enumeration `GlobalFlagResult`. -/
inductive GlobalFlagResult where
  | NotGlobal | Consumed | Error
  deriving DecidableEq, Repr

/-- The function `parseVerbosityLevel`. -/
def parseVerbosityLevel (value : String) : Option LogLevel :=
  if value = "quiet" then some LogLevel.Quiet
  else if value = "warn" then some LogLevel.Warn
  else if value = "info" then some LogLevel.Info
  else if value = "debug" then some LogLevel.Debug
  else none

/-- The reference parameters of `parseGlobalFlag` after a call. -/
structure FlagState where
  index : Nat
  globals : GlobalOptions
  errorCode : CLIExitCode
  errorMessage : String
  deriving DecidableEq, Repr

/-- The function `parseGlobalFlag(tokens, index, globals, errorCode, errorMessage)`. -/
def parseGlobalFlag (tokens : List String) (st : FlagState) : GlobalFlagResult × FlagState :=
  let token := tokens.getD st.index ""
  if token = "--verbosity" then
    if st.index + 1 ≥ tokens.length then
      (GlobalFlagResult.Error, { st with
        errorCode := CLIExitCode.UnknownFlag
        errorMessage := "Missing value for --verbosity (expected quiet|warn|info|debug)" })
    else
      match parseVerbosityLevel (tokens.getD (st.index + 1) "") with
      | none =>
        (GlobalFlagResult.Error, { st with
          errorCode := CLIExitCode.UnknownFlag
          errorMessage := "Invalid verbosity level: " ++ tokens.getD (st.index + 1) "" })
      | some level =>
        (GlobalFlagResult.Consumed, { st with
          globals := { st.globals with logLevel := level }
          index := st.index + 1 })
  else if token = "--project" then
    if st.index + 1 ≥ tokens.length then
      (GlobalFlagResult.Error, { st with
        errorCode := CLIExitCode.UnknownFlag
        errorMessage := "Missing value for --project (expected path to glint.project.json)" })
    else
      (GlobalFlagResult.Consumed, { st with
        globals := { st.globals with projectPath := tokens.getD (st.index + 1) "" }
        index := st.index + 1 })
  else if token = "--config" then
    if st.index + 1 ≥ tokens.length then
      (GlobalFlagResult.Error, { st with
        errorCode := CLIExitCode.UnknownFlag
        errorMessage := "Missing value for --config (expected path to .glint/config.json)" })
    else
      (GlobalFlagResult.Consumed, { st with
        globals := { st.globals with configPath := tokens.getD (st.index + 1) "" }
        index := st.index + 1 })
  else (GlobalFlagResult.NotGlobal, st)

/-- The struct `CommandDispatcher::ParsedArgs`. -/
structure ParsedArgs where
  verb : String := ""
  globals : GlobalOptions := {}
  commandArgs : List String := []
  deriving DecidableEq, Repr

/-- The struct `CommandDispatcher::ParseOutcome`. -/
structure ParseOutcome where
  recognized : Bool := false
  success : Bool := false
  errorCode : CLIExitCode := CLIExitCode.UnknownFlag
  errorMessage : String := ""
  parsed : ParsedArgs := {}
  deriving DecidableEq, Repr

/-- The function `CommandDispatcher::isSupportedVerb`. -/
def isSupportedVerb (verb : String) : Bool :=
  ["init", "validate", "inspect", "render", "config", "clean", "doctor", "modules",
    "assets"].contains verb

/-- The test `!token.empty() && token[0] != '-'` of `parseArguments`. -/
def isCommandToken (token : String) : Bool :=
  match token.data with
  | [] => false
  | c :: _ => c != '-'

/-- How the first loop of `parseArguments` ends. -/
inductive PreVerbResult where
  | flagError (st : FlagState)
  | command (commandIndex : Nat) (st : FlagState) (prefixArgs : List String)
  | noCommand (st : FlagState) (prefixArgs : List String)
  deriving DecidableEq, Repr

/-- The first `while (i < tokens.size())` loop of `parseArguments`, which looks for the
command token. Every iteration advances `i`, so `fuel = tokens.size()` iterations suffice. -/
def preVerbLoop (tokens : List String) :
    Nat → FlagState → List String → PreVerbResult
  | 0, st, prefixArgs => PreVerbResult.noCommand st prefixArgs
  | fuel + 1, st, prefixArgs =>
    if st.index < tokens.length then
      let token := tokens.getD st.index ""
      if isCommandToken token then PreVerbResult.command st.index st prefixArgs
      else
        match parseGlobalFlag tokens st with
        | (GlobalFlagResult.Error, st') => PreVerbResult.flagError st'
        | (GlobalFlagResult.Consumed, st') =>
          preVerbLoop tokens fuel { st' with index := st'.index + 1 } prefixArgs
        | (GlobalFlagResult.NotGlobal, st') =>
          preVerbLoop tokens fuel { st' with index := st'.index + 1 } (prefixArgs ++ [token])
    else PreVerbResult.noCommand st prefixArgs

/-- The second `while (i < tokens.size())` loop of `parseArguments`, which collects the
command arguments: `none` stands for the early return on a flag error. -/
def commandArgsLoop (tokens : List String) :
    Nat → FlagState → List String → FlagState × Option (List String)
  | 0, st, commandArgs => (st, some commandArgs)
  | fuel + 1, st, commandArgs =>
    if st.index < tokens.length then
      match parseGlobalFlag tokens st with
      | (GlobalFlagResult.Error, st') => (st', none)
      | (GlobalFlagResult.Consumed, st') =>
        commandArgsLoop tokens fuel { st' with index := st'.index + 1 } commandArgs
      | (GlobalFlagResult.NotGlobal, st') =>
        commandArgsLoop tokens fuel { st' with index := st'.index + 1 }
          (commandArgs ++ [tokens.getD st'.index ""])
    else (st, some commandArgs)

/-- The function `CommandDispatcher::parseArguments(argc, argv)`; `argv` lists the `argc`
tokens. -/
def parseArguments (argv : List String) : ParseOutcome :=
  let outcome : ParseOutcome := {}
  if argv.length < 2 then outcome else
  let tokens := argv
  let start : FlagState :=
    { index := 1, globals := {}, errorCode := CLIExitCode.UnknownFlag, errorMessage := "" }
  match preVerbLoop tokens tokens.length start [] with
  | PreVerbResult.flagError st =>
    { outcome with
      recognized := true, success := false, errorCode := st.errorCode
      errorMessage := st.errorMessage }
  | PreVerbResult.noCommand _ _ => outcome
  | PreVerbResult.command commandIndex st prefixArgs =>
    let verb := tokens.getD commandIndex ""
    if isSupportedVerb verb then
      match commandArgsLoop tokens tokens.length { st with index := commandIndex + 1 }
          prefixArgs with
      | (st', none) =>
        { outcome with
          recognized := true, success := false, errorCode := st'.errorCode
          errorMessage := st'.errorMessage }
      | (st', some commandArgs) =>
        let globals :=
          if commandArgs.contains "--json" then { st'.globals with jsonOutput := true }
          else st'.globals
        { outcome with
          recognized := true, success := true
          parsed := { verb := verb, globals := globals, commandArgs := commandArgs } }
    else { outcome with recognized := false }

/-- The classes that `CommandDispatcher::createCommand` instantiates. -/
inductive CommandKind where
  | InitCommandAdapter | ValidateCommand | ConfigCommand | DoctorCommand | ModulesCommand
  | AssetsCommand
  | StubCommand (verb : String)
  deriving DecidableEq, Repr

/-- The function `CommandDispatcher::createCommand`: `none` stands for a null pointer,
which no branch returns. -/
def createCommand (verb : String) : Option CommandKind :=
  if verb = "init" then some CommandKind.InitCommandAdapter
  else if verb = "validate" then some CommandKind.ValidateCommand
  else if verb = "config" then some CommandKind.ConfigCommand
  else if verb = "doctor" then some CommandKind.DoctorCommand
  else if verb = "modules" then some CommandKind.ModulesCommand
  else if verb = "assets" then some CommandKind.AssetsCommand
  else some (CommandKind.StubCommand verb)

/-- The struct `CommandExecutionContext`; `emitter` records whether the emitter pointer is
non-null. -/
structure CommandExecutionContext where
  verb : String
  globals : GlobalOptions
  emitter : Bool
  arguments : List String
  deriving DecidableEq, Repr

/-- The function `CommandDispatcher::executeCommand`; `run` is the virtual call
`ICommand::run` of the commands, a parameter. -/
def executeCommand (run : CommandKind → CommandExecutionContext → CLIExitCode)
    (command : CommandKind) (parsed : ParsedArgs) (emitter : Bool) : CLIExitCode :=
  run command
    { verb := parsed.verb, globals := parsed.globals, emitter := emitter
      arguments := parsed.commandArgs }

/-- The method `CommandDispatcher::tryRun(argc, argv)`; `toInt` is the conversion
`static_cast<int>` of the exit codes. -/
def tryRun (toInt : CLIExitCode → Int)
    (run : CommandKind → CommandExecutionContext → CLIExitCode) (argv : List String) :
    Option Int :=
  let outcome := parseArguments argv
  if !outcome.recognized then none
  else if !outcome.success then some (toInt outcome.errorCode)
  else
    match createCommand outcome.parsed.verb with
    | none => none
    | some command =>
      some (toInt (executeCommand run command outcome.parsed outcome.parsed.globals.jsonOutput))

/-! ### The command line as the claims describe it -/

/-- The result of looking for the verb of a command line. -/
inductive VerbScan where
  | flagError
  | absent
  | found (verb : String)
  deriving DecidableEq, Repr

/-- The verb of a command line (the tokens after `argv[0]`): the first non-empty token
that does not start with `-`, where `--verbosity`, `--project` and `--config` consume the
token after them; `flagError` when such a flag has no value, or `--verbosity` has a value
other than `quiet`, `warn`, `info`, `debug`. -/
def scanVerb : List String → VerbScan
  | [] => VerbScan.absent
  | [t] =>
    if isCommandToken t then VerbScan.found t
    else if t = "--verbosity" ∨ t = "--project" ∨ t = "--config" then VerbScan.flagError
    else VerbScan.absent
  | t :: value :: rest =>
    if isCommandToken t then VerbScan.found t
    else if t = "--verbosity" then
      if (parseVerbosityLevel value).isSome then scanVerb rest else VerbScan.flagError
    else if t = "--project" ∨ t = "--config" then scanVerb rest
    else scanVerb (value :: rest)

/-- Agreement of the end of the first loop of `parseArguments` with `scanVerb`. -/
def PreVerbAgrees (tokens : List String) : PreVerbResult → VerbScan → Prop
  | PreVerbResult.flagError st, VerbScan.flagError => st.errorCode = CLIExitCode.UnknownFlag
  | PreVerbResult.noCommand _ _, VerbScan.absent => True
  | PreVerbResult.command i _ _, VerbScan.found v => tokens.getD i "" = v
  | _, _ => False

/-! ## `run_manifest_validator.cpp`: the class `SHA256` -/

/-- A `std::string` read as its bytes. -/
abbrev ByteString := List UInt8

/-- The bytes of a `std::string` up to its first NUL byte, as `c_str()` presents them to a
reader of C strings. -/
def cStrBytes (s : ByteString) : ByteString := s.takeWhile (fun b => b != 0)

/-- The class `SHA256`: the block buffer `m_data[64]`, the fill count `m_blocklen`
(`uint32_t`), the bit count `m_bitlen` (`uint64_t`) and the hash state `m_state[8]`
(`uint32_t`). -/
structure SHA256 where
  m_data : List Nat
  m_blocklen : Nat
  m_bitlen : Nat
  m_state : List Nat

namespace SHA256

/-- The method `ror(x, n)` on `uint32_t`: `(x >> n) | (x << (32 - n))`. -/
def ror (x n : Nat) : Nat := (x >>> n) ||| ((x <<< (32 - n)) % 2 ^ 32)

/-- The table `k[64]` of `transform`. -/
def k : List Nat :=
  [0x428A2F98, 0x71374491, 0xB5C0FBCF, 0xE9B5DBA5, 0x3956C25B, 0x59F111F1, 0x923F82A4, 0xAB1C5ED5,
   0xD807AA98, 0x12835B01, 0x243185BE, 0x550C7DC3, 0x72BE5D74, 0x80DEB1FE, 0x9BDC06A7, 0xC19BF174,
   0xE49B69C1, 0xEFBE4786, 0x0FC19DC6, 0x240CA1CC, 0x2DE92C6F, 0x4A7484AA, 0x5CB0A9DC, 0x76F988DA,
   0x983E5152, 0xA831C66D, 0xB00327C8, 0xBF597FC7, 0xC6E00BF3, 0xD5A79147, 0x06CA6351, 0x14292967,
   0x27B70A85, 0x2E1B2138, 0x4D2C6DFC, 0x53380D13, 0x650A7354, 0x766A0ABB, 0x81C2C92E, 0x92722C85,
   0xA2BFE8A1, 0xA81A664B, 0xC24B8B70, 0xC76C51A3, 0xD192E819, 0xD6990624, 0xF40E3585, 0x106AA070,
   0x19A4C116, 0x1E376C08, 0x2748774C, 0x34B0BCB5, 0x391C0CB3, 0x4ED8AA4A, 0x5B9CCA4F, 0x682E6FF3,
   0x748F82EE, 0x78A5636F, 0x84C87814, 0x8CC70208, 0x90BEFFFA, 0xA4506CEB, 0xBEF9A3F7, 0xC67178F2]

/-- The method `reset()`. The buffer `m_data`, which `reset` leaves uninitialised, is
taken to hold zeros. -/
def reset : SHA256 :=
  { m_data := List.replicate 64 0
    m_blocklen := 0
    m_bitlen := 0
    m_state := [0x6A09E667, 0xBB67AE85, 0x3C6EF372, 0xA54FF53A, 0x510E527F, 0x9B05688C,
      0x1F83D9AB, 0x5BE0CD19] }

/-- The first loop of `transform`: `m[i]` for `i < 16` is the big-endian word at
`m_data[4 * i]`. The other entries of `m[64]` are taken to hold zeros. -/
def loadWords (m_data : List Nat) : List Nat :=
  (List.range 16).foldl
    (fun m i =>
      m.set i ((((m_data.getD (4 * i) 0) <<< 24) ||| ((m_data.getD (4 * i + 1) 0) <<< 16) |||
        ((m_data.getD (4 * i + 2) 0) <<< 8) ||| (m_data.getD (4 * i + 3) 0)) % 2 ^ 32))
    (List.replicate 64 0)

/-- One iteration of the second loop of `transform`, for `i = 16 + j`. -/
def extendStep (m : List Nat) (j : Nat) : List Nat :=
  let i := 16 + j
  let s0 := ror (m.getD (i - 15) 0) 7 ^^^ ror (m.getD (i - 15) 0) 18 ^^^
    ((m.getD (i - 15) 0) >>> 3)
  let s1 := ror (m.getD (i - 2) 0) 17 ^^^ ror (m.getD (i - 2) 0) 19 ^^^
    ((m.getD (i - 2) 0) >>> 10)
  m.set i ((m.getD (i - 16) 0 + s0 + m.getD (i - 7) 0 + s1) % 2 ^ 32)

/-- The second loop of `transform`: `m[i]` for `16 ≤ i < 64`. -/
def extendWords (m : List Nat) : List Nat := (List.range 48).foldl extendStep m

/-- The eight working variables `a, ..., h` of `transform`. -/
structure Vars where
  a : Nat
  b : Nat
  c : Nat
  d : Nat
  e : Nat
  f : Nat
  g : Nat
  h : Nat

/-- The operator `~` on `uint32_t`. -/
def not32 (x : Nat) : Nat := 2 ^ 32 - 1 - x

/-- One iteration of the third loop of `transform`. -/
def round (m : List Nat) (v : Vars) (i : Nat) : Vars :=
  let S1 := ror v.e 6 ^^^ ror v.e 11 ^^^ ror v.e 25
  let ch := (v.e &&& v.f) ^^^ (not32 v.e &&& v.g)
  let temp1 := (v.h + S1 + ch + k.getD i 0 + m.getD i 0) % 2 ^ 32
  let S0 := ror v.a 2 ^^^ ror v.a 13 ^^^ ror v.a 22
  let maj := (v.a &&& v.b) ^^^ (v.a &&& v.c) ^^^ (v.b &&& v.c)
  let temp2 := (S0 + maj) % 2 ^ 32
  { h := v.g, g := v.f, f := v.e, e := (v.d + temp1) % 2 ^ 32
    d := v.c, c := v.b, b := v.a, a := (temp1 + temp2) % 2 ^ 32 }

/-- The method `transform()`. -/
def transform (s : SHA256) : SHA256 :=
  let m := extendWords (loadWords s.m_data)
  let v0 : Vars :=
    { a := s.m_state.getD 0 0, b := s.m_state.getD 1 0, c := s.m_state.getD 2 0
      d := s.m_state.getD 3 0, e := s.m_state.getD 4 0, f := s.m_state.getD 5 0
      g := s.m_state.getD 6 0, h := s.m_state.getD 7 0 }
  let v := (List.range 64).foldl (round m) v0
  { s with
    m_state :=
      [(s.m_state.getD 0 0 + v.a) % 2 ^ 32, (s.m_state.getD 1 0 + v.b) % 2 ^ 32,
       (s.m_state.getD 2 0 + v.c) % 2 ^ 32, (s.m_state.getD 3 0 + v.d) % 2 ^ 32,
       (s.m_state.getD 4 0 + v.e) % 2 ^ 32, (s.m_state.getD 5 0 + v.f) % 2 ^ 32,
       (s.m_state.getD 6 0 + v.g) % 2 ^ 32, (s.m_state.getD 7 0 + v.h) % 2 ^ 32] }

/-- One iteration of the loop of `update(data, length)`. -/
def updateByte (s : SHA256) (byte : UInt8) : SHA256 :=
  let s1 := { s with m_data := s.m_data.set s.m_blocklen byte.toNat
                     m_blocklen := s.m_blocklen + 1 }
  if s1.m_blocklen = 64 then
    let s2 := transform s1
    { s2 with m_bitlen := (s2.m_bitlen + 512) % 2 ^ 64, m_blocklen := 0 }
  else s1

/-- The method `update(str)`. -/
def update (s : SHA256) (str : ByteString) : SHA256 := str.foldl updateByte s

/-- The loops `while (i < n) m_data[i++] = 0x00` of `finalize`, and `memset`. -/
def zeroFill (m_data : List Nat) (i n : Nat) : List Nat :=
  (List.range (n - i)).foldl (fun d j => d.set (i + j) 0) m_data

/-- The lowercase hexadecimal digit of a value below 16. -/
def hexDigit (n : Nat) : Char :=
  if n < 10 then Char.ofNat (48 + n) else Char.ofNat (87 + n)

/-- The output of `std::hex << std::setfill('0') << std::setw(8) << w` for a 32-bit `w`:
the eight hexadecimal digits, most significant first. -/
def hexWord (w : Nat) : List Char :=
  (List.range 8).map (fun j => hexDigit ((w >>> (4 * (7 - j))) % 16))

/-- The method `finalize()`. -/
def finalize (s : SHA256) : String :=
  let i := s.m_blocklen
  let s1 :=
    if s.m_blocklen < 56 then
      { s with m_data := zeroFill (s.m_data.set i 0x80) (i + 1) 56 }
    else
      let s2 := transform { s with m_data := zeroFill (s.m_data.set i 0x80) (i + 1) 64 }
      { s2 with m_data := zeroFill s2.m_data 0 56 }
  let m_bitlen := (s1.m_bitlen + (s1.m_blocklen * 8) % 2 ^ 32) % 2 ^ 64
  let m_data := ((((((((s1.m_data.set 63 (m_bitlen % 256)).set 62 ((m_bitlen >>> 8) % 256)).set
    61 ((m_bitlen >>> 16) % 256)).set 60 ((m_bitlen >>> 24) % 256)).set
    59 ((m_bitlen >>> 32) % 256)).set 58 ((m_bitlen >>> 40) % 256)).set
    57 ((m_bitlen >>> 48) % 256)).set 56 ((m_bitlen >>> 56) % 256))
  let s3 := transform { s1 with m_bitlen := m_bitlen, m_data := m_data }
  String.mk (s3.m_state.flatMap hexWord)

end SHA256

/-- The function `RunManifestValidator::computeChecksum(content)`. -/
def computeChecksum (content : ByteString) : String :=
  (SHA256.update SHA256.reset content).finalize

/-- The bytes of a text of ASCII characters. -/
def asciiBytes (s : String) : ByteString := s.data.map (fun c => UInt8.ofNat c.toNat)

/-! ## rapidjson documents -/

/-- The bytes of a `std::string` up to its first NUL character: the string that
`std::string(const char*)` builds from `c_str()` or from `GetString()`. -/
def cStr (s : String) : String := String.mk (s.data.takeWhile (fun c => c != Char.ofNat 0))

/-- A C++ `double`: the finite values are rationals. -/
inductive Double where
  | finite (q : ℚ)
  | nonFinite

/-- A rapidjson number. -/
inductive JsonNumber where
  | int (i : Int)
  | double (d : Double)

/-- A rapidjson value. The members of an object are kept in order, and names may repeat. -/
inductive JsonValue where
  | null
  | bool (b : Bool)
  | number (n : JsonNumber)
  | string (s : String)
  | array (elements : List JsonValue)
  | object (members : List (String × JsonValue))

/-- The enumeration `rapidjson::Type`. -/
inductive JsonType where
  | kNullType | kFalseType | kTrueType | kObjectType | kArrayType | kStringType | kNumberType
  deriving DecidableEq, Repr

namespace JsonValue

/-- The method `GetType()`. -/
def getType : JsonValue → JsonType
  | null => JsonType.kNullType
  | bool false => JsonType.kFalseType
  | bool true => JsonType.kTrueType
  | number _ => JsonType.kNumberType
  | string _ => JsonType.kStringType
  | array _ => JsonType.kArrayType
  | object _ => JsonType.kObjectType

/-- The method `IsObject()`. -/
def isObject : JsonValue → Bool
  | object _ => true
  | _ => false

/-- The method `IsString()`. -/
def isString : JsonValue → Bool
  | string _ => true
  | _ => false

/-- The method `IsNumber()`. -/
def isNumber : JsonValue → Bool
  | number _ => true
  | _ => false

/-- The method `IsArray()`. -/
def isArray : JsonValue → Bool
  | array _ => true
  | _ => false

/-- The method `IsBool()`. -/
def isBool : JsonValue → Bool
  | bool _ => true
  | _ => false

/-- The method `ObjectEmpty()`. -/
def objectEmpty : JsonValue → Bool
  | object [] => true
  | _ => false

/-- The first member with the given name, as `FindMember` finds it. -/
def findIn : List (String × JsonValue) → String → Option JsonValue
  | [], _ => none
  | (k, v) :: rest, name => if k = name then some v else findIn rest name

/-- The method `FindMember(name)`: `none` stands for `MemberEnd()`. -/
def findMember : JsonValue → String → Option JsonValue
  | object members, name => findIn members name
  | _, _ => none

/-- The method `HasMember(name)`. -/
def hasMember (obj : JsonValue) (name : String) : Bool := (obj.findMember name).isSome

/-- The operator `obj[name]` for a name that `obj` has. -/
def get (obj : JsonValue) (name : String) : JsonValue := (obj.findMember name).getD null

/-- The method `GetString()` read as a C string. -/
def getString : JsonValue → String
  | string s => cStr s
  | _ => ""

end JsonValue

/-! ## `run_manifest_validator.cpp`: validation -/

/-- The rapidjson helpers of the validator: `hasField`. -/
def hasField (obj : JsonValue) (name : String) : Bool := obj.hasMember name

/-- The helper `isString(obj, name)`. -/
def isString (obj : JsonValue) (name : String) : Bool :=
  obj.hasMember name && (obj.get name).isString

/-- The helper `isNumber(obj, name)`. -/
def isNumber (obj : JsonValue) (name : String) : Bool :=
  obj.hasMember name && (obj.get name).isNumber

/-- The helper `isObject(obj, name)`. -/
def isObject (obj : JsonValue) (name : String) : Bool :=
  obj.hasMember name && (obj.get name).isObject

/-- The helper `isArray(obj, name)`. -/
def isArray (obj : JsonValue) (name : String) : Bool :=
  obj.hasMember name && (obj.get name).isArray

/-- The helper `isBool(obj, name)`. -/
def isBool (obj : JsonValue) (name : String) : Bool :=
  obj.hasMember name && (obj.get name).isBool

/-- The struct `ValidationError`. -/
structure ValidationError where
  field : String
  message : String
  code : String
  deriving DecidableEq, Repr

/-- The struct `ValidationResult`. -/
structure ValidationResult where
  valid : Bool := false
  errors : List ValidationError := []
  schemaVersion : String := ""
  checksum : Option String := none
  deriving DecidableEq, Repr

/-- The method `ValidationResult::isValid()`. -/
def ValidationResult.isValid (result : ValidationResult) : Bool :=
  result.valid && result.errors.isEmpty

/-- The helper `addError(result, field, message, code)`. -/
def addError (result : ValidationResult) (field message code : String) : ValidationResult :=
  { result with errors := result.errors ++ [⟨field, message, code⟩], valid := false }

/-- The function `RunManifestValidator::validateRequiredFields`. -/
def validateRequiredFields (doc : JsonValue) (result : ValidationResult) : ValidationResult :=
  ["schema_version", "run_id", "timestamp_utc", "cli", "platform", "engine", "determinism",
    "outputs"].foldl
    (fun result field =>
      if !doc.hasMember field then addError result field "Required field missing" "missing_field"
      else result)
    result

/-- One test of the validator: an `invalid_type` error unless `ok`. -/
def requireType (ok : Bool) (field message : String) (result : ValidationResult) :
    ValidationResult :=
  if !ok then addError result field message "invalid_type" else result

/-- The function `RunManifestValidator::validateFieldTypes`. -/
def validateFieldTypes (doc : JsonValue) (result : ValidationResult) : ValidationResult :=
  let result := requireType (isString doc "schema_version") "schema_version" "Must be a string" result
  let result := requireType (isString doc "run_id") "run_id" "Must be a string" result
  let result := requireType (isString doc "timestamp_utc") "timestamp_utc" "Must be a string" result
  let result := requireType (isObject doc "cli") "cli" "Must be an object" result
  let result := requireType (isObject doc "platform") "platform" "Must be an object" result
  let result := requireType (isObject doc "engine") "engine" "Must be an object" result
  let result := requireType (isObject doc "determinism") "determinism" "Must be an object" result
  requireType (isObject doc "outputs") "outputs" "Must be an object" result

/-- The function `RunManifestValidator::validateSchemaVersion`. -/
def validateSchemaVersion (doc : JsonValue) (result : ValidationResult) : ValidationResult :=
  if isString doc "schema_version" then
    let version := (doc.get "schema_version").getString
    let result := { result with schemaVersion := version }
    if version ≠ "1.0.0" then
      addError result "schema_version"
        ("Unsupported schema version (expected 1.0.0, got " ++ version ++ ")")
        "unsupported_version"
    else result
  else result

/-- The function `RunManifestValidator::validateCliSection`. -/
def validateCliSection (doc : JsonValue) (result : ValidationResult) : ValidationResult :=
  if !isObject doc "cli" then result else
  let cli := doc.get "cli"
  let result := requireType (isString cli "command") "cli.command" "Must be a string" result
  let result := requireType (isArray cli "arguments") "cli.arguments" "Must be an array" result
  let result := requireType (isNumber cli "exit_code") "cli.exit_code" "Must be a number" result
  requireType (isBool cli "json_mode") "cli.json_mode" "Must be a boolean" result

/-- The function `RunManifestValidator::validatePlatformSection`. -/
def validatePlatformSection (doc : JsonValue) (result : ValidationResult) : ValidationResult :=
  if !isObject doc "platform" then result else
  let platform := doc.get "platform"
  ["os", "cpu", "gpu", "driver_version", "kernel"].foldl
    (fun result field =>
      requireType (isString platform field) ("platform." ++ field) "Must be a string" result)
    result

/-- The function `RunManifestValidator::validateEngineSection`. -/
def validateEngineSection (doc : JsonValue) (result : ValidationResult) : ValidationResult :=
  if !isObject doc "engine" then result else
  let engine := doc.get "engine"
  let result := requireType (isString engine "version") "engine.version" "Must be a string" result
  let result := requireType (isArray engine "modules") "engine.modules" "Must be an array" result
  requireType (isArray engine "assets") "engine.assets" "Must be an array" result

/-- The function `RunManifestValidator::validateDeterminismSection`. -/
def validateDeterminismSection (doc : JsonValue) (result : ValidationResult) :
    ValidationResult :=
  if !isObject doc "determinism" then result else
  let determinism := doc.get "determinism"
  let result := requireType (isNumber determinism "rng_seed") "determinism.rng_seed"
    "Must be a number" result
  requireType (isArray determinism "frame_batch") "determinism.frame_batch" "Must be an array"
    result

/-- The function `RunManifestValidator::validateOutputsSection`. -/
def validateOutputsSection (doc : JsonValue) (result : ValidationResult) : ValidationResult :=
  if !isObject doc "outputs" then result else
  let outputs := doc.get "outputs"
  let result := requireType (isString outputs "render_path") "outputs.render_path"
    "Must be a string" result
  let result := requireType (isArray outputs "frames") "outputs.frames" "Must be an array" result
  requireType (isArray outputs "warnings") "outputs.warnings" "Must be an array" result

/-- The function `RunManifestValidator::validateContent(jsonContent, computeChecksum)`.
The parameter `parse` is `rapidjson::Document::Parse` on a C string: the document, or the
text `GetParseError_En(code) at offset n` of a parse error. -/
def validateContent (parse : ByteString → Except String JsonValue)
    (jsonContent : ByteString) (withChecksum : Bool) : ValidationResult :=
  let result : ValidationResult := { valid := true }
  match parse (cStrBytes jsonContent) with
  | Except.error e => addError result "json" ("JSON parse error: " ++ e) "parse_error"
  | Except.ok doc =>
    if !doc.isObject then addError result "root" "Root must be an object" "invalid_type" else
    let result := validateSchemaVersion doc result
    let result := validateRequiredFields doc result
    let result := validateFieldTypes doc result
    let result := validateCliSection doc result
    let result := validatePlatformSection doc result
    let result := validateEngineSection doc result
    let result := validateDeterminismSection doc result
    let result := validateOutputsSection doc result
    if withChecksum then { result with checksum := some (computeChecksum jsonContent) }
    else result

/-- The function `RunManifestValidator::verifyChecksum(manifestPath, expectedChecksum)`;
`file` is the content of the file at `manifestPath`, `none` when it cannot be opened. -/
def verifyChecksum (file : Option ByteString) (expectedChecksum : String) : Bool :=
  match file with
  | none => false
  | some content => computeChecksum content == expectedChecksum

/-! ## `run_manifest_writer.cpp` -/

/-- The struct `CliInvocationMetadata`. -/
structure CliInvocationMetadata where
  command : String := ""
  arguments : List String := []
  jsonMode : Bool := false
  projectPath : String := ""

/-- The struct `PlatformMetadata`. -/
structure PlatformMetadata where
  operatingSystem : String := ""
  cpu : String := ""
  gpu : String := ""
  driverVersion : String := ""
  kernel : String := ""

/-- The struct `ModuleRecord`. -/
structure ModuleRecord where
  name : String := ""
  version : String := ""
  hash : String := ""
  enabled : Bool := true

/-- The struct `AssetRecord`. -/
structure AssetRecord where
  name : String := ""
  version : String := ""
  hash : String := ""
  status : String := ""

/-- The struct `EngineMetadata`. -/
structure EngineMetadata where
  version : String := ""
  modules : List ModuleRecord := []
  assets : List AssetRecord := []

/-- The struct `DeterminismMetadata`. -/
structure DeterminismMetadata where
  rngSeed : Int := 0
  frames : List Int := []
  configDigest : String := ""
  sceneDigest : String := ""
  templateName : String := ""
  gitRevision : String := ""
  shaderHashes : List String := []

/-- The struct `FrameRecord`. -/
structure FrameRecord where
  frame : Int := 0
  durationMs : Double := Double.finite 0
  output : String := ""

/-- The struct `RunManifestOptions`; `outputDirectory` is the path in generic form. -/
structure RunManifestOptions where
  schemaVersion : String := "1.0.0"
  runId : String := ""
  timestampUtc : String := ""
  cli : CliInvocationMetadata := {}
  platform : PlatformMetadata := {}
  engine : EngineMetadata := {}
  determinism : DeterminismMetadata := {}
  outputDirectory : String := ""
  frames : List FrameRecord := []
  warnings : List String := []
  exitCode : CLIExitCode := CLIExitCode.Success

/-- The functions of `application/cli_parser.h` that the writer calls. -/
structure CliParserFns where
  /-- The function `CLIParser::exitCodeToString`. -/
  exitCodeToString : CLIExitCode → String
  /-- The conversion `static_cast<int>` of an exit code. -/
  exitCodeToInt : CLIExitCode → Int

/-- The rapidjson functions that the writer and the validator call. -/
structure JsonLibrary where
  /-- The text that a `rapidjson::Writer` produces for the calls that describe a value. -/
  render : JsonValue → ByteString
  /-- The function `rapidjson::Document::Parse` on a C string: the document, or the text
  `GetParseError_En(code) at offset n` of a parse error. -/
  parse : ByteString → Except String JsonValue

/-- What `RunManifestWriter::write` takes from outside the sources. -/
structure WriterEnv where
  cliParser : CliParserFns
  json : JsonLibrary
  /-- The result of `defaultTimestampUtc()`. -/
  now : String
  /-- Whether `std::ofstream stream(m_manifestPath, std::ios::binary)` opens. -/
  manifestOpens : Bool
  /-- Whether the stream is good after `stream << jsonContent << '\n'`. -/
  manifestWriteOk : Bool
  /-- Whether `std::ofstream checksumStream(checksumPath)` opens. -/
  checksumOpens : Bool

/-- The calls `writer.Key(k); writer.String(s.c_str())` when `s` is not empty. -/
def optionalString (key value : String) : List (String × JsonValue) :=
  if value ≠ "" then [(key, JsonValue.string (cStr value))] else []

/-- The function `writeCliSection`: the member that its writer calls describe. -/
def writeCliSection (cliParser : CliParserFns) (options : RunManifestOptions) : String × JsonValue :=
  ("cli", JsonValue.object
    ([("command", JsonValue.string (cStr options.cli.command)),
      ("arguments", JsonValue.array
        (options.cli.arguments.map (fun arg => JsonValue.string (cStr arg)))),
      ("exit_code", JsonValue.number (JsonNumber.int (cliParser.exitCodeToInt options.exitCode))),
      ("exit_code_name", JsonValue.string (cStr (cliParser.exitCodeToString options.exitCode))),
      ("json_mode", JsonValue.bool options.cli.jsonMode)] ++
     optionalString "project" options.cli.projectPath))

/-- The function `writePlatformSection`. -/
def writePlatformSection (platform : PlatformMetadata) : String × JsonValue :=
  ("platform", JsonValue.object
    [("os", JsonValue.string (cStr platform.operatingSystem)),
     ("cpu", JsonValue.string (cStr platform.cpu)),
     ("gpu", JsonValue.string (cStr platform.gpu)),
     ("driver_version", JsonValue.string (cStr platform.driverVersion)),
     ("kernel", JsonValue.string (cStr platform.kernel))])

/-- The function `writeEngineSection`. -/
def writeEngineSection (engine : EngineMetadata) : String × JsonValue :=
  ("engine", JsonValue.object
    [("version", JsonValue.string (cStr engine.version)),
     ("modules", JsonValue.array (engine.modules.map (fun module =>
        JsonValue.object
          ([("name", JsonValue.string (cStr module.name)),
            ("version", JsonValue.string (cStr module.version))] ++
           optionalString "hash" module.hash ++
           [("enabled", JsonValue.bool module.enabled)])))),
     ("assets", JsonValue.array (engine.assets.map (fun asset =>
        JsonValue.object
          ([("name", JsonValue.string (cStr asset.name)),
            ("version", JsonValue.string (cStr asset.version))] ++
           optionalString "hash" asset.hash ++
           optionalString "status" asset.status))))])

/-- The function `writeDeterminismSection`. -/
def writeDeterminismSection (determinism : DeterminismMetadata) : String × JsonValue :=
  ("determinism", JsonValue.object
    ([("rng_seed", JsonValue.number (JsonNumber.int determinism.rngSeed)),
      ("frame_batch", JsonValue.array
        (determinism.frames.map (fun frame => JsonValue.number (JsonNumber.int frame))))] ++
     optionalString "config_digest" determinism.configDigest ++
     optionalString "scene_digest" determinism.sceneDigest ++
     optionalString "template" determinism.templateName ++
     optionalString "git_revision" determinism.gitRevision ++
     (if determinism.shaderHashes ≠ [] then
        [("shader_hashes", JsonValue.array
          (determinism.shaderHashes.map (fun hash => JsonValue.string (cStr hash))))]
      else [])))

/-- The function `writeOutputsSection`. -/
def writeOutputsSection (outputDirectory : String) (frames : List FrameRecord)
    (warnings : List String) : String × JsonValue :=
  ("outputs", JsonValue.object
    [("render_path", JsonValue.string (cStr outputDirectory)),
     ("frames", JsonValue.array (frames.map (fun frame =>
        JsonValue.object
          ([("frame", JsonValue.number (JsonNumber.int frame.frame)),
            ("duration_ms", JsonValue.number (JsonNumber.double frame.durationMs))] ++
           optionalString "output" frame.output)))),
     ("warnings", JsonValue.array
        (warnings.map (fun warning => JsonValue.string (cStr warning))))])

/-- The value that the writer calls of `RunManifestWriter::write` describe, from
`writer.StartObject()` to the last `writer.EndObject()`. -/
def manifestDocument (cliParser : CliParserFns) (now : String)
    (options : RunManifestOptions) : JsonValue :=
  let timestamp := if options.timestampUtc = "" then now else options.timestampUtc
  JsonValue.object
    [("schema_version", JsonValue.string (cStr options.schemaVersion)),
     ("run_id", JsonValue.string (cStr options.runId)),
     ("timestamp_utc", JsonValue.string (cStr timestamp)),
     writeCliSection cliParser options,
     writePlatformSection options.platform,
     writeEngineSection options.engine,
     writeDeterminismSection options.determinism,
     writeOutputsSection options.outputDirectory options.frames options.warnings]

/-- How a call of `RunManifestWriter::write` ends. -/
inductive WriteOutcome where
  /-- The call threw `std::runtime_error` before it opened a stream for `run.json`. -/
  | threwBeforeOpen (what : String)
  /-- The stream for `run.json` did not open: the call threw. -/
  | threwOpenFailed
  /-- The stream for `run.json` opened and failed while writing: the call threw. -/
  | threwWriteFailed
  /-- The call returned: the content of `run.json`, and of the `.sha256` file when that
  was written. -/
  | written (manifest : ByteString) (checksumFile : Option String)

/-- The summary of `ValidationResult::getSummary()` for a failed validation. -/
def ValidationResult.getSummary (result : ValidationResult) : String :=
  if result.isValid then "Validation passed"
  else
    result.errors.foldl
      (fun acc err =>
        acc ++ "  - " ++ err.field ++ ": " ++ err.message ++ " [" ++ err.code ++ "]\n")
      ("Validation failed with " ++ toString result.errors.length ++ " error(s):\n")

/-- The text `buffer.GetString()` copied into the `std::string jsonContent` of `write`. -/
def manifestContent (env : WriterEnv) (options : RunManifestOptions) : ByteString :=
  cStrBytes (env.json.render (manifestDocument env.cliParser env.now options))

/-- The method `RunManifestWriter::write(options)`; `fileName` is
`m_manifestPath.filename().string()`. The call `ensureParentExists`, which creates the
directory of `run.json`, is not part of the outcome. -/
def RunManifestWriter.write (env : WriterEnv) (fileName : String)
    (options : RunManifestOptions) : WriteOutcome :=
  if options.runId = "" then
    WriteOutcome.threwBeforeOpen "RunManifestWriter::write requires a non-empty runId"
  else
    let jsonContent := manifestContent env options
    let validation := validateContent env.json.parse jsonContent true
    if !validation.isValid then
      WriteOutcome.threwBeforeOpen
        ("Generated manifest failed validation:\n" ++ validation.getSummary)
    else if !env.manifestOpens then WriteOutcome.threwOpenFailed
    else if !env.manifestWriteOk then WriteOutcome.threwWriteFailed
    else
      let manifest := jsonContent ++ [10]
      match validation.checksum with
      | none => WriteOutcome.written manifest none
      | some checksum =>
        if env.checksumOpens then
          WriteOutcome.written manifest (some (checksum ++ " *" ++ fileName ++ "\n"))
        else WriteOutcome.written manifest none

/-- Whether the call threw. -/
def WriteOutcome.threw : WriteOutcome → Bool
  | WriteOutcome.written _ _ => false
  | _ => true

/-- Whether the call opened a stream for `run.json`; when it did not, `run.json` is not
written. -/
def WriteOutcome.manifestOpened : WriteOutcome → Bool
  | WriteOutcome.written _ _ => true
  | WriteOutcome.threwWriteFailed => true
  | _ => false

/-- The content of `run.json` after a call that returned. -/
def WriteOutcome.manifest : WriteOutcome → Option ByteString
  | WriteOutcome.written manifest _ => some manifest
  | _ => none

/-- The checksum that the call recorded in the `.sha256` file: the text before the
separator ` *`, which is 64 characters long. -/
def WriteOutcome.recordedChecksum : WriteOutcome → Option String
  | WriteOutcome.written _ (some checksumFile) => some (String.mk (checksumFile.data.take 64))
  | _ => none

/-! ## `config_resolver.cpp` -/

/-- The enumeration `ConfigLayer`, from lowest to highest precedence. -/
inductive ConfigLayer where
  | BuiltInDefaults | GlobalConfig | Environment | WorkspaceConfig | ManifestDefaults
  | ManifestOverrides | CommandContext | CliFlags
  deriving DecidableEq, Repr

/-- The struct `ConfigProvenanceRecord`. -/
structure ConfigProvenanceRecord where
  layer : ConfigLayer
  source : String
  json : String
  deriving DecidableEq, Repr

/-- The map `provenance` of `ConfigSnapshot`, kept as the sequence of the calls
`provenance[keyPath].push_back(record)`: the vector under a key path is the subsequence
of the records appended under it. -/
abbrev Provenance := List (String × ConfigProvenanceRecord)

/-- The function `ConfigResolver::appendProvenance`; `serializeJson` is a parameter. -/
def appendProvenance (serializeJson : JsonValue → String) (keyPath : String)
    (value : JsonValue) (layer : ConfigLayer) (sourceLabel : String)
    (provenance : Provenance) : Provenance :=
  provenance ++ [(keyPath, { layer := layer, source := sourceLabel, json := serializeJson value })]

/-- The assignment `member->value = v` for the member that `FindMember(name)` finds. -/
def setMember : List (String × JsonValue) → String → JsonValue → List (String × JsonValue)
  | [], _, _ => []
  | (k, old) :: rest, name, v =>
    if k = name then (k, v) :: rest else (k, old) :: setMember rest name v

mutual

/-- The function `ConfigResolver::mergeValues(target, source, keyPath, provenance, layer,
sourceLabel, allocator)`: the target and the provenance after the call. -/
def mergeValues (serializeJson : JsonValue → String) (layer : ConfigLayer)
    (sourceLabel : String) :
    (source : JsonValue) → (target : JsonValue) → (keyPath : String) → Provenance →
      JsonValue × Provenance
  | JsonValue.object sourceMembers, target, keyPath, provenance =>
    if target.getType ≠ JsonType.kObjectType ∨ ¬ target.isObject then
      (JsonValue.object sourceMembers,
        appendProvenance serializeJson keyPath (JsonValue.object sourceMembers) layer
          sourceLabel provenance)
    else
      match target with
      | JsonValue.object targetMembers =>
        let r := mergeMembers serializeJson layer sourceLabel sourceMembers targetMembers
          keyPath provenance
        (JsonValue.object r.1, r.2)
      | _ =>
        (JsonValue.object sourceMembers,
          appendProvenance serializeJson keyPath (JsonValue.object sourceMembers) layer
            sourceLabel provenance)
  | source, _, keyPath, provenance =>
    (source, appendProvenance serializeJson keyPath source layer sourceLabel provenance)

/-- The loop over the members of `source` in `mergeValues`. -/
def mergeMembers (serializeJson : JsonValue → String) (layer : ConfigLayer)
    (sourceLabel : String) :
    (sourceMembers : List (String × JsonValue)) → (targetMembers : List (String × JsonValue)) →
      (keyPath : String) → Provenance → List (String × JsonValue) × Provenance
  | [], targetMembers, _, provenance => (targetMembers, provenance)
  | (name, value) :: rest, targetMembers, keyPath, provenance =>
    let childKeyPath := if keyPath = "" then cStr name else keyPath ++ "." ++ cStr name
    match JsonValue.findIn targetMembers name with
    | none =>
      mergeMembers serializeJson layer sourceLabel rest (targetMembers ++ [(name, value)])
        keyPath (appendProvenance serializeJson childKeyPath value layer sourceLabel provenance)
    | some member =>
      let r := mergeValues serializeJson layer sourceLabel value member childKeyPath provenance
      mergeMembers serializeJson layer sourceLabel rest (setMember targetMembers name r.1)
        keyPath r.2

end

/-- The loop over the members of `source` in `mergeDocuments`. -/
def mergeDocumentMembers (serializeJson : JsonValue → String) (layer : ConfigLayer)
    (sourceLabel : String) :
    (sourceMembers : List (String × JsonValue)) → (targetMembers : List (String × JsonValue)) →
      Provenance → List (String × JsonValue) × Provenance
  | [], targetMembers, provenance => (targetMembers, provenance)
  | (name, value) :: rest, targetMembers, provenance =>
    let keyPath := cStr name
    match JsonValue.findIn targetMembers name with
    | none =>
      mergeDocumentMembers serializeJson layer sourceLabel rest
        (targetMembers ++ [(name, value)])
        (appendProvenance serializeJson keyPath value layer sourceLabel provenance)
    | some member =>
      let r := mergeValues serializeJson layer sourceLabel value member keyPath provenance
      mergeDocumentMembers serializeJson layer sourceLabel rest
        (setMember targetMembers name r.1) r.2

/-- The struct `ConfigSnapshot`. -/
structure ConfigSnapshot where
  document : JsonValue
  provenance : Provenance

/-- The function `ConfigResolver::mergeDocuments(target, source, provenance, layer,
sourceLabel, allocator)`; the target document is an object. -/
def mergeDocuments (serializeJson : JsonValue → String) (snapshot : ConfigSnapshot)
    (source : JsonValue) (layer : ConfigLayer) (sourceLabel : String) : ConfigSnapshot :=
  match source, snapshot.document with
  | JsonValue.object sourceMembers, JsonValue.object targetMembers =>
    let r := mergeDocumentMembers serializeJson layer sourceLabel sourceMembers targetMembers
      snapshot.provenance
    { document := JsonValue.object r.1, provenance := r.2 }
  | _, _ => snapshot

/-- The function `ConfigResolver::buildBuiltInDefaults`. -/
def buildBuiltInDefaults : JsonValue :=
  JsonValue.object
    [("render", JsonValue.object
        [("device", JsonValue.string "auto"),
         ("samples", JsonValue.number (JsonNumber.int 64)),
         ("denoise", JsonValue.bool false)]),
     ("assets", JsonValue.object [("cache_dir", JsonValue.string "cache/assets")])]

/-- The documents that the loaders of `ConfigResolver::resolve` return, which read the
file system, the environment and the request. -/
structure LoadedLayers where
  globalConfig : JsonValue
  environmentVariables : JsonValue
  workspaceConfig : JsonValue
  manifestDefaults : JsonValue
  manifestOverrides : JsonValue
  commandContext : JsonValue
  cliFlags : JsonValue

/-- The array `layers` of `ConfigResolver::resolve`, with each loader replaced by the
document that it returns. -/
def resolveLayers (includeEnvironment : Bool) (loaded : LoadedLayers) :
    List (ConfigLayer × String × JsonValue) :=
  [(ConfigLayer.BuiltInDefaults, "built-in defaults", buildBuiltInDefaults),
   (ConfigLayer.GlobalConfig, "global config", loaded.globalConfig),
   (ConfigLayer.Environment, "environment variables",
     if !includeEnvironment then JsonValue.object [] else loaded.environmentVariables),
   (ConfigLayer.WorkspaceConfig, "workspace config", loaded.workspaceConfig),
   (ConfigLayer.ManifestDefaults, "manifest defaults", loaded.manifestDefaults),
   (ConfigLayer.ManifestOverrides, "manifest overrides", loaded.manifestOverrides),
   (ConfigLayer.CommandContext, "command context", loaded.commandContext),
   (ConfigLayer.CliFlags, "cli overrides", loaded.cliFlags)]

/-- The loop `for (const auto& spec : layers)` of `ConfigResolver::resolve`. -/
def resolveLoop (serializeJson : JsonValue → String) (snapshot : ConfigSnapshot) :
    List (ConfigLayer × String × JsonValue) → ConfigSnapshot
  | [] => snapshot
  | (layer, label, layerDoc) :: rest =>
    if !layerDoc.isObject || layerDoc.objectEmpty then resolveLoop serializeJson snapshot rest
    else resolveLoop serializeJson (mergeDocuments serializeJson snapshot layerDoc layer label) rest

/-- The method `ConfigResolver::resolve(request)`. -/
def resolve (serializeJson : JsonValue → String) (includeEnvironment : Bool)
    (loaded : LoadedLayers) : ConfigSnapshot :=
  resolveLoop serializeJson { document := JsonValue.object [], provenance := [] }
    (resolveLayers includeEnvironment loaded)

/-! ### Dot-paths of a document -/

/-- The value of a document at a path of member names. -/
def JsonValue.lookup : JsonValue → List String → Option JsonValue
  | v, [] => some v
  | JsonValue.object members, name :: rest =>
    match JsonValue.findIn members name with
    | none => none
    | some v => JsonValue.lookup v rest
  | _, _ :: _ => none

/-! ### The manifest schema as the claims describe it -/

/-- The object `obj` has a member `name`, and the first one satisfies `p`. -/
def JsonValue.memberIs (obj : JsonValue) (name : String) (p : JsonValue → Prop) : Prop :=
  ∃ v, obj.findMember name = some v ∧ p v

/-- The value is a string. -/
def JsonValue.IsStr (v : JsonValue) : Prop := ∃ s, v = JsonValue.string s

/-- The value is a number. -/
def JsonValue.IsNum (v : JsonValue) : Prop := ∃ n, v = JsonValue.number n

/-- The value is a boolean. -/
def JsonValue.IsBoolean (v : JsonValue) : Prop := ∃ b, v = JsonValue.bool b

/-- The value is an array. -/
def JsonValue.IsArr (v : JsonValue) : Prop := ∃ xs, v = JsonValue.array xs

/-- The value is an object. -/
def JsonValue.IsObj (v : JsonValue) : Prop := ∃ ms, v = JsonValue.object ms

/-- The shape of a run manifest of schema 1.0.0: an object in which `schema_version` is a
string that satisfies `versionOk`, `run_id` and `timestamp_utc` are strings, and `cli`,
`platform`, `engine`, `determinism` and `outputs` are objects with the members of the
schema. -/
def ManifestShape (versionOk : String → Prop) (doc : JsonValue) : Prop :=
  doc.IsObj ∧
  doc.memberIs "schema_version" (fun v => ∃ s, v = JsonValue.string s ∧ versionOk s) ∧
  doc.memberIs "run_id" JsonValue.IsStr ∧
  doc.memberIs "timestamp_utc" JsonValue.IsStr ∧
  doc.memberIs "cli" (fun cli => cli.IsObj ∧
    cli.memberIs "command" JsonValue.IsStr ∧ cli.memberIs "arguments" JsonValue.IsArr ∧
    cli.memberIs "exit_code" JsonValue.IsNum ∧ cli.memberIs "json_mode" JsonValue.IsBoolean) ∧
  doc.memberIs "platform" (fun platform => platform.IsObj ∧
    platform.memberIs "os" JsonValue.IsStr ∧ platform.memberIs "cpu" JsonValue.IsStr ∧
    platform.memberIs "gpu" JsonValue.IsStr ∧
    platform.memberIs "driver_version" JsonValue.IsStr ∧
    platform.memberIs "kernel" JsonValue.IsStr) ∧
  doc.memberIs "engine" (fun engine => engine.IsObj ∧
    engine.memberIs "version" JsonValue.IsStr ∧ engine.memberIs "modules" JsonValue.IsArr ∧
    engine.memberIs "assets" JsonValue.IsArr) ∧
  doc.memberIs "determinism" (fun determinism => determinism.IsObj ∧
    determinism.memberIs "rng_seed" JsonValue.IsNum ∧
    determinism.memberIs "frame_batch" JsonValue.IsArr) ∧
  doc.memberIs "outputs" (fun outputs => outputs.IsObj ∧
    outputs.memberIs "render_path" JsonValue.IsStr ∧ outputs.memberIs "frames" JsonValue.IsArr ∧
    outputs.memberIs "warnings" JsonValue.IsArr)

/-- The checks of `validateContent` on a parsed document, as one boolean. -/
def manifestChecks (doc : JsonValue) : Bool :=
  doc.isObject &&
  ((!isString doc "schema_version" ||
      decide ((doc.get "schema_version").getString = "1.0.0")) &&
   (doc.hasMember "schema_version" && doc.hasMember "run_id" &&
      doc.hasMember "timestamp_utc" && doc.hasMember "cli" && doc.hasMember "platform" &&
      doc.hasMember "engine" && doc.hasMember "determinism" && doc.hasMember "outputs") &&
   (isString doc "schema_version" && isString doc "run_id" &&
      isString doc "timestamp_utc" && isObject doc "cli" && isObject doc "platform" &&
      isObject doc "engine" && isObject doc "determinism" && isObject doc "outputs") &&
   (!isObject doc "cli" ||
      (isString (doc.get "cli") "command" && isArray (doc.get "cli") "arguments" &&
        isNumber (doc.get "cli") "exit_code" && isBool (doc.get "cli") "json_mode")) &&
   (!isObject doc "platform" ||
      (isString (doc.get "platform") "os" && isString (doc.get "platform") "cpu" &&
        isString (doc.get "platform") "gpu" &&
        isString (doc.get "platform") "driver_version" &&
        isString (doc.get "platform") "kernel")) &&
   (!isObject doc "engine" ||
      (isString (doc.get "engine") "version" && isArray (doc.get "engine") "modules" &&
        isArray (doc.get "engine") "assets")) &&
   (!isObject doc "determinism" ||
      (isNumber (doc.get "determinism") "rng_seed" &&
        isArray (doc.get "determinism") "frame_batch")) &&
   (!isObject doc "outputs" ||
      (isString (doc.get "outputs") "render_path" && isArray (doc.get "outputs") "frames" &&
        isArray (doc.get "outputs") "warnings")))

/-- A result in which `valid` holds exactly when there are no errors. -/
def ValidationResult.Consistent (r : ValidationResult) : Prop :=
  r.valid = true ↔ r.errors = []

/-- Whether `verifyChecksum` accepts the file that a call of `write` left, against the
checksum that the call recorded; `none` when the call recorded no checksum. -/
def checksumRoundTrip (outcome : WriteOutcome) : Option Bool :=
  match outcome.recordedChecksum with
  | none => none
  | some checksum => some (verifyChecksum outcome.manifest checksum)

/-! ### A concrete run of the writer -/

/-- An instance of the functions of `cli_parser.h`: the enumerators under their own
names, numbered from 0. -/
def sampleCliParser : CliParserFns :=
  { exitCodeToString := fun code =>
      match code with
      | CLIExitCode.Success => "Success"
      | CLIExitCode.SchemaValidationError => "SchemaValidationError"
      | CLIExitCode.FileNotFound => "FileNotFound"
      | CLIExitCode.DependencyError => "DependencyError"
      | CLIExitCode.RuntimeError => "RuntimeError"
      | CLIExitCode.UnknownFlag => "UnknownFlag"
    exitCodeToInt := fun code =>
      match code with
      | CLIExitCode.Success => 0
      | CLIExitCode.SchemaValidationError => 1
      | CLIExitCode.FileNotFound => 2
      | CLIExitCode.DependencyError => 3
      | CLIExitCode.RuntimeError => 4
      | CLIExitCode.UnknownFlag => 5 }

/-- Options with a run id and a timestamp, and defaults elsewhere. -/
def sampleOptions : RunManifestOptions :=
  { runId := "run-1", timestampUtc := "2025-01-01T00:00:00.000000000Z" }

/-- The compact JSON text of the manifest of `sampleOptions`. -/
def sampleManifestText : String :=
  "\x7b\"schema_version\":\"1.0.0\",\"run_id\":\"run-1\"," ++
  "\"timestamp_utc\":\"2025-01-01T00:00:00.000000000Z\"," ++
  "\"cli\":\x7b\"command\":\"\",\"arguments\":[],\"exit_code\":0," ++
  "\"exit_code_name\":\"Success\",\"json_mode\":false\x7d," ++
  "\"platform\":\x7b\"os\":\"\",\"cpu\":\"\",\"gpu\":\"\",\"driver_version\":\"\"," ++
  "\"kernel\":\"\"\x7d," ++
  "\"engine\":\x7b\"version\":\"\",\"modules\":[],\"assets\":[]\x7d," ++
  "\"determinism\":\x7b\"rng_seed\":0,\"frame_batch\":[]\x7d," ++
  "\"outputs\":\x7b\"render_path\":\"\",\"frames\":[],\"warnings\":[]\x7d\x7d"

/-- An environment for `sampleOptions`: the writer produces `sampleManifestText`, the
parser reads it back, and all streams open. -/
def sampleEnv : WriterEnv :=
  { cliParser := sampleCliParser
    json :=
      { render := fun _ => asciiBytes sampleManifestText
        parse := fun _ => Except.ok (manifestDocument sampleCliParser "" sampleOptions) }
    now := ""
    manifestOpens := true
    manifestWriteOk := true
    checksumOpens := true }

/-- Options whose schema version is not supported. -/
def unsupportedOptions : RunManifestOptions :=
  { sampleOptions with schemaVersion := "2.0.0" }

/-- An environment for `unsupportedOptions`: the parser reads the document back. -/
def unsupportedEnv : WriterEnv :=
  { sampleEnv with
    json :=
      { render := fun _ => asciiBytes sampleManifestText
        parse := fun _ => Except.ok (manifestDocument sampleCliParser "" unsupportedOptions) } }

/-- The document of the JSON text of `sampleOptions` in which the schema version is
written `"1.0.0\u0000beta"`: a string of ten characters, with a NUL after `1.0.0`. -/
def nulVersionDocument : JsonValue :=
  match manifestDocument sampleCliParser "" sampleOptions with
  | JsonValue.object (_ :: rest) =>
    JsonValue.object (("schema_version", JsonValue.string "1.0.0\x00beta") :: rest)
  | doc => doc

/-! ### The document part of the merge, and the layers as the claims describe them -/

mutual

/-- The document that `mergeValues` leaves in `target`. -/
def mergeDoc : (source : JsonValue) → (target : JsonValue) → JsonValue
  | JsonValue.object sourceMembers, JsonValue.object targetMembers =>
    JsonValue.object (mergeDocMembers sourceMembers targetMembers)
  | source, _ => source

/-- The members that the loop of `mergeValues` leaves in `target`. -/
def mergeDocMembers :
    (sourceMembers : List (String × JsonValue)) → (targetMembers : List (String × JsonValue)) →
      List (String × JsonValue)
  | [], targetMembers => targetMembers
  | (name, value) :: rest, targetMembers =>
    match JsonValue.findIn targetMembers name with
    | none => mergeDocMembers rest (targetMembers ++ [(name, value)])
    | some member => mergeDocMembers rest (setMember targetMembers name (mergeDoc value member))

end

mutual

/-- Whether the names of the members of every object under the value are distinct. -/
def JsonValue.distinctNames : JsonValue → Bool
  | JsonValue.object members => membersDistinct members
  | _ => true

/-- Whether the names in a member list are distinct, also in the objects under them. -/
def membersDistinct : List (String × JsonValue) → Bool
  | [] => true
  | (name, value) :: rest =>
    (JsonValue.findIn rest name).isNone && value.distinctNames && membersDistinct rest

end

/-- Whether a document has no value on a path or on a prefix of it where one would replace
the path: on the way down the path the document has objects until a name is absent. -/
def JsonValue.leavesAlone : JsonValue → List String → Bool
  | _, [] => false
  | JsonValue.object members, name :: rest =>
    match JsonValue.findIn members name with
    | none => true
    | some v => v.leavesAlone rest
  | _, _ :: _ => false

/-- Whether a layer leaves a path alone: a layer that is no object is skipped, and an
object is to have no value on the path or on a prefix of it. -/
def JsonValue.layerLeavesAlone (layerDoc : JsonValue) (path : List String) : Bool :=
  !layerDoc.isObject || layerDoc.leavesAlone path

/-- The names at the top of a member list are distinct. -/
def topDistinct : List (String × JsonValue) → Prop
  | [] => True
  | (name, _) :: rest => JsonValue.findIn rest name = none ∧ topDistinct rest


/-! ### Concrete configuration layers -/

/-- A workspace configuration that sets `render.samples` to 128. -/
def workspaceSamples : JsonValue :=
  JsonValue.object
    [("render", JsonValue.object [("samples", JsonValue.number (JsonNumber.int 128))])]

/-- Loaded layers in which only the workspace configuration has members. -/
def loadedWorkspaceOnly : LoadedLayers :=
  { globalConfig := JsonValue.object []
    environmentVariables := JsonValue.object []
    workspaceConfig := workspaceSamples
    manifestDefaults := JsonValue.object []
    manifestOverrides := JsonValue.object []
    commandContext := JsonValue.object []
    cliFlags := JsonValue.object [] }

/-- Loaded layers in which the workspace configuration sets `render.samples` and the CLI
overrides set `render` to the string `off`. -/
def loadedWithScalarOverride : LoadedLayers :=
  { loadedWorkspaceOnly with
    cliFlags := JsonValue.object [("render", JsonValue.string "off")] }

/-! ## SHA-256 as FIPS 180-4 describes it

The second definition of the checksum, after the words of the standard: the functions of
section 4.1.2, the constants of sections 4.2.2 and 5.3.3, the padding of section 5.1.1,
the parsing of section 5.2.1 and the hash computation of section 6.2.2, on messages that
are sequences of bytes. -/

namespace FIPS180

/-- Trial division: `n` has no divisor `d` with `2 ≤ d < n`. -/
def isPrime (n : Nat) : Bool := decide (2 ≤ n) && (List.range n).all (fun d => d < 2 || n % d != 0)

/-- The first sixty-four prime numbers: the primes below 312. -/
def primes : List Nat := (List.range 312).filter isPrime

/-- Binary search for the integer part of a root: the bits of the result from `bit - 1`
down to 0, on top of `acc`. -/
def floorRootFrom (k n : Nat) : Nat → Nat → Nat
  | 0, acc => acc
  | bit + 1, acc =>
    if (acc + 2 ^ bit) ^ k ≤ n then floorRootFrom k n bit (acc + 2 ^ bit)
    else floorRootFrom k n bit acc

/-- The integer part of the `k`-th root of `n`, for `n < 2 ^ (64 * k)`. -/
def floorRoot (k n : Nat) : Nat := floorRootFrom k n 64 0

/-- The constant `K_t`: the first thirty-two bits of the fractional part of the cube
root of the prime of index `t`. -/
def K (t : Nat) : Nat := floorRoot 3 (primes.getD t 0 * 2 ^ 96) % 2 ^ 32

/-- The word `H_j` of the initial hash value: the first thirty-two bits of the fractional
part of the square root of the prime of index `j`. -/
def initialHash (j : Nat) : Nat := floorRoot 2 (primes.getD j 0 * 2 ^ 64) % 2 ^ 32

/-- The initial hash value `H(0)`. -/
def H0 : List Nat := (List.range 8).map initialHash

/-- The operation `ROTR n x` on 32-bit words: `(x >> n) ∨ (x << 32 - n)`. -/
def ROTR (n x : Nat) : Nat := (x >>> n) ||| ((x <<< (32 - n)) % 2 ^ 32)

/-- The operation `SHR n x`. -/
def SHR (n x : Nat) : Nat := x >>> n

/-- The bitwise complement of a 32-bit word. -/
def complement (x : Nat) : Nat := 2 ^ 32 - 1 - x

/-- The function `Ch(x, y, z) = (x ∧ y) ⊕ (¬x ∧ z)`. -/
def Ch (x y z : Nat) : Nat := (x &&& y) ^^^ (complement x &&& z)

/-- The function `Maj(x, y, z) = (x ∧ y) ⊕ (x ∧ z) ⊕ (y ∧ z)`. -/
def Maj (x y z : Nat) : Nat := (x &&& y) ^^^ (x &&& z) ^^^ (y &&& z)

/-- The function `Σ0`. -/
def bigSigma0 (x : Nat) : Nat := ROTR 2 x ^^^ ROTR 13 x ^^^ ROTR 22 x

/-- The function `Σ1`. -/
def bigSigma1 (x : Nat) : Nat := ROTR 6 x ^^^ ROTR 11 x ^^^ ROTR 25 x

/-- The function `σ0`. -/
def smallSigma0 (x : Nat) : Nat := ROTR 7 x ^^^ ROTR 18 x ^^^ SHR 3 x

/-- The function `σ1`. -/
def smallSigma1 (x : Nat) : Nat := ROTR 17 x ^^^ ROTR 19 x ^^^ SHR 10 x

/-- The number `k` of zero bits of the padding of a message of `l` bits: the smallest
non-negative solution of `l + 1 + k ≡ 448 (mod 512)`. -/
def zeroBits (l : Nat) : Nat := (447 + 512 - l % 512) % 512

/-- The 64-bit block that holds the number `l` in binary, as eight bytes. -/
def lengthBlock (l : Nat) : List Nat :=
  (List.range 8).map (fun j => (l >>> (8 * (7 - j))) % 256)

/-- The padded message: the message, the bit 1 followed by `k` zero bits (the byte `0x80`
and `(k - 7) / 8` zero bytes), and the length block. -/
def pad (message : List Nat) : List Nat :=
  message ++ [0x80] ++ List.replicate ((zeroBits (8 * message.length) - 7) / 8) 0 ++
    lengthBlock (8 * message.length)

/-- The parsing of a padded message into blocks of 512 bits: block `i` is the bytes from
`64 * i` on. -/
def blocks (bytes : List Nat) : List (List Nat) :=
  (List.range (bytes.length / 64)).map (fun i => (bytes.drop (64 * i)).take 64)

/-- The word `M_j` of a block: its bytes `4 j` to `4 j + 3`, the first one leftmost. -/
def blockWord (block : List Nat) (j : Nat) : Nat :=
  ((block.getD (4 * j) 0 <<< 24) ||| (block.getD (4 * j + 1) 0 <<< 16) |||
    (block.getD (4 * j + 2) 0 <<< 8) ||| block.getD (4 * j + 3) 0) % 2 ^ 32

/-- The message schedule `W_t` of a block. -/
def W (block : List Nat) (t : Nat) : Nat :=
  if t < 16 then blockWord block t
  else
    (smallSigma1 (W block (t - 2)) + W block (t - 7) + smallSigma0 (W block (t - 15)) +
      W block (t - 16)) % 2 ^ 32
termination_by t
decreasing_by all_goals omega

/-- The working variables `a, b, c, d, e, f, g, h`. -/
structure Working where
  a : Nat
  b : Nat
  c : Nat
  d : Nat
  e : Nat
  f : Nat
  g : Nat
  h : Nat

/-- Step 3 of the hash computation for one `t`. -/
def step (block : List Nat) (t : Nat) (v : Working) : Working :=
  let T1 := (v.h + bigSigma1 v.e + Ch v.e v.f v.g + K t + W block t) % 2 ^ 32
  let T2 := (bigSigma0 v.a + Maj v.a v.b v.c) % 2 ^ 32
  { h := v.g, g := v.f, f := v.e, e := (v.d + T1) % 2 ^ 32, d := v.c, c := v.b, b := v.a
    a := (T1 + T2) % 2 ^ 32 }

/-- The working variables after the steps `t = 0, ..., n - 1`, from the hash value `H`. -/
def steps (H : List Nat) (block : List Nat) : Nat → Working
  | 0 =>
    { a := H.getD 0 0, b := H.getD 1 0, c := H.getD 2 0, d := H.getD 3 0, e := H.getD 4 0
      f := H.getD 5 0, g := H.getD 6 0, h := H.getD 7 0 }
  | n + 1 => step block n (steps H block n)

/-- The intermediate hash value `H(i)` from `H(i-1)` and the block `M(i)`. -/
def compress (H : List Nat) (block : List Nat) : List Nat :=
  let v := steps H block 64
  [(H.getD 0 0 + v.a) % 2 ^ 32, (H.getD 1 0 + v.b) % 2 ^ 32, (H.getD 2 0 + v.c) % 2 ^ 32,
   (H.getD 3 0 + v.d) % 2 ^ 32, (H.getD 4 0 + v.e) % 2 ^ 32, (H.getD 5 0 + v.f) % 2 ^ 32,
   (H.getD 6 0 + v.g) % 2 ^ 32, (H.getD 7 0 + v.h) % 2 ^ 32]

/-- The hash value after the blocks of a sequence of bytes. -/
def hashBlocks (H : List Nat) (bytes : List Nat) : List Nat := (blocks bytes).foldl compress H

/-- The final hash value `H(N)` of a message. -/
def sha256 (message : List UInt8) : List Nat :=
  hashBlocks H0 (pad (message.map UInt8.toNat))

/-- The four bytes of a 32-bit word, the most significant first. -/
def wordBytes (w : Nat) : List Nat :=
  [(w >>> 24) % 256, (w >>> 16) % 256, (w >>> 8) % 256, w % 256]

/-- The message digest: the 256 bits `H0 ‖ ... ‖ H7` of the final hash value, as 32
bytes. -/
def digest (message : List UInt8) : List Nat := (sha256 message).flatMap wordBytes

/-- The two lowercase hexadecimal digits of a byte. -/
def hexByte (b : Nat) : List Char :=
  ["0123456789abcdef".data.getD (b / 16) '0', "0123456789abcdef".data.getD (b % 16) '0']

/-- The message digest in lowercase hexadecimal. -/
def hexDigest (message : List UInt8) : String := String.mk ((digest message).flatMap hexByte)

end FIPS180

/-! ### Notions for the proof that `SHA256` computes the digest -/

/-- The working variables of `transform` as those of the standard. -/
def SHA256.Vars.toWorking (v : SHA256.Vars) : FIPS180.Working :=
  { a := v.a, b := v.b, c := v.c, d := v.d, e := v.e, f := v.f, g := v.g, h := v.h }

/-- The bytes of a sequence after its last complete block. -/
def tailBytes (bytes : List Nat) : List Nat := bytes.drop (64 * (bytes.length / 64))

/-- The buffer of a `SHA256` object holds the pending bytes: `m_blocklen` of them, fewer
than 64, at the start of the 64 entries of `m_data`. -/
def SHA256.Holds (s : SHA256) (pending : List Nat) : Prop :=
  s.m_blocklen = pending.length ∧ pending.length < 64 ∧ s.m_data.length = 64 ∧
    ∀ j, j < pending.length → s.m_data.getD j 0 = pending.getD j 0

/-! ## Further notions of `triangle.h`, `RayUtils.h` and `microfacet_sampling.h` -/

/-- The local `avgDist` of `Triangle::intersect`: the mean distance of the three vertices
from the coordinate origin. -/
def Triangle.avgDist {K : Type} [LinearOrderedField K] (sqrt : K → K) (tri : Triangle K) : K :=
  (Vec3.length sqrt tri.v0 + Vec3.length sqrt tri.v1 + Vec3.length sqrt tri.v2) / 3

/-- The local `maxDiff` of `Triangle::intersect`: the largest deviation of a vertex distance
from `avgDist`. -/
def Triangle.maxDiff {K : Type} [LinearOrderedField K] (sqrt : K → K) (tri : Triangle K) : K :=
  max3 |Vec3.length sqrt tri.v0 - tri.avgDist sqrt| |Vec3.length sqrt tri.v1 - tri.avgDist sqrt|
    |Vec3.length sqrt tri.v2 - tri.avgDist sqrt|

/-- The entry parameter of the slab method: the largest of the three per-axis entry
parameters, which is the final value of the variable `tmin` of `rayIntersectsAABB`. -/
def slabEntry {K : Type} [LinearOrderedField K] (ray : Ray K) (aabbMin aabbMax : Vec3 K) : K :=
  max (max (min ((aabbMin.x - ray.origin.x) / ray.direction.x)
                ((aabbMax.x - ray.origin.x) / ray.direction.x))
           (min ((aabbMin.y - ray.origin.y) / ray.direction.y)
                ((aabbMax.y - ray.origin.y) / ray.direction.y)))
      (min ((aabbMin.z - ray.origin.z) / ray.direction.z)
           ((aabbMax.z - ray.origin.z) / ray.direction.z))

/-- The exit parameter of the slab method: the smallest of the three per-axis exit
parameters, which is the final value of the variable `tmax` of `rayIntersectsAABB`. -/
def slabExit {K : Type} [LinearOrderedField K] (ray : Ray K) (aabbMin aabbMax : Vec3 K) : K :=
  min (min (max ((aabbMin.x - ray.origin.x) / ray.direction.x)
                ((aabbMax.x - ray.origin.x) / ray.direction.x))
           (max ((aabbMin.y - ray.origin.y) / ray.direction.y)
                ((aabbMax.y - ray.origin.y) / ray.direction.y)))
      (max ((aabbMin.z - ray.origin.z) / ray.direction.z)
           ((aabbMax.z - ray.origin.z) / ray.direction.z))

/-- The inline function `microfacet::reflect(incident, normal)`, read in exact
arithmetic; `Binary32.reflect` is the same text in `float` arithmetic. -/
def reflect {K : Type} [LinearOrderedField K] (incident normal : Vec3 K) : Vec3 K :=
  Vec3.sub incident (Vec3.smul (2 * Vec3.dot incident normal) normal)

/-- The ray from `(1/4, 1/4, 1)` straight up, away from the plane `z = 0`. -/
def upRay : Ray ℚ := ⟨⟨1 / 4, 1 / 4, 1⟩, ⟨0, 0, 1⟩⟩

/-- A ray from `(1/4, 1/4, 1)` downwards whose direction has no zero component. -/
def steepRay : Ray ℚ := ⟨⟨1 / 4, 1 / 4, 1⟩, ⟨1 / 100, 1 / 100, -1⟩⟩

/-- The unit triangle moved to the plane `z = -1`. -/
def lowerTriangle : Triangle ℚ := ⟨⟨0, 0, -1⟩, ⟨1, 0, -1⟩, ⟨0, 1, -1⟩, ⟨0, 0, 1⟩⟩

/-! ## `BVHNode.h` -/

/-- The class `BVHNode` as the target of a pointer `BVHNode*`: `null` is the null pointer,
and `node` carries the fields `boundsMin`, `boundsMax`, `triangles`, `left` and `right`. -/
inductive BVHNode (K : Type) where
  | null : BVHNode K
  | node (boundsMin boundsMax : Vec3 K) (triangles : List (Triangle K))
      (left right : BVHNode K) : BVHNode K

/-- A closest hit `(triangle, t, normal)`. -/
abbrev Hit (K : Type) := Triangle K × K × Vec3 K

/-- Modelled from the spec: the rule "keep the one with smallest `t`" of section 4.3, which
is part of the absent `BVHNode::intersect`: of two candidates the one with the smaller `t`,
and the earlier one when both have the same `t`. -/
def closerHit {K : Type} [LinearOrderedField K] : Option (Hit K) → Option (Hit K) → Option (Hit K)
  | none, b => b
  | some a, none => some a
  | some a, some b => if b.2.1 < a.2.1 then some b else some a

/-- Modelled from the spec: the brute-force linear scan of a list of triangles with
`Triangle::intersect` that keeps the hit with the smallest `t` (sections 4.3 and 8; no such
scan is under `src/`); `best` is the closest hit so far. -/
def scanTriangles {K : Type} [LinearOrderedField K] (sqrt : K → K) (ray : Ray K) :
    List (Triangle K) → Option (Hit K) → Option (Hit K)
  | [], best => best
  | tri :: rest, best =>
    if (tri.intersect sqrt ray 0 ⟨0, 0, 0⟩).1 = true then
      scanTriangles sqrt ray rest
        (closerHit best (some (tri, (tri.intersect sqrt ray 0 ⟨0, 0, 0⟩).2)))
    else scanTriangles sqrt ray rest best

/-- Modelled from the spec: the brute-force scan of all triangles, from no hit. -/
def bruteForceIntersect {K : Type} [LinearOrderedField K] (sqrt : K → K) (ray : Ray K)
    (triangles : List (Triangle K)) : Option (Hit K) :=
  scanTriangles sqrt ray triangles none

/-- Modelled from the spec: the method `BVHNode::intersect(ray, outTri, outT, outNormal)`,
which `BVHNode.h` declares and no file under `src/` defines, after section 4.3: a subtree
whose bounding box the ray misses (`rayIntersectsAABB`) is pruned; every triangle stored
in the node is tested; among these hits and the hits of both children the one with the
smallest `t` is kept. The result is `none` when the method returns false, and the values
of `outTri`, `outT`, `outNormal` when it returns true. -/
def BVHNode.intersect {K : Type} [LinearOrderedField K] (sqrt : K → K) (ray : Ray K) :
    BVHNode K → Option (Hit K)
  | BVHNode.null => none
  | BVHNode.node boundsMin boundsMax triangles left right =>
    if (rayIntersectsAABB ray boundsMin boundsMax 0).1 = true then
      closerHit
        (closerHit (bruteForceIntersect sqrt ray triangles) (left.intersect sqrt ray))
        (right.intersect sqrt ray)
    else none

/-- The triangles reachable beneath a node: its own, then those of the left and of the
right child. -/
def BVHNode.allTriangles {K : Type} : BVHNode K → List (Triangle K)
  | BVHNode.null => []
  | BVHNode.node _ _ triangles left right =>
    triangles ++ (left.allTriangles ++ right.allTriangles)

/-- The three vertices of a triangle lie in the closed box. -/
def Triangle.inBounds {K : Type} [LinearOrderedField K] (tri : Triangle K)
    (boundsMin boundsMax : Vec3 K) : Prop :=
  inBox tri.v0 boundsMin boundsMax ∧ inBox tri.v1 boundsMin boundsMax ∧
    inBox tri.v2 boundsMin boundsMax

/-- Modelled from the spec: the invariant of a built BVH (sections 3 and 4.3; the
construction is not under `src/`): the bounds of every node contain every triangle
reachable beneath it. -/
def BVHNode.Bounded {K : Type} [LinearOrderedField K] : BVHNode K → Prop
  | BVHNode.null => True
  | BVHNode.node boundsMin boundsMax triangles left right =>
    (∀ tri ∈ triangles ++ (left.allTriangles ++ right.allTriangles),
        tri.inBounds boundsMin boundsMax) ∧
      left.Bounded ∧ right.Bounded

/-- A tree of two leaves: `lowerTriangle` on the left and `unitTriangle` on the right. -/
def sampleTree : BVHNode ℚ :=
  BVHNode.node ⟨0, 0, -1⟩ ⟨1, 1, 0⟩ []
    (BVHNode.node ⟨0, 0, -1⟩ ⟨1, 1, -1⟩ [lowerTriangle] BVHNode.null BVHNode.null)
    (BVHNode.node ⟨0, 0, 0⟩ ⟨1, 1, 0⟩ [unitTriangle] BVHNode.null BVHNode.null)

/-! ## `command_dispatcher.cpp`: the placeholder command -/

/-- The method `StubCommand::run`: the exit code it returns and the error tag of the
`command_failed` event it emits. -/
def StubCommand.run (_context : CommandExecutionContext) : CLIExitCode × String :=
  (CLIExitCode.RuntimeError, "not_implemented")

/-! ## `config_resolver.cpp`: the records under a key path -/

/-- The vector `provenance[keyPath]`: the records appended under the key path, in order. -/
def Provenance.recordsAt (provenance : Provenance) (keyPath : String) :
    List ConfigProvenanceRecord :=
  (provenance.filter (fun entry => entry.1 = keyPath)).map (fun entry => entry.2)

/-- Loaded layers without members: only the built-in defaults contribute. -/
def loadedNothing : LoadedLayers :=
  { loadedWorkspaceOnly with workspaceConfig := JsonValue.object [] }

/-- Loaded layers in which the workspace configuration sets `render.device`, the manifest
defaults replace `render` by a string, and the CLI overrides set `render` to an object
again. -/
def loadedReplacedTwice : LoadedLayers :=
  { loadedNothing with
    workspaceConfig :=
      JsonValue.object [("render", JsonValue.object [("device", JsonValue.string "gpu")])]
    manifestDefaults := JsonValue.object [("render", JsonValue.string "off")]
    cliFlags :=
      JsonValue.object [("render", JsonValue.object [("device", JsonValue.string "cpu")])] }

/-! ## `workspace_locks.cpp` -/

/-- The struct `ModuleLockEntry`. -/
structure ModuleLockEntry where
  name : String
  version : String
  enabled : Bool := true
  hash : String
  deriving DecidableEq, Repr

/-- The struct `AssetLockEntry`. -/
structure AssetLockEntry where
  name : String
  version : String
  status : String
  hash : String
  deriving DecidableEq, Repr

/-- The template `findIndexByName(entries, name)`; `nameOf` is the member access `.name`
of the entry type. -/
def findIndexByName {T : Type} (nameOf : T → String) : List T → String → Option Nat
  | [], _ => none
  | entry :: rest, name =>
    if nameOf entry = name then some 0
    else match findIndexByName nameOf rest name with
      | some i => some (i + 1)
      | none => none

/-- The class `ModuleRegistry`. -/
structure ModuleRegistry where
  m_lockPath : String
  m_modules : List ModuleLockEntry
  deriving DecidableEq, Repr

/-- The class `AssetRegistry`. -/
structure AssetRegistry where
  m_lockPath : String
  m_assets : List AssetLockEntry
  deriving DecidableEq, Repr

/-- The method `ModuleRegistry::upsert(entry)`. -/
def ModuleRegistry.upsert (registry : ModuleRegistry) (entry : ModuleLockEntry) :
    ModuleRegistry :=
  if entry.name.isEmpty then registry
  else match findIndexByName ModuleLockEntry.name registry.m_modules entry.name with
    | some index => { registry with m_modules := registry.m_modules.set index entry }
    | none => { registry with m_modules := registry.m_modules ++ [entry] }

/-- The method `ModuleRegistry::find(moduleName)`; the index that `findIndexByName` returns
is in range, so that the element access is defined. -/
def ModuleRegistry.find (registry : ModuleRegistry) (moduleName : String) :
    Option ModuleLockEntry :=
  match findIndexByName ModuleLockEntry.name registry.m_modules moduleName with
  | some index => registry.m_modules[index]?
  | none => none

/-- The method `AssetRegistry::upsert(entry)`. -/
def AssetRegistry.upsert (registry : AssetRegistry) (entry : AssetLockEntry) : AssetRegistry :=
  if entry.name.isEmpty then registry
  else match findIndexByName AssetLockEntry.name registry.m_assets entry.name with
    | some index => { registry with m_assets := registry.m_assets.set index entry }
    | none => { registry with m_assets := registry.m_assets ++ [entry] }

/-- The method `AssetRegistry::find(assetName)`; the index that `findIndexByName` returns
is in range, so that the element access is defined. -/
def AssetRegistry.find (registry : AssetRegistry) (assetName : String) :
    Option AssetLockEntry :=
  match findIndexByName AssetLockEntry.name registry.m_assets assetName with
  | some index => registry.m_assets[index]?
  | none => none

/-- The entry that `find` returns, for any entry type: the first one of that name. -/
def lookupByName {T : Type} (nameOf : T → String) (entries : List T) (name : String) :
    Option T :=
  match findIndexByName nameOf entries name with
  | some index => entries[index]?
  | none => none

/-- A registry with the modules `core` and `io`. -/
def sampleModules : ModuleRegistry :=
  { m_lockPath := "modules/modules.lock"
    m_modules := [⟨"core", "1.0.0", true, ""⟩, ⟨"io", "0.3.1", false, "abc"⟩] }

/-- A registry with the asset `bunny`. -/
def sampleAssets : AssetRegistry :=
  { m_lockPath := "assets/assets.lock"
    m_assets := [⟨"bunny", "2", "ready", ""⟩] }

/-- A new version of the module `io`. -/
def ioUpdate : ModuleLockEntry := ⟨"io", "0.4.0", true, ""⟩

/-- An asset that `sampleAssets` does not hold. -/
def teapot : AssetLockEntry := ⟨"teapot", "1", "pending", ""⟩

/-! ## Reversed winding -/

/-- The triangle with reversed winding `(v0, v2, v1)`, with any stored normal (the
constructor derives the opposite one). -/
def Triangle.reversed {K : Type} (tri : Triangle K) (normal : Vec3 K) : Triangle K :=
  ⟨tri.v0, tri.v2, tri.v1, normal⟩

/-! ## Binary32 arithmetic

The C++ type `float` as the source uses it: IEEE 754 binary32 with signed zeros,
infinities and NaN, every operation rounded to nearest, ties to even. -/

/-- A value of the type `float`: `finite s m e` is the number `(-1)^s * m * 2^e`, where
`m < 2^24` and `-149 ≤ e ≤ 104`, and `2^23 ≤ m` unless `e = -149` (zero and the
subnormal numbers); `inf s` is the infinity of sign `s`; `nan` is any NaN. -/
inductive F32 where
  | finite (sign : Bool) (mant : Nat) (exp : Int)
  | inf (sign : Bool)
  | nan
  deriving DecidableEq, Repr

namespace F32

/-- The number of bits of `n`, for `n < 2^fuel`. -/
def bitsAux : Nat → Nat → Nat
  | 0, _ => 0
  | fuel + 1, n => if n = 0 then 0 else bitsAux fuel (n / 2) + 1

/-- The number of bits of `n`: the least `k` with `n < 2^k`, for `n < 2^512`. -/
def bitLength (n : Nat) : Nat := bitsAux 512 n

/-- Rounding to nearest, ties to even: the binary32 value of the number `n * 2^e`, or, when
`sticky` is set, of a number strictly between `n * 2^e` and `(n + 1) * 2^e`, with the sign
`sign`. With `sticky` the number `n` has more than 24 bits. -/
def round (sign : Bool) (n : Nat) (e : Int) (sticky : Bool) : F32 :=
  if n = 0 then finite sign 0 (-149)
  else
    let target := max (e + bitLength n - 24) (-149)
    if target ≤ e then
      if target > 104 then inf sign else finite sign (n <<< (e - target).toNat) target
    else
      let sh := (target - e).toNat
      let q := n >>> sh
      let rest := n % 2 ^ sh
      let half := 2 ^ (sh - 1)
      let up := decide (rest > half) || (decide (rest = half) && (sticky || q % 2 == 1))
      let m := if up then q + 1 else q
      if m = 2 ^ 24 then
        if target + 1 > 104 then inf sign else finite sign (2 ^ 23) (target + 1)
      else if target > 104 then inf sign
      else finite sign m target

/-- The integer `x * 2^149` of a finite value `x`. -/
def scaled (sign : Bool) (mant : Nat) (exp : Int) : Int :=
  (if sign then -1 else 1) * ((mant * 2 ^ (exp + 149).toNat : Nat) : Int)

/-- The number that a finite value stands for; 0 for the infinities and NaN. -/
def toRat : F32 → ℚ
  | finite sign mant exp => (if sign then -1 else 1) * (mant : ℚ) * (2 : ℚ) ^ exp
  | _ => 0

/-- The value is a number: no infinity and no NaN. -/
def isFinite : F32 → Bool
  | finite _ _ _ => true
  | _ => false

/-- The value is a NaN. -/
def isNaN : F32 → Bool
  | nan => true
  | _ => false

/-- The finite values of the type `float` have `m < 2^24` and `-149 ≤ e ≤ 104`. -/
def Valid : F32 → Prop
  | finite _ mant exp => mant < 2 ^ 24 ∧ -149 ≤ exp ∧ exp ≤ 104
  | _ => True

/-- A non-negative integer as a `float` (`static_cast<float>`, integer literals). -/
def ofNat (n : Nat) : F32 := round false n 0 false

/-- An integer as a `float`. -/
def ofInt (i : Int) : F32 := round (decide (i < 0)) i.natAbs 0 false

/-- The quotient `n / d` of two positive integers as a `float`: the value of a decimal
literal such as `1e-6f`, `0.1f` or `0.999999f`. -/
def ofRatio (n d : Nat) : F32 :=
  let k := 26 + bitLength d
  round false ((n <<< k) / d) (-(k : Int)) (decide ((n <<< k) % d ≠ 0))

/-- Unary minus. -/
def neg : F32 → F32
  | finite sign mant exp => finite (!sign) mant exp
  | inf sign => inf (!sign)
  | nan => nan

/-- The function `std::abs`. -/
def abs : F32 → F32
  | finite _ mant exp => finite false mant exp
  | inf _ => inf false
  | nan => nan

/-- The operator `+`. -/
def add : F32 → F32 → F32
  | nan, _ => nan
  | _, nan => nan
  | inf s, inf t => if s = t then inf s else nan
  | inf s, finite _ _ _ => inf s
  | finite _ _ _, inf t => inf t
  | finite s m e, finite t n f =>
    let sum := scaled s m e + scaled t n f
    if sum = 0 then finite (s && t) 0 (-149)
    else round (decide (sum < 0)) sum.natAbs (-149) false

/-- The operator `-`. -/
def sub (a b : F32) : F32 := add a (neg b)

/-- The operator `*`. -/
def mul : F32 → F32 → F32
  | nan, _ => nan
  | _, nan => nan
  | inf s, inf t => inf (xor s t)
  | inf s, finite t n _ => if n = 0 then nan else inf (xor s t)
  | finite s m _, inf t => if m = 0 then nan else inf (xor s t)
  | finite s m e, finite t n f => round (xor s t) (m * n) (e + f) false

/-- The operator `/`. -/
def div : F32 → F32 → F32
  | nan, _ => nan
  | _, nan => nan
  | inf _, inf _ => nan
  | inf s, finite t _ _ => inf (xor s t)
  | finite s _ _, inf t => finite (xor s t) 0 (-149)
  | finite s m e, finite t n f =>
    if n = 0 then (if m = 0 then nan else inf (xor s t))
    else round (xor s t) ((m <<< 50) / n) (e - f - 50) (decide ((m <<< 50) % n ≠ 0))

/-- The integer square root by bits: the largest `r < 2^bits` above `acc` in steps of
powers of two with `r * r ≤ n`. -/
def sqrtBits : Nat → Nat → Nat → Nat
  | 0, _, acc => acc
  | bit + 1, n, acc =>
    if (acc + 2 ^ bit) * (acc + 2 ^ bit) ≤ n then sqrtBits bit n (acc + 2 ^ bit)
    else sqrtBits bit n acc

/-- The function `std::sqrt`. -/
def sqrt : F32 → F32
  | nan => nan
  | inf s => if s then nan else inf false
  | finite s m e =>
    if m = 0 then finite s 0 (-149)
    else if s then nan
    else
      let k : Nat := if e % 2 = 0 then 52 else 53
      let root := sqrtBits 40 (m <<< k) 0
      round false root ((e - k) / 2) (decide (root * root ≠ m <<< k))

/-- The operator `<`. -/
def lt : F32 → F32 → Bool
  | nan, _ => false
  | _, nan => false
  | inf s, inf t => s && !t
  | inf s, finite _ _ _ => s
  | finite _ _ _, inf t => !t
  | finite s m e, finite t n f => decide (scaled s m e < scaled t n f)

/-- The operator `>`. -/
def gt (a b : F32) : Bool := lt b a

/-- The operator `<=`. -/
def le : F32 → F32 → Bool
  | nan, _ => false
  | _, nan => false
  | inf s, inf t => s || !t
  | inf s, finite _ _ _ => s
  | finite _ _ _, inf t => !t
  | finite s m e, finite t n f => decide (scaled s m e ≤ scaled t n f)

/-- The function `std::max(a, b)`: `(a < b) ? b : a`. -/
def max (a b : F32) : F32 := if lt a b then b else a

/-- The function `std::min(a, b)`: `(b < a) ? b : a`. -/
def min (a b : F32) : F32 := if lt b a then b else a

end F32

/-! ## The ray tracing core in binary32

The functions of `ray.h`, `triangle.h`, `RayUtils.h` and `microfacet_sampling.h` once more,
on values of the type `float` with the rounded operations of `F32`, as the compiled code
computes them. The definitions over a linearly ordered field above read the same source
text in exact arithmetic. -/

namespace Binary32

/-- The literal `0.0f`. -/
def zero : F32 := F32.finite false 0 (-149)

/-- The literal `1.0f`. -/
def one : F32 := F32.ofNat 1

/-- Componentwise `a + b` of `glm::vec3`. -/
def add (a b : Vec3 F32) : Vec3 F32 := ⟨F32.add a.x b.x, F32.add a.y b.y, F32.add a.z b.z⟩

/-- Componentwise `a - b` of `glm::vec3`. -/
def sub (a b : Vec3 F32) : Vec3 F32 := ⟨F32.sub a.x b.x, F32.sub a.y b.y, F32.sub a.z b.z⟩

/-- Scalar multiple `s * a` of `glm::vec3`. -/
def smul (s : F32) (a : Vec3 F32) : Vec3 F32 := ⟨F32.mul s a.x, F32.mul s a.y, F32.mul s a.z⟩

/-- The product `glm::dot`: the three products are summed from the left. -/
def dot (a b : Vec3 F32) : F32 :=
  F32.add (F32.add (F32.mul a.x b.x) (F32.mul a.y b.y)) (F32.mul a.z b.z)

/-- The product `glm::cross`. -/
def cross (a b : Vec3 F32) : Vec3 F32 :=
  ⟨F32.sub (F32.mul a.y b.z) (F32.mul b.y a.z), F32.sub (F32.mul a.z b.x) (F32.mul b.z a.x),
    F32.sub (F32.mul a.x b.y) (F32.mul b.x a.y)⟩

/-- The function `glm::length`: `sqrt(dot(a, a))`. -/
def length (a : Vec3 F32) : F32 := F32.sqrt (dot a a)

/-- The function `glm::normalize`: `a * inversesqrt(dot(a, a))`, where `inversesqrt(x)` is
`1 / sqrt(x)`. -/
def normalize (a : Vec3 F32) : Vec3 F32 := smul (F32.div one (F32.sqrt (dot a a))) a

/-- The constructor `Ray::Ray(orig, dir)`. -/
def Ray.new (orig dir : Vec3 F32) : Ray F32 := ⟨orig, normalize dir⟩

/-- The constructor `Triangle::Triangle(a, b, c)`. -/
def Triangle.new (a b c : Vec3 F32) : Triangle F32 :=
  ⟨a, b, c, normalize (cross (sub b a) (sub c a))⟩

/-- The constant `EPS = 1e-6f` of `Triangle::intersect`, the number `8796093 / 2^43`. -/
def EPS : F32 := F32.ofRatio 1 1000000

/-- The method `Triangle::intersect(r, tOut, nOut)`: the returned flag and the values of
`tOut` and `nOut` after the call. -/
def Triangle.intersect (tri : Triangle F32) (r : Ray F32) (tOut : F32) (nOut : Vec3 F32) :
    Bool × F32 × Vec3 F32 :=
  let e1 := sub tri.v1 tri.v0
  let e2 := sub tri.v2 tri.v0
  let p := cross r.direction e2
  let det := dot e1 p
  if F32.lt (F32.abs det) EPS then (false, tOut, nOut) else
  let invDet := F32.div one det
  let s := sub r.origin tri.v0
  let u := F32.mul (dot s p) invDet
  if F32.lt u zero || F32.gt u one then (false, tOut, nOut) else
  let q := cross s e1
  let v := F32.mul (dot r.direction q) invDet
  if F32.lt v zero || F32.gt (F32.add u v) one then (false, tOut, nOut) else
  let t := F32.mul (dot e2 q) invDet
  if F32.le t EPS then (false, tOut, nOut) else
  let hitPoint := add r.origin (smul t r.direction)
  let d0 := length tri.v0
  let d1 := length tri.v1
  let d2 := length tri.v2
  let avgDist := F32.div (F32.add (F32.add d0 d1) d2) (F32.ofNat 3)
  let maxDiff := F32.max (F32.max (F32.abs (F32.sub d0 avgDist)) (F32.abs (F32.sub d1 avgDist)))
    (F32.abs (F32.sub d2 avgDist))
  if F32.lt maxDiff (F32.mul avgDist (F32.ofRatio 1 10)) && F32.gt avgDist (F32.ofRatio 1 2) then
    (true, t, normalize hitPoint)
  else
    (true, t, tri.normal)

/-- The inline function `rayIntersectsAABB(ray, aabbMin, aabbMax, t)`: the returned flag
and the value of `t` after the call. -/
def rayIntersectsAABB (ray : Ray F32) (aabbMin aabbMax : Vec3 F32) (t : F32) : Bool × F32 :=
  let tmin0 := F32.div (F32.sub aabbMin.x ray.origin.x) ray.direction.x
  let tmax0 := F32.div (F32.sub aabbMax.x ray.origin.x) ray.direction.x
  let tmin := if F32.gt tmin0 tmax0 then tmax0 else tmin0
  let tmax := if F32.gt tmin0 tmax0 then tmin0 else tmax0
  let tymin0 := F32.div (F32.sub aabbMin.y ray.origin.y) ray.direction.y
  let tymax0 := F32.div (F32.sub aabbMax.y ray.origin.y) ray.direction.y
  let tymin := if F32.gt tymin0 tymax0 then tymax0 else tymin0
  let tymax := if F32.gt tymin0 tymax0 then tymin0 else tymax0
  if F32.gt tmin tymax || F32.gt tymin tmax then (false, t) else
  let tmin := if F32.gt tymin tmin then tymin else tmin
  let tmax := if F32.lt tymax tmax then tymax else tmax
  let tzmin0 := F32.div (F32.sub aabbMin.z ray.origin.z) ray.direction.z
  let tzmax0 := F32.div (F32.sub aabbMax.z ray.origin.z) ray.direction.z
  let tzmin := if F32.gt tzmin0 tzmax0 then tzmax0 else tzmin0
  let tzmax := if F32.gt tzmin0 tzmax0 then tzmin0 else tzmax0
  if F32.gt tmin tzmax || F32.gt tzmin tmax then (false, t) else
  let tmin := if F32.gt tzmin tmin then tzmin else tmin
  let tmax := if F32.lt tzmax tmax then tzmax else tmax
  if F32.lt tmin zero then
    if F32.lt tmax zero then (false, tmax) else (true, tmax)
  else (true, tmin)

/-- The inline function `microfacet::reflect(incident, normal)`. -/
def reflect (incident normal : Vec3 F32) : Vec3 F32 :=
  sub incident (smul (F32.mul (F32.ofNat 2) (dot incident normal)) normal)

/-- The numbers that the components of a vector stand for. -/
def toRat (a : Vec3 F32) : Vec3 ℚ := ⟨a.x.toRat, a.y.toRat, a.z.toRat⟩

/-- The three components are numbers. -/
def isFinite (a : Vec3 F32) : Bool := a.x.isFinite && a.y.isFinite && a.z.isFinite

/-- The ray of the numbers that the components of a `float` ray stand for. -/
def toRatRay (r : Ray F32) : Ray ℚ := ⟨toRat r.origin, toRat r.direction⟩

/-- The triangle of the numbers that the components of a `float` triangle stand for. -/
def toRatTriangle (tri : Triangle F32) : Triangle ℚ :=
  ⟨toRat tri.v0, toRat tri.v1, toRat tri.v2, toRat tri.normal⟩

end Binary32

/-- The inline function `microfacet::shouldUsePerfectMirror(roughness)`: `roughness <
0.01f`, where the literal is the `float` nearest to `0.01`, the number `5368709 / 2^29`. -/
def shouldUsePerfectMirror (roughness : F32) : Bool := F32.lt roughness (F32.ofRatio 1 100)

/-! ### The bounding volume hierarchy in binary32 -/

namespace Binary32

/-- Modelled from the spec: the rule "keep the one with smallest `t`" of section 4.3 on
`float` distances, as `closerHit` above. -/
def closerHit : Option (Hit F32) → Option (Hit F32) → Option (Hit F32)
  | none, b => b
  | some a, none => some a
  | some a, some b => if F32.lt b.2.1 a.2.1 then some b else some a

/-- Modelled from the spec: the brute-force linear scan with `Triangle::intersect` that
keeps the hit with the smallest `t`, as `scanTriangles` above. -/
def scanTriangles (ray : Ray F32) : List (Triangle F32) → Option (Hit F32) → Option (Hit F32)
  | [], best => best
  | tri :: rest, best =>
    if (Triangle.intersect tri ray zero ⟨zero, zero, zero⟩).1 = true then
      scanTriangles ray rest
        (closerHit best (some (tri, (Triangle.intersect tri ray zero ⟨zero, zero, zero⟩).2)))
    else scanTriangles ray rest best

/-- Modelled from the spec: the brute-force scan of all triangles, from no hit. -/
def bruteForceIntersect (ray : Ray F32) (triangles : List (Triangle F32)) : Option (Hit F32) :=
  scanTriangles ray triangles none

/-- Modelled from the spec: the method `BVHNode::intersect` of section 4.3, which no file
under `src/` defines, as `BVHNode.intersect` above, with the box test and the triangle
test in `float` arithmetic: the slab test divides by a zero direction component as IEEE
754 does. -/
def BVHNode.intersect (ray : Ray F32) : BVHNode F32 → Option (Hit F32)
  | BVHNode.null => none
  | BVHNode.node boundsMin boundsMax triangles left right =>
    if (rayIntersectsAABB ray boundsMin boundsMax zero).1 = true then
      closerHit (closerHit (bruteForceIntersect ray triangles) (BVHNode.intersect ray left))
        (BVHNode.intersect ray right)
    else none

end Binary32

/-! ### Concrete binary32 inputs -/

namespace Binary32

/-- The vector `(0, 0, 0)`. -/
def origin : Vec3 F32 := ⟨zero, zero, zero⟩

/-- The ray `Ray((0, 0, 0), (1, 2, 3))`; its direction is the `float` vector
`(0.267261237, 0.534522474, 0.801783681)`. -/
def diagonalRay : Ray F32 :=
  ⟨origin, ⟨F32.finite false 8967799 (-25), F32.finite false 8967799 (-24),
    F32.finite false 13451698 (-24)⟩⟩

/-- A triangle of diameter about 2500 just behind the plane through the origin that is
orthogonal to `(1, 2, 3)`: the vertices are the `float` vectors
`(-404.62143, 1204.7695, -668.30597)`, `(-1061.0525, -603.59674, 756.08197)` and
`(1139.6862, -852.84326, 188.66676)`. -/
def behindTriangle : Triangle F32 :=
  Triangle.new
    ⟨F32.finite true 13258635 (-15), F32.finite false 9869472 (-13),
      F32.finite true 10949525 (-14)⟩
    ⟨F32.finite true 8692142 (-13), F32.finite true 9889329 (-14),
      F32.finite false 12387647 (-14)⟩
    ⟨F32.finite false 9336309 (-13), F32.finite true 13972984 (-14),
      F32.finite false 12364465 (-16)⟩

/-- A triangle with the `float` vertices `(-1.48121977, -2.14155865, 1.52905929)`,
`(3.62740445, -1.63309097, 1.64266634)` and `(-0.694394529, 2.82911587, 0.677186489)`. -/
def grazedTriangle : Triangle F32 :=
  Triangle.new
    ⟨F32.finite true 12425372 (-23), F32.finite true 8982348 (-22),
      F32.finite false 12826679 (-23)⟩
    ⟨F32.finite false 15214437 (-22), F32.finite true 13699360 (-23),
      F32.finite false 13779684 (-23)⟩
    ⟨F32.finite true 11650007 (-24), F32.finite false 11866172 (-22),
      F32.finite false 11361304 (-24)⟩

/-- A ray that crosses `grazedTriangle` just inside its edge `v0 v1`: the origin is
`(-4.51832199, -7.63000393, -0.328166157)` and the direction
`(0.632021189, 0.734886885, 0.24594821)`. -/
def grazingRay : Ray F32 :=
  ⟨⟨F32.finite true 9475608 (-21), F32.finite true 16001278 (-21),
      F32.finite true 11011429 (-25)⟩,
    ⟨F32.finite false 10603556 (-24), F32.finite false 12329356 (-24),
      F32.finite false 16505305 (-26)⟩⟩

/-- The triangle `(0, 0, 0), (0, 1, 0), (1, 0, 0)` in the plane `z = 0`. -/
def edgeTriangle : Triangle F32 :=
  Triangle.new ⟨zero, zero, zero⟩ ⟨zero, one, zero⟩ ⟨one, zero, zero⟩

/-- The ray from `(0, 1/4, 1)` with the direction `(-0, 0, -1)`; it stays in the plane
`x = 0` and meets `edgeTriangle` on its edge from `(0, 0, 0)` to `(0, 1, 0)`. -/
def edgeRay : Ray F32 :=
  ⟨⟨zero, F32.ofRatio 1 4, one⟩, ⟨F32.neg zero, zero, F32.neg one⟩⟩

/-- The tree with one node, which holds `edgeTriangle` in its tight box
`[(0, 0, 0), (1, 1, 0)]`. -/
def edgeTree : BVHNode F32 :=
  BVHNode.node ⟨zero, zero, zero⟩ ⟨one, one, zero⟩ [edgeTriangle] BVHNode.null BVHNode.null

/-- The normalized normal `normalize((1, 2, 3))`, the `float` vector
`(0.267261237, 0.534522474, 0.801783681)`. -/
def slantedNormal : Vec3 F32 := normalize ⟨F32.ofNat 1, F32.ofNat 2, F32.ofNat 3⟩

/-- The largest power of two among the `float` numbers, `2^127`. -/
def huge : F32 := F32.finite false 8388608 104

end Binary32

/-! # Theorems -/

/-! ## Ray/triangle and ray/box intersection -/

theorem Vec3.eq_iff {K : Type} (a b : Vec3 K) : a = b ↔ a.x = b.x ∧ a.y = b.y ∧ a.z = b.z := by
  cases a; cases b; simp

theorem EPS_pos {K : Type} [LinearOrderedField K] : (0 : K) < EPS := by unfold EPS; positivity

/-- Cramer: the parameters computed by Moeller-Trumbore solve the ray/plane equation. -/
theorem moller_trumbore_solves {K : Type} [LinearOrderedField K]
    (tri : Triangle K) (r : Ray K) (hdet : tri.det r ≠ 0) :
    r.pointAt (tri.paramT r) = tri.pointAt (tri.baryU r) (tri.baryV r) := by
  obtain ⟨⟨ax, ay, az⟩, ⟨bx, b_y, bz⟩, ⟨cx, cy, cz⟩, n⟩ := tri
  obtain ⟨⟨ox, oy, oz⟩, ⟨dx, dy, dz⟩⟩ := r
  simp only [Triangle.det, Vec3.dot, Vec3.cross, Vec3.sub] at hdet
  simp only [Ray.pointAt, Triangle.pointAt, Triangle.det, Triangle.paramT, Triangle.baryU,
    Triangle.baryV, Vec3.dot, Vec3.cross, Vec3.sub, Vec3.add, Vec3.smul, Vec3.eq_iff]
  refine ⟨?_, ?_, ?_⟩ <;> field_simp <;> ring

/-- Uniqueness: when `det` is not zero, a solution of the ray/plane equation is the one
computed by Moeller-Trumbore. -/
theorem moller_trumbore_unique {K : Type} [LinearOrderedField K]
    (tri : Triangle K) (r : Ray K) (hdet : tri.det r ≠ 0)
    (t u v : K) (h : r.pointAt t = tri.pointAt u v) :
    u = tri.baryU r ∧ v = tri.baryV r ∧ t = tri.paramT r := by
  obtain ⟨⟨ax, ay, az⟩, ⟨bx, b_y, bz⟩, ⟨cx, cy, cz⟩, n⟩ := tri
  obtain ⟨⟨ox, oy, oz⟩, ⟨dx, dy, dz⟩⟩ := r
  simp only [Triangle.det, Vec3.dot, Vec3.cross, Vec3.sub] at hdet
  simp only [Ray.pointAt, Triangle.pointAt, Vec3.sub,
    Vec3.add, Vec3.smul, Vec3.eq_iff] at h
  obtain ⟨hx, hy, hz⟩ := h
  simp only [Triangle.det, Triangle.paramT, Triangle.baryU, Triangle.baryV, Vec3.dot,
    Vec3.cross, Vec3.sub]
  have ox_eq : ox = ax + (u * (bx - ax) + v * (cx - ax)) - t * dx := by linear_combination hx
  have oy_eq : oy = ay + (u * (b_y - ay) + v * (cy - ay)) - t * dy := by linear_combination hy
  have oz_eq : oz = az + (u * (bz - az) + v * (cz - az)) - t * dz := by linear_combination hz
  subst ox_eq oy_eq oz_eq
  refine ⟨?_, ?_, ?_⟩ <;> field_simp <;> ring

/-- The flag returned by `Triangle::intersect`, in terms of `det`, `u`, `v` and `t`. -/
theorem Triangle.intersect_fst {K : Type} [LinearOrderedField K]
    (sqrt : K → K) (tri : Triangle K) (r : Ray K)
    (tOut : K) (nOut : Vec3 K) :
    (tri.intersect sqrt r tOut nOut).1 = true ↔
      (EPS ≤ |tri.det r| ∧ 0 ≤ tri.baryU r ∧ tri.baryU r ≤ 1 ∧ 0 ≤ tri.baryV r ∧
        tri.baryU r + tri.baryV r ≤ 1 ∧ EPS < tri.paramT r) := by
  unfold Triangle.intersect
  simp only [Triangle.det, Triangle.baryU, Triangle.baryV, Triangle.paramT]
  split_ifs with h1 h2 h3 h4 h5 <;> simp only [Bool.false_eq_true, false_iff, true_iff,
    not_and, not_le, not_lt]
  · intro h; exact absurd h1 (not_lt.mpr h)
  · intro _ hu0 hu1
    rcases h2 with h | h
    · exact absurd h (not_lt.mpr hu0)
    · exact absurd h (not_lt.mpr hu1)
  · intro _ _ _ hv0 huv
    rcases h3 with h | h
    · exact absurd h (not_lt.mpr hv0)
    · exact absurd h (not_lt.mpr huv)
  · intro _ _ _ _ _; exact h4
  all_goals
    push_neg at h1 h2 h3 h4
    exact ⟨h1, h2.1, h2.2, h3.1, h3.2, h4⟩

/-- The value of `tOut` after `Triangle::intersect`: the computed `t` on a hit, and the
old value on a miss. -/
theorem Triangle.intersect_tOut {K : Type} [LinearOrderedField K]
    (sqrt : K → K) (tri : Triangle K) (r : Ray K)
    (tOut : K) (nOut : Vec3 K) :
    (tri.intersect sqrt r tOut nOut).2.1 =
      if (tri.intersect sqrt r tOut nOut).1 = true then tri.paramT r else tOut := by
  unfold Triangle.intersect
  simp only [Triangle.det, Triangle.paramT]
  split_ifs <;> simp_all

theorem Triangle.det_ne_zero_of_EPS_le {K : Type} [LinearOrderedField K]
    (tri : Triangle K) (r : Ray K)
    (h : EPS ≤ |tri.det r|) : tri.det r ≠ 0 := by
  intro h0
  rw [h0, abs_zero] at h
  exact absurd h (not_le.mpr EPS_pos)

/-- C1: soundness of `Triangle::intersect`. Whenever the flag is true, the reported `tOut`
exceeds `EPS = 1e-6` and the ray point at `tOut` is the point of the triangle with
barycentric coordinates `u, v`, where `0 ≤ u ≤ 1`, `0 ≤ v` and `u + v ≤ 1`. -/
theorem triangle_intersect_sound {K : Type} [LinearOrderedField K]
    (sqrt : K → K) (tri : Triangle K) (r : Ray K)
    (tOut : K) (nOut : Vec3 K)
    (hit : (tri.intersect sqrt r tOut nOut).1 = true) :
    EPS < (tri.intersect sqrt r tOut nOut).2.1 ∧
    ∃ u v : K, 0 ≤ u ∧ u ≤ 1 ∧ 0 ≤ v ∧ u + v ≤ 1 ∧
      r.pointAt (tri.intersect sqrt r tOut nOut).2.1 = tri.pointAt u v := by
  rw [Triangle.intersect_tOut, if_pos hit]
  obtain ⟨hd, hu0, hu1, hv0, huv, ht⟩ := (Triangle.intersect_fst sqrt tri r tOut nOut).mp hit
  exact ⟨ht, _, _, hu0, hu1, hv0, huv,
    moller_trumbore_solves tri r (Triangle.det_ne_zero_of_EPS_le tri r hd)⟩


/-- One slab: the parameters `s` with `lo ≤ o + s * d ≤ hi` form the interval between the
two quotients computed by the slab method. -/
theorem slab_iff {K : Type} [LinearOrderedField K]
    (lo hi o d s : K) (hd : d ≠ 0) (hle : lo ≤ hi) :
    (lo ≤ o + s * d ∧ o + s * d ≤ hi) ↔
      (min ((lo - o) / d) ((hi - o) / d) ≤ s ∧ s ≤ max ((lo - o) / d) ((hi - o) / d)) := by
  rcases lt_or_gt_of_ne hd with hneg | hpos
  · have h1 : (hi - o) / d ≤ (lo - o) / d := by
      apply div_le_div_of_nonpos_of_le (le_of_lt hneg); linarith
    rw [min_eq_right h1, max_eq_left h1, div_le_iff_of_neg hneg, le_div_iff_of_neg hneg]
    constructor <;> rintro ⟨h, h'⟩ <;> constructor <;> linarith
  · have h1 : (lo - o) / d ≤ (hi - o) / d := by
      apply div_le_div_of_nonneg_right _ (le_of_lt hpos); linarith
    rw [min_eq_left h1, max_eq_right h1, div_le_iff₀ hpos, le_div_iff₀ hpos]
    constructor <;> rintro ⟨h, h'⟩ <;> constructor <;> linarith

theorem ite_lt_min {K : Type} [LinearOrderedField K]
    (a b : K) : (if b < a then b else a) = min a b := by
  rw [min_def]; split_ifs <;> first | rfl | (exfalso; linarith)

theorem ite_lt_max {K : Type} [LinearOrderedField K]
    (a b : K) : (if b < a then a else b) = max a b := by
  rw [max_def]; split_ifs <;> first | rfl | (exfalso; linarith)

theorem ite_lt_max_right {K : Type} [LinearOrderedField K]
    (a b : K) : (if a < b then b else a) = max a b := by
  rw [max_def]; split_ifs <;> first | rfl | (exfalso; linarith) | (apply le_antisymm <;> linarith)

/-- The slab method on six quotients: the flag is true exactly when some non-negative
parameter lies in all three intervals. -/
theorem rayIntersectsAABB_fst {K : Type} [LinearOrderedField K]
    (ray : Ray K) (aabbMin aabbMax : Vec3 K) (t : K) :
    (rayIntersectsAABB ray aabbMin aabbMax t).1 = true ↔
      ∃ s : K, 0 ≤ s ∧
        min ((aabbMin.x - ray.origin.x) / ray.direction.x)
            ((aabbMax.x - ray.origin.x) / ray.direction.x) ≤ s ∧
        s ≤ max ((aabbMin.x - ray.origin.x) / ray.direction.x)
            ((aabbMax.x - ray.origin.x) / ray.direction.x) ∧
        min ((aabbMin.y - ray.origin.y) / ray.direction.y)
            ((aabbMax.y - ray.origin.y) / ray.direction.y) ≤ s ∧
        s ≤ max ((aabbMin.y - ray.origin.y) / ray.direction.y)
            ((aabbMax.y - ray.origin.y) / ray.direction.y) ∧
        min ((aabbMin.z - ray.origin.z) / ray.direction.z)
            ((aabbMax.z - ray.origin.z) / ray.direction.z) ≤ s ∧
        s ≤ max ((aabbMin.z - ray.origin.z) / ray.direction.z)
            ((aabbMax.z - ray.origin.z) / ray.direction.z) := by
  unfold rayIntersectsAABB
  generalize (aabbMin.x - ray.origin.x) / ray.direction.x = a1
  generalize (aabbMax.x - ray.origin.x) / ray.direction.x = b1
  generalize (aabbMin.y - ray.origin.y) / ray.direction.y = a2
  generalize (aabbMax.y - ray.origin.y) / ray.direction.y = b2
  generalize (aabbMin.z - ray.origin.z) / ray.direction.z = a3
  generalize (aabbMax.z - ray.origin.z) / ray.direction.z = b3
  simp only [gt_iff_lt, ite_lt_min, ite_lt_max, ite_lt_max_right]
  have h1 := min_le_max (a := a1) (b := b1)
  have h2 := min_le_max (a := a2) (b := b2)
  have h3 := min_le_max (a := a3) (b := b3)
  generalize min a1 b1 = l1 at *
  generalize max a1 b1 = u1 at *
  generalize min a2 b2 = l2 at *
  generalize max a2 b2 = u2 at *
  generalize min a3 b3 = l3 at *
  generalize max a3 b3 = u3 at *
  split_ifs with c1 c2 c3 c4
  · simp only [Bool.false_eq_true, false_iff]
    rintro ⟨s, hs, hl1, hu1, hl2, hu2, hl3, hu3⟩
    rcases c1 with c | c <;> linarith
  · simp only [Bool.false_eq_true, false_iff]
    rintro ⟨s, hs, hl1, hu1, hl2, hu2, hl3, hu3⟩
    simp only [lt_max_iff, min_lt_iff] at c2
    rcases c2 with (c | c) | (c | c) <;> linarith
  · simp only [Bool.false_eq_true, false_iff]
    rintro ⟨s, hs, hl1, hu1, hl2, hu2, hl3, hu3⟩
    simp only [min_lt_iff] at c4
    rcases c4 with (c | c) | c <;> linarith
  · simp only [true_iff]
    simp only [not_or, not_lt, max_le_iff, le_min_iff] at c1 c2 c4
    obtain ⟨c11, c12⟩ := c1
    obtain ⟨⟨c21, c22⟩, c23, c24⟩ := c2
    obtain ⟨⟨c41, c42⟩, c43⟩ := c4
    refine ⟨min (min u1 u2) u3, le_min (le_min c41 c42) c43, ?_, ?_, ?_, ?_, ?_, ?_⟩
    · exact le_min (le_min h1 c11) c22
    · exact le_trans (min_le_left _ _) (min_le_left _ _)
    · exact le_min (le_min c12 h2) c21
    · exact le_trans (min_le_left _ _) (min_le_right _ _)
    · exact le_min (le_min c23 c24) h3
    · exact min_le_right _ _
  · simp only [true_iff]
    simp only [not_or, not_lt, max_le_iff, le_min_iff] at c1 c2 c3
    obtain ⟨c11, c12⟩ := c1
    obtain ⟨⟨c21, c22⟩, c23, c24⟩ := c2
    have c3' : 0 ≤ max (max l1 l2) l3 := by
      simp only [le_max_iff] at c3 ⊢
      tauto
    refine ⟨max (max l1 l2) l3, c3', ?_, ?_, ?_, ?_, ?_, ?_⟩
    · exact le_trans (le_max_left _ _) (le_max_left _ _)
    · exact max_le (max_le h1 c12) c23
    · exact le_trans (le_max_right _ _) (le_max_left _ _)
    · exact max_le (max_le c11 h2) c24
    · exact le_max_right _ _
    · exact max_le (max_le c22 c21) h3

/-- C3: `rayIntersectsAABB` decides ray/box intersection. For a box with
`aabbMin ≤ aabbMax` and a direction without zero component, the flag is true exactly when
some parameter `s ≥ 0` puts `origin + s * direction` in the closed box; and the flag is
false when the origin is outside the box and, on every axis on which the origin lies beyond
a face, the direction leads further away. -/
theorem rayIntersectsAABB_decides {K : Type} [LinearOrderedField K]
    (ray : Ray K) (aabbMin aabbMax : Vec3 K) (t : K)
    (hx : aabbMin.x ≤ aabbMax.x) (hy : aabbMin.y ≤ aabbMax.y) (hz : aabbMin.z ≤ aabbMax.z)
    (dx : ray.direction.x ≠ 0) (dy : ray.direction.y ≠ 0) (dz : ray.direction.z ≠ 0) :
    ((rayIntersectsAABB ray aabbMin aabbMax t).1 = true ↔
        ∃ s : K, 0 ≤ s ∧ inBox (ray.pointAt s) aabbMin aabbMax) ∧
    (¬ inBox ray.origin aabbMin aabbMax →
      (ray.origin.x < aabbMin.x → ray.direction.x < 0) →
      (aabbMax.x < ray.origin.x → 0 < ray.direction.x) →
      (ray.origin.y < aabbMin.y → ray.direction.y < 0) →
      (aabbMax.y < ray.origin.y → 0 < ray.direction.y) →
      (ray.origin.z < aabbMin.z → ray.direction.z < 0) →
      (aabbMax.z < ray.origin.z → 0 < ray.direction.z) →
      (rayIntersectsAABB ray aabbMin aabbMax t).1 = false) := by
  have key : (rayIntersectsAABB ray aabbMin aabbMax t).1 = true ↔
      ∃ s : K, 0 ≤ s ∧ inBox (ray.pointAt s) aabbMin aabbMax := by
    rw [rayIntersectsAABB_fst]
    apply exists_congr
    intro s
    simp only [inBox, Ray.pointAt, Vec3.add, Vec3.smul]
    have e1 := slab_iff aabbMin.x aabbMax.x ray.origin.x ray.direction.x s dx hx
    have e2 := slab_iff aabbMin.y aabbMax.y ray.origin.y ray.direction.y s dy hy
    have e3 := slab_iff aabbMin.z aabbMax.z ray.origin.z ray.direction.z s dz hz
    constructor
    · rintro ⟨hs, a1, b1, a2, b2, a3, b3⟩
      exact ⟨hs, (e1.mpr ⟨a1, b1⟩).1, (e1.mpr ⟨a1, b1⟩).2, (e2.mpr ⟨a2, b2⟩).1,
        (e2.mpr ⟨a2, b2⟩).2, (e3.mpr ⟨a3, b3⟩).1, (e3.mpr ⟨a3, b3⟩).2⟩
    · rintro ⟨hs, a1, b1, a2, b2, a3, b3⟩
      exact ⟨hs, (e1.mp ⟨a1, b1⟩).1, (e1.mp ⟨a1, b1⟩).2, (e2.mp ⟨a2, b2⟩).1,
        (e2.mp ⟨a2, b2⟩).2, (e3.mp ⟨a3, b3⟩).1, (e3.mp ⟨a3, b3⟩).2⟩
  refine ⟨key, ?_⟩
  intro hout ax bx ay b_y az bz
  rw [Bool.eq_false_iff]
  intro hit
  obtain ⟨s, hs, h1, h2, h3, h4, h5, h6⟩ := key.mp hit
  simp only [Ray.pointAt, Vec3.add, Vec3.smul] at h1 h2 h3 h4 h5 h6
  apply hout
  simp only [inBox]
  refine ⟨?_, ?_, ?_, ?_, ?_, ?_⟩ <;> by_contra hc <;> push_neg at hc
  · have := ax hc; nlinarith
  · have := bx hc; nlinarith
  · have := ay hc; nlinarith
  · have := b_y hc; nlinarith
  · have := az hc; nlinarith
  · have := bz hc; nlinarith

/-- The unit triangle is hit by the ray from `(1/4, 1/4, 1)` straight down. -/
theorem unitTriangle_hit (sqrt : ℚ → ℚ) (tOut : ℚ) (nOut : Vec3 ℚ) :
    (unitTriangle.intersect sqrt downRay tOut nOut).1 = true := by
  rw [Triangle.intersect_fst]
  norm_num [Triangle.det, Triangle.baryU, Triangle.baryV, Triangle.paramT, unitTriangle,
    downRay, Vec3.dot, Vec3.cross, Vec3.sub, EPS]

/-- C1 at the unit triangle and the ray from `(1/4, 1/4, 1)` straight down. -/
theorem triangle_intersect_sound_witness :
    (unitTriangle.intersect Rat.sqrt downRay 0 ⟨0, 0, 0⟩).1 = true ∧
    (EPS < (unitTriangle.intersect Rat.sqrt downRay 0 ⟨0, 0, 0⟩).2.1 ∧
      ∃ u v : ℚ, 0 ≤ u ∧ u ≤ 1 ∧ 0 ≤ v ∧ u + v ≤ 1 ∧
        downRay.pointAt (unitTriangle.intersect Rat.sqrt downRay 0 ⟨0, 0, 0⟩).2.1 =
          unitTriangle.pointAt u v) :=
  ⟨unitTriangle_hit _ _ _,
    triangle_intersect_sound Rat.sqrt unitTriangle downRay 0 ⟨0, 0, 0⟩ (unitTriangle_hit _ _ _)⟩

/-- C2 as stated fails: the ray from `(0, 0, 1)` straight down meets the triangle
`(0,0,0), (1/10000,0,0), (0,1/10000,0)` at its vertex `v0` with `t = 1`, `u = v = 0`,
and `Triangle::intersect` returns false, since `|det| = 1e-8 < EPS`. -/
theorem triangle_intersect_complete_counterexample :
    ¬ (∀ t u v : ℚ, EPS < t → 0 ≤ u → u ≤ 1 → 0 ≤ v → v ≤ 1 → u + v ≤ 1 →
        downRayAtOrigin.pointAt t = tinyTriangle.pointAt u v →
        (tinyTriangle.intersect Rat.sqrt downRayAtOrigin 0 ⟨0, 0, 0⟩).1 = true ∧
          (tinyTriangle.intersect Rat.sqrt downRayAtOrigin 0 ⟨0, 0, 0⟩).2.1 = t) := by
  intro h
  have h1 := (h 1 0 0 (by norm_num [EPS]) (by norm_num) (by norm_num) (by norm_num)
    (by norm_num) (by norm_num)
    (by norm_num [Ray.pointAt, Triangle.pointAt, downRayAtOrigin, tinyTriangle, Vec3.add,
      Vec3.smul, Vec3.sub])).1
  rw [Triangle.intersect_fst] at h1
  have h2 := h1.1
  norm_num [Triangle.det, tinyTriangle, downRayAtOrigin, Vec3.dot, Vec3.cross, Vec3.sub,
    EPS, abs_of_nonneg] at h2

/-- C2, amended: completeness of `Triangle::intersect` in exact arithmetic (the operations
on real numbers, `1e-6f` as `10^-6`) when `|det| ≥ EPS`. If the ray
point at some `t > EPS` is the point of the triangle with barycentric coordinates `u, v`
in `[0, 1]` with `u + v ≤ 1`, and `det = (v1 - v0) . (d x (v2 - v0))` has `|det| ≥ EPS`,
then the flag is true and the reported `tOut` is `t`. -/
theorem triangle_intersect_complete {K : Type} [LinearOrderedField K]
    (sqrt : K → K) (tri : Triangle K) (r : Ray K) (tOut : K) (nOut : Vec3 K) (t u v : K)
    (hdet : EPS ≤ |tri.det r|) (ht : EPS < t) (hu0 : 0 ≤ u) (hu1 : u ≤ 1) (hv0 : 0 ≤ v)
    (_hv1 : v ≤ 1) (huv : u + v ≤ 1) (hmeet : r.pointAt t = tri.pointAt u v) :
    (tri.intersect sqrt r tOut nOut).1 = true ∧ (tri.intersect sqrt r tOut nOut).2.1 = t := by
  obtain ⟨eu, ev, et⟩ :=
    moller_trumbore_unique tri r (Triangle.det_ne_zero_of_EPS_le tri r hdet) t u v hmeet
  have hit : (tri.intersect sqrt r tOut nOut).1 = true := by
    rw [Triangle.intersect_fst]
    refine ⟨hdet, ?_, ?_, ?_, ?_, ?_⟩
    · exact eu ▸ hu0
    · exact eu ▸ hu1
    · exact ev ▸ hv0
    · have := huv; rw [eu, ev] at this; exact this
    · exact et ▸ ht
  refine ⟨hit, ?_⟩
  rw [Triangle.intersect_tOut, if_pos hit]
  exact et.symm

/-- C2, amended, at the unit triangle and the ray from `(1/4, 1/4, 1)` straight down. -/
theorem triangle_intersect_complete_witness :
    (EPS ≤ |unitTriangle.det downRay| ∧ (EPS : ℚ) < 1 ∧
      downRay.pointAt 1 = unitTriangle.pointAt (1 / 4) (1 / 4)) ∧
    ((unitTriangle.intersect Rat.sqrt downRay 0 ⟨0, 0, 0⟩).1 = true ∧
      (unitTriangle.intersect Rat.sqrt downRay 0 ⟨0, 0, 0⟩).2.1 = 1) :=
  have hdet : EPS ≤ |unitTriangle.det downRay| := by
    norm_num [Triangle.det, unitTriangle, downRay, Vec3.dot, Vec3.cross, Vec3.sub, EPS]
  have ht : (EPS : ℚ) < 1 := by norm_num [EPS]
  have hmeet : downRay.pointAt 1 = unitTriangle.pointAt (1 / 4) (1 / 4) := by
    norm_num [Ray.pointAt, Triangle.pointAt, downRay, unitTriangle, Vec3.add, Vec3.smul,
      Vec3.sub]
  ⟨⟨hdet, ht, hmeet⟩,
    triangle_intersect_complete Rat.sqrt unitTriangle downRay 0 ⟨0, 0, 0⟩ 1 (1 / 4) (1 / 4)
      hdet ht (by norm_num) (by norm_num) (by norm_num) (by norm_num) (by norm_num) hmeet⟩

/-- C3 at the unit cube and a ray that enters it through the face `x = 0`. -/
theorem rayIntersectsAABB_decides_witness :
    ((0 : ℚ) ≤ 1 ∧ slantRay.direction.x ≠ 0 ∧ slantRay.direction.y ≠ 0 ∧
      slantRay.direction.z ≠ 0) ∧
    (((rayIntersectsAABB slantRay ⟨0, 0, 0⟩ ⟨1, 1, 1⟩ 0).1 = true ↔
        ∃ s : ℚ, 0 ≤ s ∧ inBox (slantRay.pointAt s) ⟨0, 0, 0⟩ ⟨1, 1, 1⟩) ∧
     (¬ inBox slantRay.origin ⟨0, 0, 0⟩ ⟨1, 1, 1⟩ →
      (slantRay.origin.x < 0 → slantRay.direction.x < 0) →
      (1 < slantRay.origin.x → 0 < slantRay.direction.x) →
      (slantRay.origin.y < 0 → slantRay.direction.y < 0) →
      (1 < slantRay.origin.y → 0 < slantRay.direction.y) →
      (slantRay.origin.z < 0 → slantRay.direction.z < 0) →
      (1 < slantRay.origin.z → 0 < slantRay.direction.z) →
      (rayIntersectsAABB slantRay ⟨0, 0, 0⟩ ⟨1, 1, 1⟩ 0).1 = false)) :=
  have hx : slantRay.direction.x ≠ 0 := by norm_num [slantRay]
  have hy : slantRay.direction.y ≠ 0 := by norm_num [slantRay]
  have hz : slantRay.direction.z ≠ 0 := by norm_num [slantRay]
  ⟨⟨by norm_num, hx, hy, hz⟩,
    rayIntersectsAABB_decides slantRay ⟨0, 0, 0⟩ ⟨1, 1, 1⟩ 0 (by norm_num) (by norm_num)
      (by norm_num) hx hy hz⟩

/-! ## The deterministic sampler -/

/-- Two objects with the same engine state return the same values for every sequence of
calls, whatever the states of their distribution objects. -/
theorem SeededRNG.run_congr {σ δ K : Type} [LinearOrderedField K] (E : Engine σ δ K)
    (hE : E.Lawful) (calls : List (SamplerCall K)) :
    ∀ rng rng2 : SeededRNG σ δ, rng.m_rng = rng2.m_rng →
      (SeededRNG.run E rng calls).1 = (SeededRNG.run E rng2 calls).1 := by
  induction calls with
  | nil => intro _ _ _; rfl
  | cons call rest ih =>
    intro rng rng2 h
    cases call with
    | uniform =>
      simp only [SeededRNG.run, SeededRNG.uniform]
      have h1 : (E.draw rng.m_uniform rng.m_rng).1 = (E.draw rng2.m_uniform rng2.m_rng).1 := by
        rw [h]; exact hE.draw_sample _ _ _
      have h2 : (E.draw rng.m_uniform rng.m_rng).2.2 =
          (E.draw rng2.m_uniform rng2.m_rng).2.2 := by
        rw [h]; exact hE.draw_engine _ _ _
      rw [h1, ih ⟨(E.draw rng.m_uniform rng.m_rng).2.2, (E.draw rng.m_uniform rng.m_rng).2.1⟩
        ⟨(E.draw rng2.m_uniform rng2.m_rng).2.2, (E.draw rng2.m_uniform rng2.m_rng).2.1⟩ h2]
    | stratified sample totalSamples jitter =>
      simp only [SeededRNG.run, SeededRNG.stratified]
      rw [ih _ _ h]
    | setSeed seed =>
      simp only [SeededRNG.run]
      exact ih _ _ (by simp only [SeededRNG.setSeed, h])

/-- C4: sampler determinism. Of the standard library it is assumed that `e.seed(s)` leaves
the engine as one constructed from `s` and that a call of the distribution does not depend
on the state of the distribution object. Then, for every seed and every sequence of
`uniform`, `stratified` and `setSeed` calls, an object constructed with the seed and an
object re-seeded with it (whatever its state and its calls before) return the same values
call by call, as do two re-seeded objects; and `stratified` leaves the object unchanged
and returns a value that does not depend on the state of the object. -/
theorem sampler_deterministic {σ δ K : Type} [LinearOrderedField K] (E : Engine σ δ K)
    (hE : E.Lawful) :
    (∀ (s : Nat) (rng : SeededRNG σ δ) (calls : List (SamplerCall K)),
      (SeededRNG.run E (SeededRNG.new E s) calls).1 =
        (SeededRNG.run E (SeededRNG.setSeed E rng s) calls).1) ∧
    (∀ (s : Nat) (rng rng2 : SeededRNG σ δ) (calls : List (SamplerCall K)),
      (SeededRNG.run E (SeededRNG.setSeed E rng s) calls).1 =
        (SeededRNG.run E (SeededRNG.setSeed E rng2 s) calls).1) ∧
    (∀ (rng rng2 : SeededRNG σ δ) (sample totalSamples : Int) (jitter : K),
      (SeededRNG.stratified rng sample totalSamples jitter).2 = rng ∧
      (SeededRNG.stratified rng sample totalSamples jitter).1 =
        (SeededRNG.stratified rng2 sample totalSamples jitter).1) := by
  refine ⟨fun s rng calls => ?_, fun s rng rng2 calls => ?_, fun _ _ _ _ _ => ⟨rfl, rfl⟩⟩
  · apply SeededRNG.run_congr E hE
    simp only [SeededRNG.new, SeededRNG.setSeed, hE.reseed_eq]
  · apply SeededRNG.run_congr E hE
    simp only [SeededRNG.setSeed, hE.reseed_eq]

/-- The concrete engine meets the assumptions on the standard library. -/
theorem countingEngine_lawful : countingEngine.Lawful :=
  ⟨fun _ _ => rfl, fun _ _ _ => rfl, fun _ _ _ => rfl⟩

/-- C4 at the linear congruential engine and the seed 7: an object that made two draws
with the seed 3 and is re-seeded with 7 returns the values of a new object with the seed
7, here for two `uniform` calls around a `stratified` call. -/
theorem sampler_deterministic_witness :
    countingEngine.Lawful ∧
    (SeededRNG.run countingEngine (SeededRNG.new countingEngine 7)
        [SamplerCall.uniform, SamplerCall.stratified 1 4 (1 / 2), SamplerCall.uniform]).1 =
      (SeededRNG.run countingEngine
        (SeededRNG.setSeed countingEngine
          (SeededRNG.run countingEngine (SeededRNG.new countingEngine 3)
            [SamplerCall.uniform, SamplerCall.uniform]).2 7)
        [SamplerCall.uniform, SamplerCall.stratified 1 4 (1 / 2), SamplerCall.uniform]).1 ∧
    (SeededRNG.run countingEngine (SeededRNG.new countingEngine 3)
        [SamplerCall.uniform, SamplerCall.uniform]).2.m_uniform ≠
      (SeededRNG.new countingEngine 7).m_uniform :=
  ⟨countingEngine_lawful,
    (sampler_deterministic countingEngine countingEngine_lawful).1 7 _ _,
    by decide⟩

/-! ## The command dispatcher -/

theorem drop_eq_getD_cons (tokens : List String) (i : Nat) (h : i < tokens.length) :
    tokens.drop i = tokens.getD i "" :: tokens.drop (i + 1) := by
  rw [List.drop_eq_getElem_cons h, List.getD_eq_getElem _ _ h]

theorem preVerbLoop_agrees (tokens : List String) :
    ∀ (fuel : Nat) (st : FlagState) (prefixArgs : List String),
      tokens.length - st.index ≤ fuel →
      PreVerbAgrees tokens (preVerbLoop tokens fuel st prefixArgs)
        (scanVerb (tokens.drop st.index)) := by
  intro fuel
  induction fuel with
  | zero =>
    intro st pa hf
    have : tokens.length ≤ st.index := by omega
    simp [preVerbLoop, List.drop_eq_nil_of_le this, scanVerb, PreVerbAgrees]
  | succ fuel ih =>
    intro st pa hf
    unfold preVerbLoop
    by_cases hlt : st.index < tokens.length
    · simp only [hlt, if_true]
      rw [drop_eq_getD_cons tokens st.index hlt]
      generalize htok : tokens.getD st.index "" = token
      by_cases hcmd : isCommandToken token = true
      · cases hrest : tokens.drop (st.index + 1) <;>
          simp only [hcmd, scanVerb, PreVerbAgrees, htok, if_true]
      · simp only [hcmd, Bool.false_eq_true, if_false]
        -- the tokens after the current one
        have hnext : st.index + 1 < tokens.length →
            tokens.drop (st.index + 1) =
              tokens.getD (st.index + 1) "" :: tokens.drop (st.index + 1 + 1) :=
          drop_eq_getD_cons tokens (st.index + 1)
        have hlast : ¬ st.index + 1 < tokens.length → tokens.drop (st.index + 1) = [] :=
          fun h => List.drop_eq_nil_of_le (by omega)
        by_cases hverb : token = "--verbosity"
        · subst hverb
          by_cases hlen : st.index + 1 < tokens.length
          · rw [hnext hlen]
            have hge : ¬ st.index + 1 ≥ tokens.length := by omega
            cases hlevel : parseVerbosityLevel (tokens.getD (st.index + 1) "") with
            | none =>
              simp only [parseGlobalFlag, htok, if_true, hge, if_false, hlevel, scanVerb,
                hcmd, Bool.false_eq_true, Option.isSome_none, PreVerbAgrees]
            | some level =>
              simp only [parseGlobalFlag, htok, if_true, hge, if_false, hlevel, scanVerb,
                hcmd, Bool.false_eq_true, Option.isSome_some]
              exact ih _ _ (by simp only; omega)
          · rw [hlast hlen]
            have hge : st.index + 1 ≥ tokens.length := by omega
            simp only [parseGlobalFlag, htok, if_true, hge, scanVerb,
                hcmd, Bool.false_eq_true, if_false, true_or, PreVerbAgrees]
        · by_cases hproj : token = "--project" ∨ token = "--config"
          · by_cases hlen : st.index + 1 < tokens.length
            · rw [hnext hlen]
              have hge : ¬ st.index + 1 ≥ tokens.length := by omega
              rcases hproj with hp | hp <;> subst hp
              · simp only [parseGlobalFlag, htok, if_true, hge, if_false, scanVerb,
                  hcmd, Bool.false_eq_true, true_or]
                simp only [show ¬ ("--project" = "--verbosity") by decide, if_false]
                exact ih _ _ (by simp only; omega)
              · simp only [parseGlobalFlag, htok, if_true, hge, if_false, scanVerb,
                  hcmd, Bool.false_eq_true, or_true]
                simp only [show ¬ ("--config" = "--verbosity") by decide,
                  show ¬ ("--config" = "--project") by decide, if_false]
                exact ih _ _ (by simp only; omega)
            · rw [hlast hlen]
              have hge : st.index + 1 ≥ tokens.length := by omega
              rcases hproj with hp | hp <;> subst hp
              · simp only [parseGlobalFlag, htok, if_true, hge, scanVerb,
                  hcmd, Bool.false_eq_true, if_false, true_or, or_true, PreVerbAgrees]
                simp only [show ¬ ("--project" = "--verbosity") by decide, if_false,
                  PreVerbAgrees]
              · simp only [parseGlobalFlag, htok, if_true, hge, scanVerb,
                  hcmd, Bool.false_eq_true, if_false, true_or, or_true, PreVerbAgrees]
                simp only [show ¬ ("--config" = "--verbosity") by decide,
                  show ¬ ("--config" = "--project") by decide, if_false, PreVerbAgrees]
          · push_neg at hproj
            have hng : parseGlobalFlag tokens st = (GlobalFlagResult.NotGlobal, st) := by
              simp only [parseGlobalFlag, htok, hverb, hproj.1, hproj.2, if_false]
            rw [hng]
            simp only
            have hsc : scanVerb (token :: tokens.drop (st.index + 1)) =
                scanVerb (tokens.drop (st.index + 1)) := by
              cases hrest : tokens.drop (st.index + 1) with
              | nil => simp [scanVerb, hcmd, hverb, hproj.1, hproj.2]
              | cons v rest => simp [scanVerb, hcmd, hverb, hproj.1, hproj.2]
            rw [hsc]
            exact ih _ _ (by simp only; omega)
    · have : tokens.length ≤ st.index := by omega
      simp [hlt, List.drop_eq_nil_of_le this, scanVerb, PreVerbAgrees]

/-- The flag `recognized` of `parseArguments`, in terms of the verb of the command line. -/
theorem parseArguments_recognized (argv : List String) :
    (parseArguments argv).recognized = false ↔
      (scanVerb argv.tail = VerbScan.absent ∨
        ∃ v, scanVerb argv.tail = VerbScan.found v ∧ isSupportedVerb v = false) := by
  unfold parseArguments
  by_cases hlen : argv.length < 2
  · have htail : argv.tail = [] := by
      match argv, hlen with
      | [], _ => rfl
      | [_], _ => rfl
    simp [hlen, htail, scanVerb]
  · simp only [hlen, if_false]
    have hagree := preVerbLoop_agrees argv argv.length
      { index := 1, globals := {}, errorCode := CLIExitCode.UnknownFlag, errorMessage := "" }
      [] (by simp)
    simp only [List.drop_one] at hagree
    generalize preVerbLoop argv argv.length _ _ = res at hagree ⊢
    generalize scanVerb argv.tail = sv at hagree ⊢
    cases res with
    | flagError st => cases sv <;> simp_all [PreVerbAgrees]
    | noCommand st pa => cases sv <;> simp_all [PreVerbAgrees]
    | command i st pa =>
      cases sv with
      | flagError => simp [PreVerbAgrees] at hagree
      | absent => simp [PreVerbAgrees] at hagree
      | found v =>
        simp only [PreVerbAgrees] at hagree
        simp only [hagree]
        by_cases hsup : isSupportedVerb v = true
        · simp only [hsup, if_true]
          generalize commandArgsLoop argv argv.length _ _ = r
          obtain ⟨st2, o⟩ := r
          cases o <;> simp [hsup]
        · simp [hsup]

/-- The method `tryRun` gives no exit code exactly when the command line is not
recognized. -/
theorem tryRun_eq_none_iff (toInt : CLIExitCode → Int)
    (run : CommandKind → CommandExecutionContext → CLIExitCode) (argv : List String) :
    tryRun toInt run argv = none ↔ (parseArguments argv).recognized = false := by
  have hc : ∀ verb, ∃ c, createCommand verb = some c := by
    intro verb
    unfold createCommand
    split_ifs <;> exact ⟨_, rfl⟩
  unfold tryRun
  simp only
  generalize parseArguments argv = o
  obtain ⟨recog, succ, ec, em, parsed⟩ := o
  obtain ⟨c, hcv⟩ := hc parsed.verb
  cases recog <;> cases succ <;> simp [hcv]

/-- C8 as stated fails: in `glint --verbosity` every token after `argv[0]` starts with `-`,
so the first token not starting with `-` is absent, and `parseArguments` yields
`recognized = true` and `tryRun` returns the exit code `UnknownFlag`. -/
theorem dispatcher_flag_error_counterexample :
    (∀ t ∈ (["glint", "--verbosity"] : List String).tail, t.data.head? = some '-') ∧
    (parseArguments ["glint", "--verbosity"]).recognized = true ∧
    ∀ (toInt : CLIExitCode → Int) (run : CommandKind → CommandExecutionContext → CLIExitCode),
      tryRun toInt run ["glint", "--verbosity"] = some (toInt CLIExitCode.UnknownFlag) :=
  ⟨by decide, by decide, fun _ _ => rfl⟩

/-- In `glint "" init` the first token after `argv[0]` that does not start with `-` is the
empty token, which is no verb; the scan skips it and `init` is recognized. -/
theorem dispatcher_empty_token_recognized :
    (("" : String).data.head? ≠ some '-') ∧ isSupportedVerb "" = false ∧
    (parseArguments ["glint", "", "init"]).recognized = true :=
  ⟨by decide, by decide, by decide⟩

/-- C8, amended: `parseArguments` yields `recognized = false`, and `tryRun` yields no exit
code, exactly when no `--verbosity`, `--project` or `--config` before the verb lacks its
value (a level name for `--verbosity`) and the first non-empty token not starting with `-`,
after the values these flags consume, is absent or is not a supported verb; and
when such a flag lacks its value, `recognized` is true, `success` is false and `tryRun`
returns the exit code `UnknownFlag`. -/
theorem dispatcher_unrecognized_iff (toInt : CLIExitCode → Int)
    (run : CommandKind → CommandExecutionContext → CLIExitCode) (argv : List String) :
    ((parseArguments argv).recognized = false ↔
      (scanVerb argv.tail = VerbScan.absent ∨
        ∃ v, scanVerb argv.tail = VerbScan.found v ∧ isSupportedVerb v = false)) ∧
    (tryRun toInt run argv = none ↔
      (scanVerb argv.tail = VerbScan.absent ∨
        ∃ v, scanVerb argv.tail = VerbScan.found v ∧ isSupportedVerb v = false)) ∧
    (match scanVerb argv.tail with
      | VerbScan.flagError =>
        (parseArguments argv).recognized = true ∧ (parseArguments argv).success = false ∧
          tryRun toInt run argv = some (toInt CLIExitCode.UnknownFlag)
      | _ => True) := by
  refine ⟨parseArguments_recognized argv,
    (tryRun_eq_none_iff toInt run argv).trans (parseArguments_recognized argv), ?_⟩
  cases hsv : scanVerb argv.tail with
  | absent => trivial
  | found v => trivial
  | flagError =>
    simp only
    have hlen : ¬ argv.length < 2 := by
      intro hlen
      have htail : argv.tail = [] := by
        match argv, hlen with
        | [], _ => rfl
        | [_], _ => rfl
      rw [htail] at hsv
      simp [scanVerb] at hsv
    have hagree := preVerbLoop_agrees argv argv.length
      { index := 1, globals := {}, errorCode := CLIExitCode.UnknownFlag, errorMessage := "" }
      [] (by simp)
    simp only [List.drop_one, hsv] at hagree
    unfold tryRun parseArguments
    simp only [hlen, if_false]
    generalize preVerbLoop argv argv.length _ _ = res at hagree ⊢
    cases res with
    | flagError st =>
      simp only [PreVerbAgrees] at hagree
      simp [hagree]
    | noCommand st pa => simp [PreVerbAgrees] at hagree
    | command i st pa => simp [PreVerbAgrees] at hagree

/-! ## The checksum -/

theorem getD_set (l : List Nat) (i j a d : Nat) :
    (l.set i a).getD j d = if i = j ∧ i < l.length then a else l.getD j d := by
  simp only [List.getD_eq_getElem?_getD, List.getElem?_set]
  by_cases h : i = j
  · subst h
    by_cases hl : i < l.length
    · simp [hl]
    · simp [hl, List.getElem?_eq_none (not_lt.mp hl)]
  · simp [h]

/-- A loop that writes `f i` at index `i` for `i < n`. -/
theorem getD_foldl_set (f : Nat → Nat) (m0 : List Nat) :
    ∀ n, n ≤ m0.length → ∀ j,
      (((List.range n).foldl (fun m i => m.set i (f i)) m0).length = m0.length) ∧
      ((List.range n).foldl (fun m i => m.set i (f i)) m0).getD j 0 =
        if j < n then f j else m0.getD j 0 := by
  intro n
  induction n with
  | zero => intro _ j; simp
  | succ n ih =>
    intro hn j
    have h := ih (by omega)
    rw [List.range_succ, List.foldl_append]
    simp only [List.foldl_cons, List.foldl_nil, List.length_set]
    refine ⟨(h j).1, ?_⟩
    rw [getD_set, (h j).2, (h j).1]
    by_cases hj : n = j
    · subst hj; simp; omega
    · have : (j < n + 1) = (j < n) := by
        apply propext; constructor <;> intro <;> omega
      simp [hj, this]

theorem loadWords_length (data : List Nat) : (SHA256.loadWords data).length = 64 := by
  unfold SHA256.loadWords
  exact ((getD_foldl_set _ (List.replicate 64 0) 16 (by simp) 0).1).trans (by simp)

theorem loadWords_getD (data : List Nat) (j : Nat) (hj : j < 16) :
    (SHA256.loadWords data).getD j 0 = FIPS180.blockWord data j := by
  unfold SHA256.loadWords
  rw [(getD_foldl_set _ (List.replicate 64 0) 16 (by simp) j).2]
  simp [hj, FIPS180.blockWord]

/-- The second loop of `transform` after `n` iterations holds the message schedule up to
index `16 + n`. -/
theorem extendWords_invariant (data : List Nat) :
    ∀ n, n ≤ 48 →
      ((List.range n).foldl SHA256.extendStep (SHA256.loadWords data)).length = 64 ∧
      ∀ i, i < 16 + n →
        ((List.range n).foldl SHA256.extendStep (SHA256.loadWords data)).getD i 0 =
          FIPS180.W data i := by
  intro n
  induction n with
  | zero =>
    intro _
    simp only [List.range_zero, List.foldl_nil]
    refine ⟨loadWords_length data, ?_⟩
    intro i hi
    rw [loadWords_getD data i (by omega), FIPS180.W]
    simp only [show i < 16 by omega, if_true]
  | succ n ih =>
    intro hn
    obtain ⟨hlen, hget⟩ := ih (by omega)
    rw [List.range_succ, List.foldl_append]
    simp only [List.foldl_cons, List.foldl_nil]
    generalize (List.range n).foldl SHA256.extendStep (SHA256.loadWords data) = m at hlen hget
    unfold SHA256.extendStep
    simp only
    refine ⟨by rw [List.length_set]; exact hlen, ?_⟩
    intro i hi
    rw [getD_set, hlen]
    by_cases h : 16 + n = i
    · subst h
      simp only [true_and, show 16 + n < 64 by omega, if_true]
      rw [hget (16 + n - 16) (by omega), hget (16 + n - 15) (by omega),
        hget (16 + n - 7) (by omega), hget (16 + n - 2) (by omega)]
      conv_rhs => rw [FIPS180.W]
      simp only [show ¬ (16 + n < 16) by omega, if_false, FIPS180.smallSigma0,
        FIPS180.smallSigma1, FIPS180.ROTR, FIPS180.SHR, SHA256.ror]
      congr 1
      ring
    · simp only [h, false_and, if_false]
      exact hget i (by omega)

theorem extendWords_getD (data : List Nat) (i : Nat) (hi : i < 64) :
    (SHA256.extendWords (SHA256.loadWords data)).getD i 0 = FIPS180.W data i := by
  unfold SHA256.extendWords
  exact (extendWords_invariant data 48 (le_refl _)).2 i (by omega)

/-- The table `k` of `transform` holds the constants of the standard. -/
theorem k_getD : ∀ t, t < 64 → SHA256.k.getD t 0 = FIPS180.K t := by
  decide!

/-- The initial state of `reset` is the initial hash value of the standard. -/
theorem reset_m_state : SHA256.reset.m_state = FIPS180.H0 := by
  decide!

theorem round_toWorking (data : List Nat) (v : SHA256.Vars) (i : Nat) (hi : i < 64) :
    (SHA256.round (SHA256.extendWords (SHA256.loadWords data)) v i).toWorking =
      FIPS180.step data i v.toWorking := by
  simp only [SHA256.round, FIPS180.step, SHA256.Vars.toWorking, extendWords_getD data i hi,
    k_getD i hi, FIPS180.bigSigma0, FIPS180.bigSigma1, FIPS180.Ch, FIPS180.Maj, FIPS180.ROTR,
    FIPS180.complement, SHA256.ror, SHA256.not32]

theorem rounds_toWorking (data : List Nat) (H : List Nat) :
    ∀ n, n ≤ 64 →
      ((List.range n).foldl (SHA256.round (SHA256.extendWords (SHA256.loadWords data)))
        { a := H.getD 0 0, b := H.getD 1 0, c := H.getD 2 0, d := H.getD 3 0, e := H.getD 4 0
          f := H.getD 5 0, g := H.getD 6 0, h := H.getD 7 0 }).toWorking =
      FIPS180.steps H data n := by
  intro n
  induction n with
  | zero => intro _; rfl
  | succ n ih =>
    intro hn
    rw [List.range_succ, List.foldl_append]
    simp only [List.foldl_cons, List.foldl_nil]
    rw [round_toWorking data _ n (by omega), ih (by omega)]
    rfl

/-- The method `transform` computes the next intermediate hash value from the block in
`m_data`, and leaves the other members. -/
theorem transform_eq (s : SHA256) :
    SHA256.transform s =
      { s with m_state := FIPS180.compress s.m_state s.m_data } := by
  have h := rounds_toWorking s.m_data s.m_state 64 (le_refl _)
  unfold SHA256.transform FIPS180.compress
  simp only
  rw [← h]
  rfl


/-! ### Blocks -/

theorem blocks_of_lt (bytes : List Nat) (h : bytes.length < 64) : FIPS180.blocks bytes = [] := by
  unfold FIPS180.blocks
  rw [Nat.div_eq_of_lt h]
  rfl

theorem blocks_append_block (block rest : List Nat) (h : block.length = 64) :
    FIPS180.blocks (block ++ rest) = block :: FIPS180.blocks rest := by
  unfold FIPS180.blocks
  have hl : (block ++ rest).length / 64 = rest.length / 64 + 1 := by
    rw [List.length_append, h]; omega
  rw [hl, List.range_succ_eq_map, List.map_cons, List.map_map]
  congr 1
  · simp [List.take_append_of_le_length (le_of_eq h.symm), ← h]
  · apply List.map_congr_left
    intro i _
    simp only [Function.comp]
    have : 64 * (i + 1) = block.length + 64 * i := by omega
    rw [this, ← List.drop_drop, List.drop_left]

theorem hashBlocks_of_lt (H bytes : List Nat) (h : bytes.length < 64) :
    FIPS180.hashBlocks H bytes = H := by
  simp [FIPS180.hashBlocks, blocks_of_lt bytes h]

theorem hashBlocks_append_block (H block rest : List Nat) (h : block.length = 64) :
    FIPS180.hashBlocks H (block ++ rest) =
      FIPS180.hashBlocks (FIPS180.compress H block) rest := by
  simp [FIPS180.hashBlocks, blocks_append_block block rest h]

theorem tailBytes_of_lt (bytes : List Nat) (h : bytes.length < 64) : tailBytes bytes = bytes := by
  unfold tailBytes
  rw [Nat.div_eq_of_lt h]
  rfl

theorem tailBytes_append_block (block rest : List Nat) (h : block.length = 64) :
    tailBytes (block ++ rest) = tailBytes rest := by
  unfold tailBytes
  have hl : 64 * ((block ++ rest).length / 64) = block.length + 64 * (rest.length / 64) := by
    rw [List.length_append, h]; omega
  rw [hl, ← List.drop_drop, List.drop_left]

theorem tailBytes_length (bytes : List Nat) : (tailBytes bytes).length = bytes.length % 64 := by
  unfold tailBytes
  rw [List.length_drop]
  omega

/-- The blocks of a sequence followed by more bytes: first the complete blocks of the
sequence, then the blocks of what follows its last complete block. -/
theorem hashBlocks_append (ys : List Nat) :
    ∀ (n : Nat) (xs H : List Nat), xs.length ≤ n →
      FIPS180.hashBlocks H (xs ++ ys) =
        FIPS180.hashBlocks (FIPS180.hashBlocks H xs) (tailBytes xs ++ ys) := by
  intro n
  induction n using Nat.strong_induction_on with
  | _ n ih =>
    intro xs H hn
    by_cases hlt : xs.length < 64
    · rw [hashBlocks_of_lt H xs hlt, tailBytes_of_lt xs hlt]
    · have hsplit : xs = xs.take 64 ++ xs.drop 64 := (List.take_append_drop 64 xs).symm
      have htake : (xs.take 64).length = 64 := by rw [List.length_take]; omega
      have hdrop : (xs.drop 64).length < n := by rw [List.length_drop]; omega
      conv_lhs => rw [hsplit, List.append_assoc, hashBlocks_append_block _ _ _ htake]
      conv_rhs =>
        rw [hsplit, hashBlocks_append_block _ _ _ htake,
          tailBytes_append_block _ _ htake]
      exact ih _ hdrop (xs.drop 64) _ (le_refl _)

/-! ### The block of `compress` is read at its first 64 bytes -/

theorem W_congr (a b : List Nat) (h : ∀ j, j < 64 → a.getD j 0 = b.getD j 0) :
    ∀ t, FIPS180.W a t = FIPS180.W b t := by
  intro t
  induction t using Nat.strong_induction_on with
  | _ t ih =>
    rw [FIPS180.W]
    conv_rhs => rw [FIPS180.W]
    by_cases ht : t < 16
    · simp only [ht, if_true, FIPS180.blockWord]
      rw [h (4 * t) (by omega), h (4 * t + 1) (by omega), h (4 * t + 2) (by omega),
        h (4 * t + 3) (by omega)]
    · simp only [ht, if_false]
      rw [ih (t - 2) (by omega), ih (t - 7) (by omega), ih (t - 15) (by omega),
        ih (t - 16) (by omega)]

theorem compress_congr (H a b : List Nat) (h : ∀ j, j < 64 → a.getD j 0 = b.getD j 0) :
    FIPS180.compress H a = FIPS180.compress H b := by
  have hsteps : ∀ n, FIPS180.steps H a n = FIPS180.steps H b n := by
    intro n
    induction n with
    | zero => rfl
    | succ n ih => simp only [FIPS180.steps, FIPS180.step, ih, W_congr a b h]
  simp only [FIPS180.compress, hsteps]

/-! ### The method `update` -/

theorem getD_append_single (p : List Nat) (b j : Nat) :
    (p ++ [b]).getD j 0 = if j < p.length then p.getD j 0 else if j = p.length then b else 0 := by
  by_cases h : j < p.length
  · simp only [h, if_true]
    rw [List.getD_append _ _ _ _ h]
  · simp only [h, if_false]
    rw [List.getD_append_right _ _ _ _ (not_lt.mp h)]
    by_cases h2 : j = p.length
    · subst h2; simp
    · have : j - p.length ≠ 0 := by omega
      obtain ⟨m, hm⟩ := Nat.exists_eq_succ_of_ne_zero this
      simp [h2, hm]

/-- The buffer after the store `m_data[m_blocklen++] = byte`. -/
theorem holds_store (s : SHA256) (p : List Nat) (b : Nat) (hs : s.Holds p) :
    (s.m_data.set s.m_blocklen b).length = 64 ∧
    ∀ j, j < p.length + 1 → (s.m_data.set s.m_blocklen b).getD j 0 = (p ++ [b]).getD j 0 := by
  obtain ⟨h1, h2, h3, h4⟩ := hs
  refine ⟨by rw [List.length_set]; exact h3, ?_⟩
  intro j hj
  rw [getD_set, getD_append_single, h1, h3]
  by_cases hjp : j = p.length
  · subst hjp
    simp [h2]
  · have hlt : j < p.length := by omega
    have hne : ¬ (p.length = j ∧ p.length < 64) := by omega
    simp only [hne, if_false, hlt, if_true]
    exact h4 j hlt

/-- The method `update` from an object that holds the pending bytes `p`: the object then
holds what follows the last complete block of `p` and the new bytes, its state is the hash
value after their complete blocks, and `m_bitlen` counts 512 bits for each of them. -/
theorem update_spec :
    ∀ (ys : List UInt8) (s : SHA256) (p : List Nat), s.Holds p →
      (SHA256.update s ys).Holds (tailBytes (p ++ ys.map UInt8.toNat)) ∧
      (SHA256.update s ys).m_state =
        FIPS180.hashBlocks s.m_state (p ++ ys.map UInt8.toNat) ∧
      (SHA256.update s ys).m_bitlen % 2 ^ 64 =
        (s.m_bitlen + 512 * ((p.length + ys.length) / 64)) % 2 ^ 64
  | [], s, p, hs => by
    have hp : p.length < 64 := hs.2.1
    simp only [SHA256.update, List.foldl_nil, List.map_nil, List.append_nil,
      tailBytes_of_lt p hp, hashBlocks_of_lt _ p hp, List.length_nil, Nat.add_zero,
      Nat.div_eq_of_lt hp, Nat.mul_zero]
    exact ⟨hs, by trivial, by trivial⟩
  | b :: ys, s, p, hs => by
    have hp : p.length < 64 := hs.2.1
    have hbl : s.m_blocklen = p.length := hs.1
    obtain ⟨hlen, hget⟩ := holds_store s p b.toNat hs
    have hupd : SHA256.update s (b :: ys) = SHA256.update (SHA256.updateByte s b) ys := rfl
    have happ : p ++ (b :: ys).map UInt8.toNat = (p ++ [b.toNat]) ++ ys.map UInt8.toNat := by
      simp
    rw [hupd, happ]
    by_cases hfull : p.length + 1 = 64
    · have hstep : SHA256.updateByte s b =
          { m_data := s.m_data.set s.m_blocklen b.toNat
            m_blocklen := 0
            m_bitlen := (s.m_bitlen + 512) % 2 ^ 64
            m_state := FIPS180.compress s.m_state (s.m_data.set s.m_blocklen b.toNat) } := by
        unfold SHA256.updateByte
        simp only [hbl, hfull, if_true, transform_eq]
      have hblock : (p ++ [b.toNat]).length = 64 := by simp [hfull]
      have hstate : FIPS180.compress s.m_state (s.m_data.set s.m_blocklen b.toNat) =
          FIPS180.compress s.m_state (p ++ [b.toNat]) :=
        compress_congr _ _ _ (fun j hj => hget j (by omega))
      have hholds : (SHA256.updateByte s b).Holds [] := by
        rw [hstep]
        exact ⟨rfl, by simp, hlen, fun j hj => absurd hj (by simp)⟩
      obtain ⟨r1, r2, r3⟩ := update_spec ys (SHA256.updateByte s b) [] hholds
      simp only [List.nil_append, List.length_nil, Nat.zero_add] at r1 r2 r3
      refine ⟨?_, ?_, ?_⟩
      · rw [tailBytes_append_block _ _ hblock]; exact r1
      · rw [hashBlocks_append_block _ _ _ hblock, r2, hstep, hstate]
      · rw [r3, hstep]
        simp only [List.length_cons]
        have : (p.length + (ys.length + 1)) / 64 = ys.length / 64 + 1 := by omega
        rw [this]
        omega
    · have hstep : SHA256.updateByte s b =
          { s with m_data := s.m_data.set s.m_blocklen b.toNat
                   m_blocklen := s.m_blocklen + 1 } := by
        unfold SHA256.updateByte
        simp only [hbl, hfull, if_false]
      have hholds : (SHA256.updateByte s b).Holds (p ++ [b.toNat]) := by
        rw [hstep]
        refine ⟨by simp [hbl], by simp; omega, hlen, ?_⟩
        intro j hj
        exact hget j (by simpa using hj)
      obtain ⟨r1, r2, r3⟩ := update_spec ys (SHA256.updateByte s b) (p ++ [b.toNat]) hholds
      refine ⟨r1, ?_, ?_⟩
      · rw [r2, hstep]
      · rw [r3, hstep]
        simp only [List.length_append, List.length_cons, List.length_nil]
        have : (p.length + (0 + 1) + ys.length) = (p.length + (ys.length + 1)) := by omega
        rw [this]

/-! ### The method `finalize` -/

theorem zeroFill_spec (i : Nat) :
    ∀ (c : Nat) (d : List Nat),
      ((List.range c).foldl (fun d j => d.set (i + j) 0) d).length = d.length ∧
      ∀ j, ((List.range c).foldl (fun d j => d.set (i + j) 0) d).getD j 0 =
        if i ≤ j ∧ j < i + c then 0 else d.getD j 0 := by
  intro c
  induction c with
  | zero =>
    intro d
    refine ⟨rfl, fun j => ?_⟩
    have e : ¬ (i ≤ j ∧ j < i + 0) := by omega
    simp only [List.range_zero, List.foldl_nil, e, if_false]
  | succ c ih =>
    intro d
    obtain ⟨h1, h2⟩ := ih d
    rw [List.range_succ, List.foldl_append]
    simp only [List.foldl_cons, List.foldl_nil, List.length_set]
    refine ⟨h1, ?_⟩
    intro j
    rw [getD_set, h2, h1]
    by_cases hj : i + c = j
    · subst hj
      have e3 : (i ≤ i + c ∧ i + c < i + (c + 1)) := by omega
      have e4 : ¬ (i ≤ i + c ∧ i + c < i + c) := by omega
      simp only [e3, e4, if_true, if_false, true_and]
      by_cases hl : i + c < d.length
      · simp only [hl, if_true]
      · simp only [hl, if_false]
        rw [List.getD_eq_getElem?_getD, List.getElem?_eq_none (not_lt.mp hl)]
        simp
    · have e1 : ¬ (i + c = j ∧ i + c < d.length) := fun h => hj h.1
      have e2 : (i ≤ j ∧ j < i + (c + 1)) ↔ (i ≤ j ∧ j < i + c) := by omega
      simp only [e1, if_false, e2]

theorem zeroFill_length (d : List Nat) (i n : Nat) : (SHA256.zeroFill d i n).length = d.length :=
  (zeroFill_spec i (n - i) d).1

theorem zeroFill_getD (d : List Nat) (i n j : Nat) :
    (SHA256.zeroFill d i n).getD j 0 = if i ≤ j ∧ j < n then 0 else d.getD j 0 := by
  unfold SHA256.zeroFill
  rw [(zeroFill_spec i (n - i) d).2 j]
  have : (i ≤ j ∧ j < i + (n - i)) ↔ (i ≤ j ∧ j < n) := by omega
  simp only [this]

theorem lengthBlock_length (l : Nat) : (FIPS180.lengthBlock l).length = 8 := by
  simp [FIPS180.lengthBlock]

theorem lengthBlock_getD (l r : Nat) (hr : r < 8) :
    (FIPS180.lengthBlock l).getD r 0 = (l >>> (8 * (7 - r))) % 256 := by
  simp [FIPS180.lengthBlock, List.getD_eq_getElem?_getD, List.getElem?_map,
    List.getElem?_range, hr]

theorem replicate_getD (c j : Nat) : (List.replicate c 0).getD j 0 = 0 := by
  simp only [List.getD_eq_getElem?_getD, List.getElem?_replicate]
  split_ifs <;> rfl

/-- The eight stores of the bit count at the end of the buffer. -/
theorem lengthStores_getD (d : List Nat) (l j : Nat) (hd : d.length = 64) :
    ((((((((d.set 63 (l % 256)).set 62 ((l >>> 8) % 256)).set 61 ((l >>> 16) % 256)).set
      60 ((l >>> 24) % 256)).set 59 ((l >>> 32) % 256)).set 58 ((l >>> 40) % 256)).set
      57 ((l >>> 48) % 256)).set 56 ((l >>> 56) % 256)).getD j 0 =
      if 56 ≤ j ∧ j < 64 then (l >>> (8 * (63 - j))) % 256 else d.getD j 0 := by
  simp only [getD_set, List.length_set, hd]
  by_cases h : 56 ≤ j ∧ j < 64
  · obtain ⟨h1, h2⟩ := h
    interval_cases j <;> simp
  · have e : ∀ k, 56 ≤ k → k < 64 → ¬ (k = j ∧ k < 64) := by
      intro k hk1 hk2 hh; apply h; omega
    simp only [h, if_false, e 56 (by omega) (by omega), e 57 (by omega) (by omega),
      e 58 (by omega) (by omega), e 59 (by omega) (by omega), e 60 (by omega) (by omega),
      e 61 (by omega) (by omega), e 62 (by omega) (by omega), e 63 (by omega) (by omega)]

/-- The last block of a padded message whose pending bytes leave room for the length. -/
theorem lastBlock_getD (p : List Nat) (l j : Nat) (hp : p.length < 56) (hj : j < 64) :
    (p ++ [0x80] ++ List.replicate (55 - p.length) 0 ++ FIPS180.lengthBlock l).getD j 0 =
      if 56 ≤ j ∧ j < 64 then (l >>> (8 * (63 - j))) % 256
      else if p.length + 1 ≤ j ∧ j < 56 then 0
      else if p.length = j then 0x80 else p.getD j 0 := by
  have hlen1 : (p ++ [0x80] ++ List.replicate (55 - p.length) 0).length = 56 := by
    simp; omega
  by_cases h56 : 56 ≤ j
  · rw [List.getD_append_right _ _ _ _ (by omega), hlen1, lengthBlock_getD l (j - 56) (by omega)]
    have : 7 - (j - 56) = 63 - j := by omega
    simp [h56, hj, this]
  · rw [List.getD_append _ _ _ _ (by omega)]
    have e1 : ¬ (56 ≤ j ∧ j < 64) := by omega
    simp only [e1, if_false]
    by_cases hz : p.length + 1 ≤ j
    · rw [List.getD_append_right _ _ _ _ (by simp; omega), replicate_getD]
      simp [hz, show j < 56 by omega]
    · rw [List.getD_append _ _ _ _ (by simp; omega), getD_append_single]
      have e2 : ¬ (p.length + 1 ≤ j ∧ j < 56) := by omega
      simp only [e2, if_false]
      by_cases hjp : p.length = j
      · subst hjp; simp
      · have : j < p.length := by omega
        simp [hjp, this]

theorem hashBlocks_single (H block : List Nat) (h : block.length = 64) :
    FIPS180.hashBlocks H block = FIPS180.compress H block := by
  have := hashBlocks_append_block H block [] h
  rw [List.append_nil] at this
  rw [this, hashBlocks_of_lt _ [] (by simp)]

/-- The method `finalize` on an object that holds the pending bytes `p` after `n` blocks:
the hexadecimal words of the hash value after the blocks of `p` and the padding. -/
theorem finalize_spec (s : SHA256) (p : List Nat) (n : Nat) (hs : s.Holds p)
    (hbit : s.m_bitlen % 2 ^ 64 = (512 * n) % 2 ^ 64)
    (hlen : 8 * (64 * n + p.length) < 2 ^ 64) :
    s.finalize =
      String.mk ((FIPS180.hashBlocks s.m_state
        (p ++ [0x80] ++
          List.replicate ((FIPS180.zeroBits (8 * (64 * n + p.length)) - 7) / 8) 0 ++
          FIPS180.lengthBlock (8 * (64 * n + p.length)))).flatMap SHA256.hexWord) := by
  obtain ⟨hbl, hp, hd, hget⟩ := hs
  have hL : (s.m_bitlen + (p.length * 8) % 2 ^ 32) % 2 ^ 64 = 8 * (64 * n + p.length) := by
    omega
  by_cases hcase : p.length < 56
  · have hz : (FIPS180.zeroBits (8 * (64 * n + p.length)) - 7) / 8 = 55 - p.length := by
      unfold FIPS180.zeroBits; omega
    have hblock : (p ++ [0x80] ++ List.replicate (55 - p.length) 0 ++
        FIPS180.lengthBlock (8 * (64 * n + p.length))).length = 64 := by
      simp [lengthBlock_length]; omega
    rw [hz, hashBlocks_single _ _ hblock]
    have hpoint : ∀ j, j < 64 →
        ((((((((((SHA256.zeroFill (s.m_data.set p.length 0x80) (p.length + 1) 56).set 63
          (8 * (64 * n + p.length) % 256)).set 62 ((8 * (64 * n + p.length)) >>> 8 % 256)).set
          61 ((8 * (64 * n + p.length)) >>> 16 % 256)).set
          60 ((8 * (64 * n + p.length)) >>> 24 % 256)).set
          59 ((8 * (64 * n + p.length)) >>> 32 % 256)).set
          58 ((8 * (64 * n + p.length)) >>> 40 % 256)).set
          57 ((8 * (64 * n + p.length)) >>> 48 % 256)).set
          56 ((8 * (64 * n + p.length)) >>> 56 % 256))).getD j 0 =
        (p ++ [0x80] ++ List.replicate (55 - p.length) 0 ++
          FIPS180.lengthBlock (8 * (64 * n + p.length))).getD j 0 := by
      intro j hj
      rw [lengthStores_getD _ _ _ (by rw [zeroFill_length, List.length_set]; exact hd),
        lastBlock_getD p _ j hcase hj, zeroFill_getD, getD_set, hd]
      by_cases h1 : 56 ≤ j ∧ j < 64
      · simp only [h1, and_self, if_true]
      · simp only [h1, if_false]
        by_cases h2 : p.length + 1 ≤ j ∧ j < 56
        · simp only [h2, and_self, if_true]
        · simp only [h2, if_false]
          by_cases h3 : p.length = j
          · simp only [h3, true_and, hj, if_true]
          · simp only [h3, false_and, if_false]
            exact hget j (by omega)
    unfold SHA256.finalize
    simp only [hbl, hcase, if_true, transform_eq, hL]
    rw [compress_congr s.m_state _ _ hpoint]
  · have hz : (FIPS180.zeroBits (8 * (64 * n + p.length)) - 7) / 8 =
        (63 - p.length) + 56 := by
      unfold FIPS180.zeroBits; omega
    have hsplit : p ++ [0x80] ++ List.replicate ((63 - p.length) + 56) 0 ++
        FIPS180.lengthBlock (8 * (64 * n + p.length)) =
        (p ++ [0x80] ++ List.replicate (63 - p.length) 0) ++
          (List.replicate 56 0 ++ FIPS180.lengthBlock (8 * (64 * n + p.length))) := by
      rw [List.replicate_add]
      simp only [List.append_assoc]
    have hblock1 : (p ++ [0x80] ++ List.replicate (63 - p.length) 0).length = 64 := by
      simp; omega
    have hblock2 : (List.replicate 56 0 ++
        FIPS180.lengthBlock (8 * (64 * n + p.length))).length = 64 := by
      simp [lengthBlock_length]
    rw [hz, hsplit, hashBlocks_append_block _ _ _ hblock1, hashBlocks_single _ _ hblock2]
    have hpoint1 : ∀ j, j < 64 →
        (SHA256.zeroFill (s.m_data.set p.length 0x80) (p.length + 1) 64).getD j 0 =
        (p ++ [0x80] ++ List.replicate (63 - p.length) 0).getD j 0 := by
      intro j hj
      rw [zeroFill_getD, getD_set, hd]
      by_cases h2 : p.length + 1 ≤ j
      · rw [List.getD_append_right _ _ _ _ (by simp; omega), replicate_getD]
        simp only [h2, hj, and_self, if_true]
      · rw [List.getD_append _ _ _ _ (by simp; omega), getD_append_single]
        have e2 : ¬ (p.length + 1 ≤ j ∧ j < 64) := by omega
        simp only [e2, if_false]
        by_cases h3 : p.length = j
        · subst h3; simp [hp]
        · have hlt : j < p.length := by omega
          simp only [h3, false_and, if_false, hlt, if_true]
          exact hget j hlt
    have hpoint2 : ∀ (d : List Nat), d.length = 64 → ∀ j, j < 64 →
        ((((((((((SHA256.zeroFill d 0 56).set 63
          (8 * (64 * n + p.length) % 256)).set 62 ((8 * (64 * n + p.length)) >>> 8 % 256)).set
          61 ((8 * (64 * n + p.length)) >>> 16 % 256)).set
          60 ((8 * (64 * n + p.length)) >>> 24 % 256)).set
          59 ((8 * (64 * n + p.length)) >>> 32 % 256)).set
          58 ((8 * (64 * n + p.length)) >>> 40 % 256)).set
          57 ((8 * (64 * n + p.length)) >>> 48 % 256)).set
          56 ((8 * (64 * n + p.length)) >>> 56 % 256))).getD j 0 =
        (List.replicate 56 0 ++ FIPS180.lengthBlock (8 * (64 * n + p.length))).getD j 0 := by
      intro d hdl j hj
      rw [lengthStores_getD _ _ _ (by rw [zeroFill_length]; exact hdl), zeroFill_getD]
      by_cases h1 : 56 ≤ j
      · rw [List.getD_append_right _ _ _ _ (by simp; omega), List.length_replicate,
          lengthBlock_getD _ (j - 56) (by omega)]
        have : 7 - (j - 56) = 63 - j := by omega
        simp only [h1, hj, and_self, if_true, this]
      · rw [List.getD_append _ _ _ _ (by simp; omega), replicate_getD]
        have e1 : ¬ (56 ≤ j ∧ j < 64) := by omega
        have e2 : (0 ≤ j ∧ j < 56) := by omega
        simp only [e1, if_false, e2, and_self, if_true]
    unfold SHA256.finalize
    simp only [hbl, hcase, if_false, transform_eq, hL]
    rw [compress_congr s.m_state _ _ hpoint1,
      compress_congr _ _ _
        (hpoint2 _ (by rw [zeroFill_length, List.length_set]; exact hd))]

/-! ### The digest in hexadecimal -/

theorem hexDigit_table : ∀ n, n < 16 →
    SHA256.hexDigit n = "0123456789abcdef".data.getD n '0' ∧
    SHA256.hexDigit n ∈ "0123456789abcdef".data := by
  decide

theorem hexWord_eq (w : Nat) :
    SHA256.hexWord w = (FIPS180.wordBytes w).flatMap FIPS180.hexByte := by
  have hr : List.range 8 = [0, 1, 2, 3, 4, 5, 6, 7] := by decide
  have hidx : ∀ x : Nat, x % 256 / 16 = (x >>> 4) % 16 ∧ x % 256 % 16 = x % 16 := by
    intro x
    rw [Nat.shiftRight_eq_div_pow]
    omega
  have hs : ∀ a : Nat, (w >>> a) >>> 4 = w >>> (a + 4) := by
    intro a; rw [Nat.shiftRight_add]
  simp only [SHA256.hexWord, hr, List.map, FIPS180.wordBytes, List.flatMap_cons,
    List.flatMap_nil, FIPS180.hexByte, List.cons_append, List.nil_append, List.append_nil,
    (hidx _).1, (hidx _).2, hs]
  have e : ∀ x : Nat, "0123456789abcdef".data.getD (x % 16) '0' = SHA256.hexDigit (x % 16) :=
    fun x => ((hexDigit_table (x % 16) (Nat.mod_lt _ (by decide))).1).symm
  have hw : w >>> 4 = w >>> (0 + 4) := by simp
  rw [hw]
  simp only [e, hs]
  rfl

theorem hexWord_length (w : Nat) : (SHA256.hexWord w).length = 8 := by
  simp [SHA256.hexWord]

theorem hexWord_mem (w : Nat) (c : Char) (hc : c ∈ SHA256.hexWord w) :
    c ∈ "0123456789abcdef".data := by
  simp only [SHA256.hexWord, List.mem_map] at hc
  obtain ⟨j, _, rfl⟩ := hc
  exact (hexDigit_table _ (Nat.mod_lt _ (by decide))).2

theorem compress_length (H block : List Nat) : (FIPS180.compress H block).length = 8 := by
  simp [FIPS180.compress]

theorem hashBlocks_length (H bytes : List Nat) (h : H.length = 8) :
    (FIPS180.hashBlocks H bytes).length = 8 := by
  unfold FIPS180.hashBlocks
  generalize FIPS180.blocks bytes = bs
  induction bs generalizing H with
  | nil => exact h
  | cons b bs ih => exact ih _ (compress_length H b)

theorem flatMap_length_const {α β : Type} (f : α → List β) (c : Nat)
    (hf : ∀ a, (f a).length = c) : ∀ l : List α, (l.flatMap f).length = l.length * c := by
  intro l
  induction l with
  | nil => simp
  | cons a l ih => simp [List.flatMap_cons, hf, ih, Nat.add_mul, Nat.add_comm]

/-- C5: `computeChecksum(content)` is the FIPS 180-4 SHA-256 digest of the bytes of
`content` in lowercase hexadecimal, of exactly 64 characters, for every content of fewer
than `2 ^ 64` bits (the messages for which the standard defines the digest). -/
theorem computeChecksum_eq_sha256 (content : ByteString)
    (hlen : 8 * content.length < 2 ^ 64) :
    computeChecksum content = FIPS180.hexDigest content ∧
    (computeChecksum content).length = 64 ∧
    ∀ c ∈ (computeChecksum content).data, c ∈ "0123456789abcdef".data := by
  have hreset : SHA256.reset.Holds [] :=
    ⟨rfl, by simp, by simp [SHA256.reset], fun j hj => absurd hj (by simp)⟩
  obtain ⟨u1, u2, u3⟩ := update_spec content SHA256.reset [] hreset
  simp only [List.nil_append, List.length_nil, Nat.zero_add] at u1 u2 u3
  have hbit0 : SHA256.reset.m_bitlen = 0 := rfl
  rw [hbit0, Nat.zero_add] at u3
  have htl : 64 * (content.length / 64) + (tailBytes (content.map UInt8.toNat)).length =
      content.length := by
    rw [tailBytes_length, List.length_map]; omega
  have hkey : computeChecksum content =
      String.mk ((FIPS180.sha256 content).flatMap SHA256.hexWord) := by
    unfold computeChecksum
    rw [finalize_spec _ _ (content.length / 64) u1 u3 (by rw [htl]; exact hlen), htl, u2,
      reset_m_state]
    unfold FIPS180.sha256 FIPS180.pad
    rw [List.length_map]
    simp only [List.append_assoc]
    rw [hashBlocks_append _ _ (content.map UInt8.toNat) FIPS180.H0 (le_refl _)]
  have hlen8 : (FIPS180.sha256 content).length = 8 :=
    hashBlocks_length _ _ (by decide)
  refine ⟨?_, ?_, ?_⟩
  · rw [hkey]
    unfold FIPS180.hexDigest FIPS180.digest
    rw [List.flatMap_assoc]
    congr 1
    apply List.flatMap_congr
    intro w _
    exact hexWord_eq w
  · rw [hkey, String.length]
    rw [flatMap_length_const _ 8 hexWord_length, hlen8]
  · rw [hkey]
    intro c hc
    simp only [List.mem_flatMap] at hc
    obtain ⟨w, _, hw⟩ := hc
    exact hexWord_mem w c hw

/-- C5 at the message `abc`. -/
theorem computeChecksum_eq_sha256_witness :
    8 * (asciiBytes "abc").length < 2 ^ 64 ∧
    (computeChecksum (asciiBytes "abc") = FIPS180.hexDigest (asciiBytes "abc") ∧
      (computeChecksum (asciiBytes "abc")).length = 64 ∧
      ∀ c ∈ (computeChecksum (asciiBytes "abc")).data, c ∈ "0123456789abcdef".data) :=
  ⟨by decide, computeChecksum_eq_sha256 (asciiBytes "abc") (by decide)⟩

/-- The test vectors of the standard for the empty message, for `abc` and for the message
of 56 characters, which takes two blocks. -/
theorem computeChecksum_test_vectors :
    computeChecksum [] =
      "e3b0c44298fc1c149afbf4c8996fb92427ae41e4649b934ca495991b7852b855" ∧
    computeChecksum (asciiBytes "abc") =
      "ba7816bf8f01cfea414140de5dae2223b00361a396177a9cb410ff61f20015ad" ∧
    computeChecksum (asciiBytes "abcdbcdecdefdefgefghfghighijhijkijkljklmklmnlmnomnopnopq") =
      "248d6a61d20638b8e5c026930c3e6039a33ce45964ff2167f6ecedd419db06c1" := by
  decide!

/-- The number `zeroBits l` is the smallest solution of `l + 1 + k ≡ 448 (mod 512)`. -/
theorem zeroBits_smallest (l : Nat) :
    (l + 1 + FIPS180.zeroBits l) % 512 = 448 ∧
    ∀ k, (l + 1 + k) % 512 = 448 → FIPS180.zeroBits l ≤ k := by
  unfold FIPS180.zeroBits
  constructor
  · omega
  · intro k hk; omega

/-- The binary search finds the integer parts of the roots of which the constants of the
standard are the fractional bits. -/
theorem floorRoot_constants :
    (∀ t, t < 64 →
      (FIPS180.floorRoot 3 (FIPS180.primes.getD t 0 * 2 ^ 96)) ^ 3 ≤
          FIPS180.primes.getD t 0 * 2 ^ 96 ∧
        FIPS180.primes.getD t 0 * 2 ^ 96 <
          (FIPS180.floorRoot 3 (FIPS180.primes.getD t 0 * 2 ^ 96) + 1) ^ 3) ∧
    (∀ j, j < 8 →
      (FIPS180.floorRoot 2 (FIPS180.primes.getD j 0 * 2 ^ 64)) ^ 2 ≤
          FIPS180.primes.getD j 0 * 2 ^ 64 ∧
        FIPS180.primes.getD j 0 * 2 ^ 64 <
          (FIPS180.floorRoot 2 (FIPS180.primes.getD j 0 * 2 ^ 64) + 1) ^ 2) ∧
    FIPS180.primes.length = 64 := by
  decide!

/-! ## The run manifest validator -/

theorem isValid_addError (r : ValidationResult) (f m c : String) :
    (addError r f m c).isValid = false := by
  simp [addError, ValidationResult.isValid]

theorem isValid_requireType (ok : Bool) (f m : String) (r : ValidationResult) :
    (requireType ok f m r).isValid = (r.isValid && ok) := by
  cases ok <;> simp [requireType, isValid_addError]

theorem consistent_addError (r : ValidationResult) (f m c : String) :
    (addError r f m c).Consistent := by
  simp [addError, ValidationResult.Consistent]

theorem consistent_requireType (ok : Bool) (f m : String) (r : ValidationResult)
    (h : r.Consistent) : (requireType ok f m r).Consistent := by
  cases ok <;> simp [requireType, consistent_addError, h]

theorem isString_iff (obj : JsonValue) (name : String) :
    isString obj name = true ↔ obj.memberIs name JsonValue.IsStr := by
  unfold isString JsonValue.hasMember JsonValue.get JsonValue.memberIs JsonValue.IsStr
  cases h : obj.findMember name with
  | none => simp
  | some v => cases v <;> simp [JsonValue.isString]

theorem isNumber_iff (obj : JsonValue) (name : String) :
    isNumber obj name = true ↔ obj.memberIs name JsonValue.IsNum := by
  unfold isNumber JsonValue.hasMember JsonValue.get JsonValue.memberIs JsonValue.IsNum
  cases h : obj.findMember name with
  | none => simp
  | some v => cases v <;> simp [JsonValue.isNumber]

theorem isArray_iff (obj : JsonValue) (name : String) :
    isArray obj name = true ↔ obj.memberIs name JsonValue.IsArr := by
  unfold isArray JsonValue.hasMember JsonValue.get JsonValue.memberIs JsonValue.IsArr
  cases h : obj.findMember name with
  | none => simp
  | some v => cases v <;> simp [JsonValue.isArray]

theorem isBool_iff (obj : JsonValue) (name : String) :
    isBool obj name = true ↔ obj.memberIs name JsonValue.IsBoolean := by
  unfold isBool JsonValue.hasMember JsonValue.get JsonValue.memberIs JsonValue.IsBoolean
  cases h : obj.findMember name with
  | none => simp
  | some v => cases v <;> simp [JsonValue.isBool]

/-- The test `isObject(obj, name)` together with a test `q` of `obj[name]`. -/
theorem isObject_and_iff (obj : JsonValue) (name : String) (q : JsonValue → Bool)
    (p : JsonValue → Prop) (hqp : ∀ v, q v = true ↔ p v) :
    (isObject obj name = true ∧ q (obj.get name) = true) ↔
      obj.memberIs name (fun v => v.IsObj ∧ p v) := by
  unfold isObject JsonValue.hasMember JsonValue.get JsonValue.memberIs JsonValue.IsObj
  cases h : obj.findMember name with
  | none => simp
  | some v => cases v <;> simp [JsonValue.isObject, hqp]

theorem isValid_validateSchemaVersion (doc : JsonValue) (r : ValidationResult) :
    (validateSchemaVersion doc r).isValid =
      (r.isValid && (!isString doc "schema_version" ||
        decide ((doc.get "schema_version").getString = "1.0.0"))) := by
  unfold validateSchemaVersion
  cases h : isString doc "schema_version"
  · simp
  · by_cases hv : (doc.get "schema_version").getString = "1.0.0"
    · simp [hv, ValidationResult.isValid]
    · simp [hv, isValid_addError]

theorem isValid_validateRequiredFields (doc : JsonValue) (r : ValidationResult) :
    (validateRequiredFields doc r).isValid =
      (r.isValid && (doc.hasMember "schema_version" && doc.hasMember "run_id" &&
        doc.hasMember "timestamp_utc" && doc.hasMember "cli" && doc.hasMember "platform" &&
        doc.hasMember "engine" && doc.hasMember "determinism" && doc.hasMember "outputs")) := by
  have step : ∀ (r : ValidationResult) (field : String),
      (if (!doc.hasMember field) = true then
          addError r field "Required field missing" "missing_field" else r).isValid =
        (r.isValid && doc.hasMember field) := by
    intro r field
    cases doc.hasMember field <;> simp [isValid_addError]
  simp only [validateRequiredFields, List.foldl, step, Bool.and_assoc]

theorem isValid_validateFieldTypes (doc : JsonValue) (r : ValidationResult) :
    (validateFieldTypes doc r).isValid =
      (r.isValid && (isString doc "schema_version" && isString doc "run_id" &&
        isString doc "timestamp_utc" && isObject doc "cli" && isObject doc "platform" &&
        isObject doc "engine" && isObject doc "determinism" && isObject doc "outputs")) := by
  simp only [validateFieldTypes, isValid_requireType, Bool.and_assoc]

theorem isValid_validateCliSection (doc : JsonValue) (r : ValidationResult) :
    (validateCliSection doc r).isValid =
      (r.isValid && (!isObject doc "cli" ||
        (isString (doc.get "cli") "command" && isArray (doc.get "cli") "arguments" &&
          isNumber (doc.get "cli") "exit_code" && isBool (doc.get "cli") "json_mode"))) := by
  unfold validateCliSection
  cases h : isObject doc "cli"
  · simp
  · simp only [Bool.not_true, Bool.false_eq_true, if_false, isValid_requireType,
      Bool.and_assoc, Bool.false_or]

theorem isValid_validatePlatformSection (doc : JsonValue) (r : ValidationResult) :
    (validatePlatformSection doc r).isValid =
      (r.isValid && (!isObject doc "platform" ||
        (isString (doc.get "platform") "os" && isString (doc.get "platform") "cpu" &&
          isString (doc.get "platform") "gpu" &&
          isString (doc.get "platform") "driver_version" &&
          isString (doc.get "platform") "kernel"))) := by
  unfold validatePlatformSection
  cases h : isObject doc "platform"
  · simp
  · simp only [Bool.not_true, Bool.false_eq_true, if_false, List.foldl, isValid_requireType,
      Bool.and_assoc, Bool.false_or]

theorem isValid_validateEngineSection (doc : JsonValue) (r : ValidationResult) :
    (validateEngineSection doc r).isValid =
      (r.isValid && (!isObject doc "engine" ||
        (isString (doc.get "engine") "version" && isArray (doc.get "engine") "modules" &&
          isArray (doc.get "engine") "assets"))) := by
  unfold validateEngineSection
  cases h : isObject doc "engine"
  · simp
  · simp only [Bool.not_true, Bool.false_eq_true, if_false, isValid_requireType,
      Bool.and_assoc, Bool.false_or]

theorem isValid_validateDeterminismSection (doc : JsonValue) (r : ValidationResult) :
    (validateDeterminismSection doc r).isValid =
      (r.isValid && (!isObject doc "determinism" ||
        (isNumber (doc.get "determinism") "rng_seed" &&
          isArray (doc.get "determinism") "frame_batch"))) := by
  unfold validateDeterminismSection
  cases h : isObject doc "determinism"
  · simp
  · simp only [Bool.not_true, Bool.false_eq_true, if_false, isValid_requireType,
      Bool.and_assoc, Bool.false_or]

theorem isValid_validateOutputsSection (doc : JsonValue) (r : ValidationResult) :
    (validateOutputsSection doc r).isValid =
      (r.isValid && (!isObject doc "outputs" ||
        (isString (doc.get "outputs") "render_path" && isArray (doc.get "outputs") "frames" &&
          isArray (doc.get "outputs") "warnings"))) := by
  unfold validateOutputsSection
  cases h : isObject doc "outputs"
  · simp
  · simp only [Bool.not_true, Bool.false_eq_true, if_false, isValid_requireType,
      Bool.and_assoc, Bool.false_or]

theorem isValid_validateContent (parse : ByteString → Except String JsonValue)
    (jsonContent : ByteString) (withChecksum : Bool) :
    (validateContent parse jsonContent withChecksum).isValid =
      match parse (cStrBytes jsonContent) with
      | Except.error _ => false
      | Except.ok doc => manifestChecks doc := by
  unfold validateContent
  cases hp : parse (cStrBytes jsonContent) with
  | error e => simp [isValid_addError]
  | ok doc =>
    simp only
    cases hobj : doc.isObject
    · simp [isValid_addError, manifestChecks, hobj]
    · have hcs : ∀ (r : ValidationResult) (c : Option String),
          ({ r with checksum := c } : ValidationResult).isValid = r.isValid := by
        intro r c; rfl
      cases withChecksum <;>
        simp only [Bool.not_true, Bool.false_eq_true, if_false, if_true, hcs,
          isValid_validateOutputsSection, isValid_validateDeterminismSection,
          isValid_validateEngineSection, isValid_validatePlatformSection,
          isValid_validateCliSection, isValid_validateFieldTypes,
          isValid_validateRequiredFields, isValid_validateSchemaVersion, manifestChecks, hobj,
          Bool.true_and, Bool.and_assoc] <;> rfl


theorem isObject_iff_isObj (v : JsonValue) : v.isObject = true ↔ v.IsObj := by
  cases v <;> simp [JsonValue.isObject, JsonValue.IsObj]

theorem schemaVersion_iff (doc : JsonValue) :
    (isString doc "schema_version" = true ∧
        (doc.get "schema_version").getString = "1.0.0") ↔
      doc.memberIs "schema_version"
        (fun v => ∃ s, v = JsonValue.string s ∧ cStr s = "1.0.0") := by
  unfold isString JsonValue.hasMember JsonValue.get JsonValue.memberIs
  cases h : doc.findMember "schema_version" with
  | none => simp
  | some v => cases v <;> simp [JsonValue.isString, JsonValue.getString]

/-- The checks of `validateContent` pass exactly on the documents of the manifest shape
whose schema version reads `1.0.0` as a C string. -/
theorem manifestChecks_iff (doc : JsonValue) :
    manifestChecks doc = true ↔ ManifestShape (fun s => cStr s = "1.0.0") doc := by
  have hcli := isObject_and_iff doc "cli"
    (fun cli => isString cli "command" && isArray cli "arguments" &&
      isNumber cli "exit_code" && isBool cli "json_mode")
    (fun cli => cli.memberIs "command" JsonValue.IsStr ∧
      cli.memberIs "arguments" JsonValue.IsArr ∧ cli.memberIs "exit_code" JsonValue.IsNum ∧
      cli.memberIs "json_mode" JsonValue.IsBoolean)
    (by intro v; simp only [Bool.and_eq_true, isString_iff, isArray_iff, isNumber_iff,
          isBool_iff, and_assoc])
  have hplat := isObject_and_iff doc "platform"
    (fun p => isString p "os" && isString p "cpu" && isString p "gpu" &&
      isString p "driver_version" && isString p "kernel")
    (fun p => p.memberIs "os" JsonValue.IsStr ∧ p.memberIs "cpu" JsonValue.IsStr ∧
      p.memberIs "gpu" JsonValue.IsStr ∧ p.memberIs "driver_version" JsonValue.IsStr ∧
      p.memberIs "kernel" JsonValue.IsStr)
    (by intro v; simp only [Bool.and_eq_true, isString_iff, and_assoc])
  have heng := isObject_and_iff doc "engine"
    (fun e => isString e "version" && isArray e "modules" && isArray e "assets")
    (fun e => e.memberIs "version" JsonValue.IsStr ∧ e.memberIs "modules" JsonValue.IsArr ∧
      e.memberIs "assets" JsonValue.IsArr)
    (by intro v; simp only [Bool.and_eq_true, isString_iff, isArray_iff, and_assoc])
  have hdet := isObject_and_iff doc "determinism"
    (fun d => isNumber d "rng_seed" && isArray d "frame_batch")
    (fun d => d.memberIs "rng_seed" JsonValue.IsNum ∧ d.memberIs "frame_batch" JsonValue.IsArr)
    (by intro v; simp only [Bool.and_eq_true, isNumber_iff, isArray_iff])
  have hout := isObject_and_iff doc "outputs"
    (fun o => isString o "render_path" && isArray o "frames" && isArray o "warnings")
    (fun o => o.memberIs "render_path" JsonValue.IsStr ∧ o.memberIs "frames" JsonValue.IsArr ∧
      o.memberIs "warnings" JsonValue.IsArr)
    (by intro v; simp only [Bool.and_eq_true, isString_iff, isArray_iff, and_assoc])
  have hver := schemaVersion_iff doc
  have hrun := isString_iff doc "run_id"
  have hts := isString_iff doc "timestamp_utc"
  have hmem : ∀ name, isString doc name = true → doc.hasMember name = true := by
    intro name h; simp only [isString, Bool.and_eq_true] at h; exact h.1
  have hmemo : ∀ name, isObject doc name = true → doc.hasMember name = true := by
    intro name h; simp only [isObject, Bool.and_eq_true] at h; exact h.1
  unfold ManifestShape
  rw [← isObject_iff_isObj, ← hver, ← hrun, ← hts, ← hcli, ← hplat, ← heng, ← hdet, ← hout]
  simp only [manifestChecks, Bool.and_eq_true, Bool.or_eq_true, Bool.not_eq_true',
    decide_eq_true_eq]
  constructor
  · rintro ⟨hobj, ⟨⟨⟨⟨⟨⟨⟨hv, _⟩, ⟨⟨⟨⟨⟨⟨⟨t1, t2⟩, t3⟩, t4⟩, t5⟩, t6⟩, t7⟩, t8⟩⟩, c⟩, p⟩, e⟩, d⟩, o⟩⟩
    have hv' := hv.resolve_left (by simp [t1])
    have c' := c.resolve_left (by simp [t4])
    have p' := p.resolve_left (by simp [t5])
    have e' := e.resolve_left (by simp [t6])
    have d' := d.resolve_left (by simp [t7])
    have o' := o.resolve_left (by simp [t8])
    exact ⟨hobj, ⟨t1, hv'⟩, t2, t3, ⟨t4, c'⟩, ⟨t5, p'⟩, ⟨t6, e'⟩, ⟨t7, d'⟩, ⟨t8, o'⟩⟩
  · rintro ⟨hobj, ⟨t1, hv⟩, t2, t3, ⟨t4, c⟩, ⟨t5, p⟩, ⟨t6, e⟩, ⟨t7, d⟩, ⟨t8, o⟩⟩
    exact ⟨hobj, ⟨⟨⟨⟨⟨⟨⟨Or.inr hv, ⟨⟨⟨⟨⟨⟨⟨hmem _ t1, hmem _ t2⟩, hmem _ t3⟩, hmemo _ t4⟩,
      hmemo _ t5⟩, hmemo _ t6⟩, hmemo _ t7⟩, hmemo _ t8⟩⟩,
      ⟨⟨⟨⟨⟨⟨⟨t1, t2⟩, t3⟩, t4⟩, t5⟩, t6⟩, t7⟩, t8⟩⟩, Or.inr c⟩, Or.inr p⟩, Or.inr e⟩, Or.inr d⟩,
      Or.inr o⟩⟩

theorem cStrBytes_idem (s : ByteString) : cStrBytes (cStrBytes s) = cStrBytes s := by
  unfold cStrBytes
  induction s with
  | nil => rfl
  | cons b rest ih =>
    by_cases h : (b != 0) = true
    · simp only [List.takeWhile_cons, h, if_true]
      rw [ih]
    · simp [List.takeWhile_cons, h]

/-- The validity of the result of `validateContent`: the content parses, as a C string, to
a document of the manifest shape whose schema version reads `1.0.0` as a C string. -/
theorem validateContent_isValid_iff (parse : ByteString → Except String JsonValue)
    (jsonContent : ByteString) (withChecksum : Bool) :
    (validateContent parse jsonContent withChecksum).isValid = true ↔
      ∃ doc, parse (cStrBytes jsonContent) = Except.ok doc ∧
        ManifestShape (fun s => cStr s = "1.0.0") doc := by
  rw [isValid_validateContent]
  cases hp : parse (cStrBytes jsonContent) with
  | error e => simp
  | ok doc => simp [manifestChecks_iff]

theorem consistent_validateSchemaVersion (doc : JsonValue) (r : ValidationResult)
    (h : r.Consistent) : (validateSchemaVersion doc r).Consistent := by
  unfold validateSchemaVersion
  simp only
  split_ifs
  · exact consistent_addError _ _ _ _
  · exact h
  · exact h

theorem consistent_validateRequiredFields (doc : JsonValue) (r : ValidationResult)
    (h : r.Consistent) : (validateRequiredFields doc r).Consistent := by
  have step : ∀ (r : ValidationResult) (field : String), r.Consistent →
      (if (!doc.hasMember field) = true then
          addError r field "Required field missing" "missing_field" else r).Consistent := by
    intro r field hr
    split_ifs
    · exact consistent_addError _ _ _ _
    · exact hr
  simp only [validateRequiredFields, List.foldl]
  exact step _ _ (step _ _ (step _ _ (step _ _ (step _ _ (step _ _ (step _ _ (step _ _ h)))))))

theorem consistent_validateFieldTypes (doc : JsonValue) (r : ValidationResult)
    (h : r.Consistent) : (validateFieldTypes doc r).Consistent := by
  unfold validateFieldTypes
  exact consistent_requireType _ _ _ _ (consistent_requireType _ _ _ _
    (consistent_requireType _ _ _ _ (consistent_requireType _ _ _ _
    (consistent_requireType _ _ _ _ (consistent_requireType _ _ _ _
    (consistent_requireType _ _ _ _ (consistent_requireType _ _ _ _ h)))))))

theorem consistent_validateCliSection (doc : JsonValue) (r : ValidationResult)
    (h : r.Consistent) : (validateCliSection doc r).Consistent := by
  unfold validateCliSection
  split_ifs
  · exact h
  · exact consistent_requireType _ _ _ _ (consistent_requireType _ _ _ _
      (consistent_requireType _ _ _ _ (consistent_requireType _ _ _ _ h)))

theorem consistent_validatePlatformSection (doc : JsonValue) (r : ValidationResult)
    (h : r.Consistent) : (validatePlatformSection doc r).Consistent := by
  unfold validatePlatformSection
  split_ifs
  · exact h
  · simp only [List.foldl]
    exact consistent_requireType _ _ _ _ (consistent_requireType _ _ _ _
      (consistent_requireType _ _ _ _ (consistent_requireType _ _ _ _
      (consistent_requireType _ _ _ _ h))))

theorem consistent_validateEngineSection (doc : JsonValue) (r : ValidationResult)
    (h : r.Consistent) : (validateEngineSection doc r).Consistent := by
  unfold validateEngineSection
  split_ifs
  · exact h
  · exact consistent_requireType _ _ _ _ (consistent_requireType _ _ _ _
      (consistent_requireType _ _ _ _ h))

theorem consistent_validateDeterminismSection (doc : JsonValue) (r : ValidationResult)
    (h : r.Consistent) : (validateDeterminismSection doc r).Consistent := by
  unfold validateDeterminismSection
  split_ifs
  · exact h
  · exact consistent_requireType _ _ _ _ (consistent_requireType _ _ _ _ h)

theorem consistent_validateOutputsSection (doc : JsonValue) (r : ValidationResult)
    (h : r.Consistent) : (validateOutputsSection doc r).Consistent := by
  unfold validateOutputsSection
  split_ifs
  · exact h
  · exact consistent_requireType _ _ _ _ (consistent_requireType _ _ _ _
      (consistent_requireType _ _ _ _ h))

/-- In the result of `validateContent`, `valid` is true exactly when `errors` is empty. -/
theorem validateContent_consistent (parse : ByteString → Except String JsonValue)
    (jsonContent : ByteString) (withChecksum : Bool) :
    (validateContent parse jsonContent withChecksum).valid = true ↔
      (validateContent parse jsonContent withChecksum).errors = [] := by
  have h0 : ({ valid := true } : ValidationResult).Consistent := by
    simp [ValidationResult.Consistent]
  have hall : ∀ doc : JsonValue,
      (validateOutputsSection doc (validateDeterminismSection doc (validateEngineSection doc
        (validatePlatformSection doc (validateCliSection doc (validateFieldTypes doc
        (validateRequiredFields doc (validateSchemaVersion doc
          { valid := true })))))))).Consistent := fun doc =>
    consistent_validateOutputsSection _ _ (consistent_validateDeterminismSection _ _
      (consistent_validateEngineSection _ _ (consistent_validatePlatformSection _ _
      (consistent_validateCliSection _ _ (consistent_validateFieldTypes _ _
      (consistent_validateRequiredFields _ _ (consistent_validateSchemaVersion _ _ h0)))))))
  change (validateContent parse jsonContent withChecksum).Consistent
  unfold validateContent
  cases hp : parse (cStrBytes jsonContent) with
  | error e => exact consistent_addError _ _ _ _
  | ok doc =>
    simp only
    split_ifs
    · exact consistent_addError _ _ _ _
    · exact hall doc
    · exact hall doc

/-- C9 fails on the code at a manifest whose schema version is the ten-character string
`1.0.0`, NUL, `beta`: the document is not of the manifest shape with `schema_version`
the string `"1.0.0"`, and `validateContent` reports it valid, since the version is
compared as a C string. -/
theorem validateContent_accepts_nul_version (jsonContent : ByteString) :
    ¬ ManifestShape (fun s => s = "1.0.0") nulVersionDocument ∧
    (validateContent (fun _ => Except.ok nulVersionDocument) jsonContent true).isValid = true ∧
    (validateContent (fun _ => Except.ok nulVersionDocument) jsonContent true).schemaVersion
      = "1.0.0" := by
  refine ⟨?_, ?_, ?_⟩
  · intro h
    obtain ⟨v, hv, s, hs, h1⟩ := h.2.1
    have hv2 : v = JsonValue.string "1.0.0\x00beta" := by
      have : nulVersionDocument.findMember "schema_version" =
          some (JsonValue.string "1.0.0\x00beta") := rfl
      rw [this] at hv
      exact (Option.some.inj hv).symm
    rw [hv2] at hs
    injection hs with hs
    rw [← hs] at h1
    exact absurd h1 (by decide)
  · rw [isValid_validateContent]
    show manifestChecks nulVersionDocument = true
    decide
  · cases jsonContent <;> rfl

/-! ## The run manifest writer -/



theorem manifestChecks_manifestDocument (cliParser : CliParserFns) (now : String)
    (options : RunManifestOptions) (hversion : options.schemaVersion = "1.0.0") :
    manifestChecks (manifestDocument cliParser now options) = true := by
  have hc : cStr "1.0.0" = "1.0.0" := by decide
  simp [manifestChecks, manifestDocument, writeCliSection, writePlatformSection,
    writeEngineSection, writeDeterminismSection, writeOutputsSection, isString, isObject,
    isArray, isNumber, isBool, JsonValue.hasMember, JsonValue.get, JsonValue.findMember,
    JsonValue.findIn, JsonValue.isString, JsonValue.isObject, JsonValue.isArray,
    JsonValue.isNumber, JsonValue.isBool, JsonValue.getString, hversion, hc]


/-- A valid result of `validateContent` with the checksum requested carries the checksum
of the content. -/
theorem validateContent_checksum (parse : ByteString → Except String JsonValue)
    (jsonContent : ByteString)
    (h : (validateContent parse jsonContent true).isValid = true) :
    (validateContent parse jsonContent true).checksum = some (computeChecksum jsonContent) := by
  unfold validateContent at h ⊢
  cases hp : parse (cStrBytes jsonContent) with
  | error e =>
    rw [hp] at h
    simp [isValid_addError] at h
  | ok doc =>
    rw [hp] at h
    simp only at h ⊢
    cases hobj : doc.isObject
    · rw [hobj] at h
      simp [isValid_addError] at h
    · simp

/-- What a call of `write` that returns leaves: `run.json` holds the JSON text followed by
a newline, and the `.sha256` file holds the checksum of the JSON text without the
newline. -/
theorem write_written (env : WriterEnv) (fileName : String) (options : RunManifestOptions)
    (manifest : ByteString) (checksumFile : String)
    (h : RunManifestWriter.write env fileName options =
      WriteOutcome.written manifest (some checksumFile)) :
    manifest = manifestContent env options ++ [10] ∧
    checksumFile =
      computeChecksum (manifestContent env options) ++ " *" ++ fileName ++ "\n" := by
  unfold RunManifestWriter.write at h
  simp only at h
  by_cases hrun : options.runId = ""
  · simp [hrun] at h
  · cases hvalid : (validateContent env.json.parse (manifestContent env options) true).isValid
    · simp [hrun, hvalid] at h
    · have hcs := validateContent_checksum _ _ hvalid
      simp only [hrun, if_false, hvalid, Bool.not_true, Bool.false_eq_true, hcs] at h
      split_ifs at h
      all_goals first
        | (cases h; exact ⟨rfl, rfl⟩)
        | cases h

/-- C10: `RunManifestWriter::write` validates before writing. For options with a
non-empty `runId`, schema version `1.0.0` and finite frame durations, for which rapidjson
parses the text of the writer back to the document that the writer calls describe, the
generated JSON passes `validateContent` and `write` does not throw before it opens
`run.json`; and when `runId` is empty or the generated JSON fails validation, `write`
throws before it opens `run.json`, which is not written. -/
theorem write_validates_before_writing (env : WriterEnv) (fileName : String)
    (options : RunManifestOptions) :
    (options.runId ≠ "" → options.schemaVersion = "1.0.0" →
      (∀ frame ∈ options.frames, ∃ q, frame.durationMs = Double.finite q) →
      ((∀ frame ∈ options.frames, ∃ q, frame.durationMs = Double.finite q) →
        env.json.parse (manifestContent env options) =
          Except.ok (manifestDocument env.cliParser env.now options)) →
      (validateContent env.json.parse (manifestContent env options) true).isValid = true ∧
      ∀ what, RunManifestWriter.write env fileName options ≠
        WriteOutcome.threwBeforeOpen what) ∧
    ((options.runId = "" ∨
        (validateContent env.json.parse (manifestContent env options) true).isValid = false) →
      (∃ what, RunManifestWriter.write env fileName options =
        WriteOutcome.threwBeforeOpen what) ∧
      (RunManifestWriter.write env fileName options).threw = true ∧
      (RunManifestWriter.write env fileName options).manifestOpened = false) := by
  constructor
  · intro hrun hversion hfinite hparse
    have hvalid :
        (validateContent env.json.parse (manifestContent env options) true).isValid = true := by
      rw [isValid_validateContent]
      have hc : cStrBytes (manifestContent env options) = manifestContent env options :=
        cStrBytes_idem _
      rw [hc, hparse hfinite]
      exact manifestChecks_manifestDocument _ _ _ hversion
    refine ⟨hvalid, ?_⟩
    intro what
    unfold RunManifestWriter.write
    simp only [hrun, if_false, hvalid, Bool.not_true, Bool.false_eq_true]
    split_ifs <;> first | (intro h; cases h) | (split <;> intro h <;> cases h)
  · intro h
    have key : ∃ what, RunManifestWriter.write env fileName options =
        WriteOutcome.threwBeforeOpen what := by
      unfold RunManifestWriter.write
      by_cases hrun : options.runId = ""
      · simp only [hrun, if_true]
        exact ⟨_, rfl⟩
      · have hinv := h.resolve_left hrun
        simp only [hrun, if_false, hinv, Bool.not_false, if_true]
        exact ⟨_, rfl⟩
    obtain ⟨what, hw⟩ := key
    exact ⟨⟨what, hw⟩, by rw [hw]; rfl, by rw [hw]; rfl⟩


/-- C10 at `sampleOptions`, whose manifest passes validation, and at `unsupportedOptions`,
whose schema version `2.0.0` fails it. -/
theorem write_validates_before_writing_witness :
    (sampleOptions.runId ≠ "" ∧ sampleOptions.schemaVersion = "1.0.0" ∧
      (validateContent sampleEnv.json.parse (manifestContent sampleEnv sampleOptions)
        true).isValid = true ∧
      ∀ what, RunManifestWriter.write sampleEnv "run.json" sampleOptions ≠
        WriteOutcome.threwBeforeOpen what) ∧
    ((validateContent unsupportedEnv.json.parse
        (manifestContent unsupportedEnv unsupportedOptions) true).isValid = false ∧
      (∃ what, RunManifestWriter.write unsupportedEnv "run.json" unsupportedOptions =
        WriteOutcome.threwBeforeOpen what) ∧
      (RunManifestWriter.write unsupportedEnv "run.json" unsupportedOptions).threw = true ∧
      (RunManifestWriter.write unsupportedEnv "run.json" unsupportedOptions).manifestOpened
        = false) :=
  have hrun : sampleOptions.runId ≠ "" := by decide
  have hversion : sampleOptions.schemaVersion = "1.0.0" := rfl
  have hfinite : ∀ frame ∈ sampleOptions.frames, ∃ q, frame.durationMs = Double.finite q :=
    fun frame hmem => absurd hmem (List.not_mem_nil frame)
  have hinvalid : (validateContent unsupportedEnv.json.parse
      (manifestContent unsupportedEnv unsupportedOptions) true).isValid = false := by
    rw [isValid_validateContent]
    show manifestChecks (manifestDocument sampleCliParser "" unsupportedOptions) = false
    decide
  ⟨⟨hrun, hversion,
      (write_validates_before_writing sampleEnv "run.json" sampleOptions).1 hrun hversion
        hfinite (fun _ => rfl)⟩,
    ⟨hinvalid,
      (write_validates_before_writing unsupportedEnv "run.json" unsupportedOptions).2
        (Or.inr hinvalid)⟩⟩

/-- C6 fails on the code: at `sampleOptions`, `write` returns and records a checksum, and
`verifyChecksum` on the `run.json` it wrote and the recorded checksum returns false. The
recorded checksum is that of the JSON text; the file holds the text and a newline. -/
theorem write_checksum_round_trip_fails :
    checksumRoundTrip (RunManifestWriter.write sampleEnv "run.json" sampleOptions) =
      some false := by
  decide!

/-! ## The configuration resolver -/

mutual

theorem mergeValues_fst (ser : JsonValue → String) (layer : ConfigLayer) (label : String) :
    ∀ (source target : JsonValue) (keyPath : String) (prov : Provenance),
      (mergeValues ser layer label source target keyPath prov).1 = mergeDoc source target
  | JsonValue.object sms, target, keyPath, prov => by
    cases target with
    | object tms =>
      simp only [mergeValues, JsonValue.getType, JsonValue.isObject, mergeDoc]
      simp [mergeMembers_fst ser layer label sms tms keyPath prov]
    | _ => simp [mergeValues, JsonValue.getType, JsonValue.isObject, mergeDoc]
  | JsonValue.null, target, keyPath, prov => by simp [mergeValues, mergeDoc]
  | JsonValue.bool b, target, keyPath, prov => by simp [mergeValues, mergeDoc]
  | JsonValue.number n, target, keyPath, prov => by simp [mergeValues, mergeDoc]
  | JsonValue.string s, target, keyPath, prov => by simp [mergeValues, mergeDoc]
  | JsonValue.array xs, target, keyPath, prov => by simp [mergeValues, mergeDoc]

theorem mergeMembers_fst (ser : JsonValue → String) (layer : ConfigLayer) (label : String) :
    ∀ (sms tms : List (String × JsonValue)) (keyPath : String) (prov : Provenance),
      (mergeMembers ser layer label sms tms keyPath prov).1 = mergeDocMembers sms tms
  | [], tms, keyPath, prov => by simp [mergeMembers, mergeDocMembers]
  | (name, value) :: rest, tms, keyPath, prov => by
    simp only [mergeMembers, mergeDocMembers]
    cases h : JsonValue.findIn tms name with
    | none => simp only; exact mergeMembers_fst ser layer label rest _ _ _
    | some member =>
      simp only
      rw [mergeValues_fst ser layer label value member]
      exact mergeMembers_fst ser layer label rest _ _ _

end


theorem findIn_append (tms : List (String × JsonValue)) (k : String) (v : JsonValue)
    (name : String) :
    JsonValue.findIn (tms ++ [(k, v)]) name =
      match JsonValue.findIn tms name with
      | some x => some x
      | none => if k = name then some v else none := by
  induction tms with
  | nil => simp [JsonValue.findIn]
  | cons head rest ih =>
    obtain ⟨k2, v2⟩ := head
    by_cases h : k2 = name
    · simp [JsonValue.findIn, h]
    · simp [JsonValue.findIn, h, ih]

theorem findIn_setMember (tms : List (String × JsonValue)) (k : String) (v : JsonValue)
    (name : String) :
    JsonValue.findIn (setMember tms k v) name =
      if k = name then (JsonValue.findIn tms name).map (fun _ => v)
      else JsonValue.findIn tms name := by
  induction tms with
  | nil => simp [JsonValue.findIn, setMember]
  | cons head rest ih =>
    obtain ⟨k2, v2⟩ := head
    by_cases h2 : k2 = k
    · subst h2
      by_cases h : k2 = name
      · simp [JsonValue.findIn, setMember, h]
      · simp [JsonValue.findIn, setMember, h]
    · by_cases h : k = name
      · subst h
        simp [JsonValue.findIn, setMember, h2, ih]
      · by_cases h3 : k2 = name
        · subst h3
          simp [JsonValue.findIn, setMember, h2, h]
        · simp [JsonValue.findIn, setMember, h2, h, h3, ih]

theorem topDistinct_of_membersDistinct :
    ∀ ms : List (String × JsonValue), membersDistinct ms = true → topDistinct ms
  | [], _ => trivial
  | (name, value) :: rest, h => by
    simp only [membersDistinct, Bool.and_eq_true, Option.isNone_iff_eq_none] at h
    exact ⟨h.1.1, topDistinct_of_membersDistinct rest h.2⟩

theorem distinctNames_of_findIn :
    ∀ (ms : List (String × JsonValue)) (name : String) (v : JsonValue),
      membersDistinct ms = true → JsonValue.findIn ms name = some v → v.distinctNames = true
  | [], _, _, _, h => by simp [JsonValue.findIn] at h
  | (k, value) :: rest, name, v, hd, h => by
    simp only [membersDistinct, Bool.and_eq_true] at hd
    by_cases hk : k = name
    · simp only [JsonValue.findIn, hk, if_true, Option.some.injEq] at h
      rw [← h]; exact hd.1.2
    · simp only [JsonValue.findIn, hk, if_false] at h
      exact distinctNames_of_findIn rest name v hd.2 h

/-- The member that the merge loop leaves under a name. -/
theorem findIn_mergeDocMembers :
    ∀ (sms tms : List (String × JsonValue)) (name : String), topDistinct sms →
      JsonValue.findIn (mergeDocMembers sms tms) name =
        match JsonValue.findIn sms name with
        | none => JsonValue.findIn tms name
        | some sv =>
          match JsonValue.findIn tms name with
          | none => some sv
          | some tv => some (mergeDoc sv tv)
  | [], tms, name, _ => by simp [mergeDocMembers, JsonValue.findIn]
  | (k, sv) :: rest, tms, name, hd => by
    obtain ⟨hk, hrest⟩ := hd
    simp only [mergeDocMembers]
    cases ht : JsonValue.findIn tms k with
    | none =>
      simp only
      rw [findIn_mergeDocMembers rest _ name hrest, findIn_append]
      by_cases hkn : k = name
      · subst hkn
        simp [JsonValue.findIn, hk, ht]
      · simp only [JsonValue.findIn, hkn, if_false]
        cases JsonValue.findIn rest name <;> cases JsonValue.findIn tms name <;> simp
    | some tv =>
      simp only
      rw [findIn_mergeDocMembers rest _ name hrest, findIn_setMember]
      by_cases hkn : k = name
      · subst hkn
        simp [JsonValue.findIn, hk, ht]
      · simp only [JsonValue.findIn, hkn, if_false]


theorem lookup_none_of_leavesAlone :
    ∀ (path : List String) (doc : JsonValue), doc.leavesAlone path = true →
      doc.lookup path = none
  | [], doc, h => by cases doc <;> simp [JsonValue.leavesAlone] at h
  | name :: rest, doc, h => by
    cases doc with
    | object ms =>
      simp only [JsonValue.leavesAlone] at h
      simp only [JsonValue.lookup]
      cases hf : JsonValue.findIn ms name with
      | none => rfl
      | some v =>
        rw [hf] at h
        exact lookup_none_of_leavesAlone rest v h
    | _ => simp [JsonValue.leavesAlone] at h

/-- Merging a source that has a value at a path: the target then has a value at the
path, and it is the value of the source when that is no object. -/
theorem lookup_mergeDoc_of_defined :
    ∀ (path : List String) (source target v : JsonValue), source.distinctNames = true →
      source.lookup path = some v →
      ∃ w, (mergeDoc source target).lookup path = some w ∧ (v.isObject = false → w = v)
  | [], source, target, v, _, h => by
    simp only [JsonValue.lookup, Option.some.injEq] at h
    subst h
    refine ⟨mergeDoc source target, by simp only [JsonValue.lookup], ?_⟩
    intro hv
    cases source <;> first | rfl | simp [JsonValue.isObject] at hv
  | name :: rest, source, target, v, hd, h => by
    cases source with
    | object sms =>
      simp only [JsonValue.lookup] at h
      cases hs : JsonValue.findIn sms name with
      | none => rw [hs] at h; exact absurd h (by simp)
      | some sv =>
        rw [hs] at h
        simp only at h
        simp only [JsonValue.distinctNames] at hd
        cases target with
        | object tms =>
          simp only [mergeDoc, JsonValue.lookup]
          rw [findIn_mergeDocMembers sms tms name (topDistinct_of_membersDistinct sms hd), hs]
          cases ht : JsonValue.findIn tms name with
          | none => exact ⟨v, h, fun _ => rfl⟩
          | some tv =>
            exact lookup_mergeDoc_of_defined rest sv tv v
              (distinctNames_of_findIn sms name sv hd hs) h
        | _ =>
          refine ⟨v, ?_, fun _ => rfl⟩
          simp only [mergeDoc, JsonValue.lookup, hs]
          exact h
    | _ => simp [JsonValue.lookup] at h

/-- Merging a source that leaves a path alone does not change the value of an object
target at the path. -/
theorem lookup_mergeDoc_of_leavesAlone :
    ∀ (path : List String) (source target : JsonValue), source.distinctNames = true →
      source.leavesAlone path = true → target.isObject = true →
      (mergeDoc source target).lookup path = target.lookup path
  | [], source, _, _, h, _ => by cases source <;> simp [JsonValue.leavesAlone] at h
  | name :: rest, source, target, hd, h, ht => by
    cases source with
    | object sms =>
      cases target with
      | object tms =>
        simp only [JsonValue.leavesAlone] at h
        simp only [JsonValue.distinctNames] at hd
        simp only [mergeDoc, JsonValue.lookup]
        rw [findIn_mergeDocMembers sms tms name (topDistinct_of_membersDistinct sms hd)]
        cases hs : JsonValue.findIn sms name with
        | none => rfl
        | some sv =>
          rw [hs] at h
          simp only at h
          cases hf : JsonValue.findIn tms name with
          | none => simp only; exact lookup_none_of_leavesAlone rest sv h
          | some tv =>
            simp only
            cases tv with
            | object tvm =>
              exact lookup_mergeDoc_of_leavesAlone rest sv (JsonValue.object tvm)
                (distinctNames_of_findIn sms name sv hd hs) h rfl
            | _ =>
              cases rest with
              | nil => cases sv <;> simp [JsonValue.leavesAlone] at h
              | cons r rs =>
                cases sv with
                | object svm =>
                  simp only [mergeDoc, JsonValue.lookup]
                  have := lookup_none_of_leavesAlone (r :: rs) (JsonValue.object svm) h
                  simpa [JsonValue.lookup] using this
                | _ => simp [JsonValue.leavesAlone] at h
      | _ => simp [JsonValue.isObject] at ht
    | _ => simp [JsonValue.leavesAlone] at h


theorem mergeDocumentMembers_fst (ser : JsonValue → String) (layer : ConfigLayer)
    (label : String) :
    ∀ (sms tms : List (String × JsonValue)) (prov : Provenance),
      (mergeDocumentMembers ser layer label sms tms prov).1 = mergeDocMembers sms tms
  | [], tms, prov => by simp [mergeDocumentMembers, mergeDocMembers]
  | (name, value) :: rest, tms, prov => by
    simp only [mergeDocumentMembers, mergeDocMembers]
    cases h : JsonValue.findIn tms name with
    | none => simp only; exact mergeDocumentMembers_fst ser layer label rest _ _
    | some member =>
      simp only
      rw [mergeValues_fst ser layer label value member]
      exact mergeDocumentMembers_fst ser layer label rest _ _

/-- The document that `mergeDocuments` leaves, for a target document that is an object. -/
theorem mergeDocuments_document (ser : JsonValue → String) (snapshot : ConfigSnapshot)
    (source : JsonValue) (layer : ConfigLayer) (label : String)
    (hs : source.isObject = true) (ht : snapshot.document.isObject = true) :
    (mergeDocuments ser snapshot source layer label).document =
      mergeDoc source snapshot.document := by
  obtain ⟨doc, prov⟩ := snapshot
  cases source with
  | object sms =>
    cases doc with
    | object tms =>
      simp only [mergeDocuments, mergeDoc, mergeDocumentMembers_fst]
    | _ => simp [JsonValue.isObject] at ht
  | _ => simp [JsonValue.isObject] at hs

theorem mergeDocuments_isObject (ser : JsonValue → String) (snapshot : ConfigSnapshot)
    (source : JsonValue) (layer : ConfigLayer) (label : String)
    (ht : snapshot.document.isObject = true) :
    (mergeDocuments ser snapshot source layer label).document.isObject = true := by
  obtain ⟨doc, prov⟩ := snapshot
  cases source <;> cases doc <;> simp_all [mergeDocuments, JsonValue.isObject]

theorem resolveLoop_append (ser : JsonValue → String) :
    ∀ (lower higher : List (ConfigLayer × String × JsonValue)) (snapshot : ConfigSnapshot),
      resolveLoop ser snapshot (lower ++ higher) =
        resolveLoop ser (resolveLoop ser snapshot lower) higher
  | [], higher, snapshot => rfl
  | (layer, label, doc) :: rest, higher, snapshot => by
    simp only [List.cons_append, resolveLoop]
    split_ifs
    · exact resolveLoop_append ser rest higher snapshot
    · exact resolveLoop_append ser rest higher _

theorem resolveLoop_isObject (ser : JsonValue → String) :
    ∀ (layers : List (ConfigLayer × String × JsonValue)) (snapshot : ConfigSnapshot),
      snapshot.document.isObject = true →
      (resolveLoop ser snapshot layers).document.isObject = true
  | [], snapshot, h => h
  | (layer, label, doc) :: rest, snapshot, h => by
    simp only [resolveLoop]
    split_ifs
    · exact resolveLoop_isObject ser rest snapshot h
    · exact resolveLoop_isObject ser rest _ (mergeDocuments_isObject ser snapshot doc layer label h)

/-- Layers that leave a path alone do not change the value of the document at it. -/
theorem resolveLoop_of_leavesAlone (ser : JsonValue → String) (path : List String) :
    ∀ (higher : List (ConfigLayer × String × JsonValue)) (snapshot : ConfigSnapshot),
      snapshot.document.isObject = true →
      (∀ h ∈ higher, h.2.2.distinctNames = true ∧ h.2.2.layerLeavesAlone path = true) →
      (resolveLoop ser snapshot higher).document.lookup path = snapshot.document.lookup path
  | [], snapshot, _, _ => rfl
  | (layer, label, doc) :: rest, snapshot, hobj, hh => by
    have hrest : ∀ h ∈ rest, h.2.2.distinctNames = true ∧ h.2.2.layerLeavesAlone path = true :=
      fun h hm => hh h (List.mem_cons_of_mem _ hm)
    obtain ⟨hd, hl⟩ := hh (layer, label, doc) (List.mem_cons_self _ _)
    simp only at hd hl
    simp only [resolveLoop]
    split_ifs with hskip
    · exact resolveLoop_of_leavesAlone ser path rest snapshot hobj hrest
    · simp only [Bool.or_eq_true, Bool.not_eq_true', not_or, Bool.not_eq_false,
        Bool.not_eq_true] at hskip
      have hdo : doc.isObject = true := hskip.1
      rw [resolveLoop_of_leavesAlone ser path rest _
        (mergeDocuments_isObject ser snapshot doc layer label hobj) hrest,
        mergeDocuments_document ser snapshot doc layer label hdo hobj]
      have hla : doc.leavesAlone path = true := by
        simp only [JsonValue.layerLeavesAlone, hdo, Bool.not_true, Bool.false_or] at hl
        exact hl
      exact lookup_mergeDoc_of_leavesAlone path doc snapshot.document hd hla hobj

/-- The loop of `resolve` over layers split at one layer that has a value at a path, when
the layers after it leave the path alone. -/
theorem resolveLoop_precedence (ser : JsonValue → String)
    (lower higher : List (ConfigLayer × String × JsonValue)) (layer : ConfigLayer)
    (label : String) (layerDoc : JsonValue) (snapshot : ConfigSnapshot)
    (path : List String) (v : JsonValue)
    (hobj : snapshot.document.isObject = true)
    (hdistinct : layerDoc.distinctNames = true)
    (hdef : layerDoc.lookup path = some v) (hpath : path ≠ [])
    (hhigher : ∀ h ∈ higher, h.2.2.distinctNames = true ∧ h.2.2.layerLeavesAlone path = true) :
    ∃ w, (resolveLoop ser snapshot (lower ++ (layer, label, layerDoc) :: higher)).document.lookup
        path = some w ∧ (v.isObject = false → w = v) := by
  rw [resolveLoop_append]
  have hobj2 := resolveLoop_isObject ser lower snapshot hobj
  generalize resolveLoop ser snapshot lower = s at hobj2 ⊢
  obtain ⟨name, rest, rfl⟩ := List.exists_cons_of_ne_nil hpath
  cases layerDoc with
  | object ms =>
    have hne : (JsonValue.object ms).objectEmpty = false := by
      cases ms with
      | nil => simp [JsonValue.lookup, JsonValue.findIn] at hdef
      | cons m ms => rfl
    simp only [resolveLoop, JsonValue.isObject, hne, Bool.not_true, Bool.or_false,
      Bool.false_eq_true, if_false]
    rw [resolveLoop_of_leavesAlone ser (name :: rest) higher _
      (mergeDocuments_isObject ser s _ layer label hobj2) hhigher,
      mergeDocuments_document ser s (JsonValue.object ms) layer label rfl hobj2]
    exact lookup_mergeDoc_of_defined (name :: rest) _ s.document v hdistinct hdef
  | _ => simp [JsonValue.lookup] at hdef


/-- C7 as stated fails: the built-in defaults and the workspace configuration both define
`render.samples` with a number, and the resolved document has no value at
`render.samples` when the CLI overrides, of higher precedence, set `render` to a string. -/
theorem resolve_precedence_counterexample :
    buildBuiltInDefaults.lookup ["render", "samples"] =
      some (JsonValue.number (JsonNumber.int 64)) ∧
    loadedWithScalarOverride.workspaceConfig.lookup ["render", "samples"] =
      some (JsonValue.number (JsonNumber.int 128)) ∧
    ∀ ser : JsonValue → String,
      (resolve ser true loadedWithScalarOverride).document.lookup ["render", "samples"] = none ∧
      (resolve ser true loadedWithScalarOverride).document.lookup ["render"] =
        some (JsonValue.string "off") :=
  ⟨rfl, rfl, fun _ => ⟨rfl, rfl⟩⟩

/-- C7, amended: layer precedence of `ConfigResolver::resolve`. The layers are merged in
the order of `resolveLayers`; when a layer, with distinct member names, has a value at a
non-empty path and every layer of higher precedence has distinct member names and leaves
the path alone, then, whatever the layers of lower precedence hold, the resolved
document has a value at the path, and it is the value of that layer when that value is
no object. -/
theorem resolve_layer_precedence (ser : JsonValue → String) (includeEnvironment : Bool)
    (loaded : LoadedLayers) (lower higher : List (ConfigLayer × String × JsonValue))
    (layer : ConfigLayer) (label : String) (layerDoc : JsonValue)
    (path : List String) (v : JsonValue)
    (hlayers : resolveLayers includeEnvironment loaded =
      lower ++ (layer, label, layerDoc) :: higher)
    (hdistinct : layerDoc.distinctNames = true)
    (hdef : layerDoc.lookup path = some v) (hpath : path ≠ [])
    (hhigher : ∀ h ∈ higher, h.2.2.distinctNames = true ∧ h.2.2.layerLeavesAlone path = true) :
    ∃ w, (resolve ser includeEnvironment loaded).document.lookup path = some w ∧
      (v.isObject = false → w = v) := by
  unfold resolve
  rw [hlayers]
  exact resolveLoop_precedence ser lower higher layer label layerDoc _ path v rfl hdistinct
    hdef hpath hhigher

/-- C7, amended, at the workspace configuration that sets `render.samples` to 128 over
the built-in default 64, with empty layers above it. -/
theorem resolve_layer_precedence_witness :
    (workspaceSamples.distinctNames = true ∧
      workspaceSamples.lookup ["render", "samples"] =
        some (JsonValue.number (JsonNumber.int 128))) ∧
    ∃ w, (resolve (fun _ => "") true loadedWorkspaceOnly).document.lookup
        ["render", "samples"] = some w ∧
      ((JsonValue.number (JsonNumber.int 128)).isObject = false →
        w = JsonValue.number (JsonNumber.int 128)) :=
  ⟨⟨rfl, rfl⟩,
    resolve_layer_precedence (fun _ => "") true loadedWorkspaceOnly
      [(ConfigLayer.BuiltInDefaults, "built-in defaults", buildBuiltInDefaults),
       (ConfigLayer.GlobalConfig, "global config", JsonValue.object []),
       (ConfigLayer.Environment, "environment variables", JsonValue.object [])]
      [(ConfigLayer.ManifestDefaults, "manifest defaults", JsonValue.object []),
       (ConfigLayer.ManifestOverrides, "manifest overrides", JsonValue.object []),
       (ConfigLayer.CommandContext, "command context", JsonValue.object []),
       (ConfigLayer.CliFlags, "cli overrides", JsonValue.object [])]
      ConfigLayer.WorkspaceConfig "workspace config" workspaceSamples
      ["render", "samples"] (JsonValue.number (JsonNumber.int 128))
      rfl rfl rfl (by simp)
      (by
        intro h hmem
        simp only [List.mem_cons, List.mem_singleton, List.not_mem_nil, or_false] at hmem
        rcases hmem with rfl | rfl | rfl | rfl <;> exact ⟨rfl, rfl⟩)⟩

/-! ## Triangles behind the ray, the reported normal, and the box distance -/

/-- C12, amended: in exact arithmetic (the operations of `Triangle::intersect` on real
numbers, `1e-6f` as `10^-6`), a triangle entirely behind the ray is never hit. When the
three vertices satisfy `(vi - o) . d ≤ 0`, `Triangle::intersect` returns false. The
assumption `d ≠ 0` of the claim is not needed: for `d = 0` the determinant is zero and the
call returns false. -/
theorem triangle_behind_ray_missed {K : Type} [LinearOrderedField K]
    (sqrt : K → K) (tri : Triangle K) (r : Ray K) (tOut : K) (nOut : Vec3 K)
    (h0 : Vec3.dot (Vec3.sub tri.v0 r.origin) r.direction ≤ 0)
    (h1 : Vec3.dot (Vec3.sub tri.v1 r.origin) r.direction ≤ 0)
    (h2 : Vec3.dot (Vec3.sub tri.v2 r.origin) r.direction ≤ 0) :
    (tri.intersect sqrt r tOut nOut).1 = false := by
  rw [Bool.eq_false_iff]
  intro hit
  rw [Triangle.intersect_fst] at hit
  obtain ⟨hdet, hu0, _, hv0, huv, ht⟩ := hit
  have hne := Triangle.det_ne_zero_of_EPS_le tri r hdet
  have hmeet := moller_trumbore_solves tri r hne
  have htpos : 0 < tri.paramT r := lt_trans EPS_pos ht
  generalize tri.paramT r = t at hmeet htpos
  generalize tri.baryU r = u at hmeet hu0 huv
  generalize tri.baryV r = v at hmeet hv0 huv
  obtain ⟨⟨ax, ay, az⟩, ⟨bx, b_y, bz⟩, ⟨cx, cy, cz⟩, n⟩ := tri
  obtain ⟨⟨ox, oy, oz⟩, ⟨dx, dy, dz⟩⟩ := r
  simp only [Ray.pointAt, Triangle.pointAt, Vec3.sub, Vec3.add, Vec3.smul, Vec3.eq_iff] at hmeet
  obtain ⟨ex, ey, ez⟩ := hmeet
  simp only [Vec3.dot, Vec3.sub] at h0 h1 h2
  simp only [Triangle.det, Vec3.dot, Vec3.cross, Vec3.sub] at hne
  have key : t * (dx * dx + dy * dy + dz * dz) =
      (1 - u - v) * ((ax - ox) * dx + (ay - oy) * dy + (az - oz) * dz) +
      u * ((bx - ox) * dx + (b_y - oy) * dy + (bz - oz) * dz) +
      v * ((cx - ox) * dx + (cy - oy) * dy + (cz - oz) * dz) := by
    linear_combination dx * ex + dy * ey + dz * ez
  have hle : t * (dx * dx + dy * dy + dz * dz) ≤ 0 := by
    rw [key]
    have a1 := mul_nonpos_of_nonneg_of_nonpos (by linarith : 0 ≤ 1 - u - v) h0
    have a2 := mul_nonpos_of_nonneg_of_nonpos hu0 h1
    have a3 := mul_nonpos_of_nonneg_of_nonpos hv0 h2
    linarith
  have hD : dx * dx + dy * dy + dz * dz ≤ 0 := by
    by_contra hc
    push_neg at hc
    have := mul_pos htpos hc
    linarith
  have sx := mul_self_nonneg dx
  have sy := mul_self_nonneg dy
  have sz := mul_self_nonneg dz
  have hx : dx = 0 := mul_self_eq_zero.mp (le_antisymm (by linarith) sx)
  have hy : dy = 0 := mul_self_eq_zero.mp (le_antisymm (by linarith) sy)
  have hz : dz = 0 := mul_self_eq_zero.mp (le_antisymm (by linarith) sz)
  apply hne
  rw [hx, hy, hz]
  ring

/-- C12, amended, at the unit triangle and the ray from `(1/4, 1/4, 1)` straight up. -/
theorem triangle_behind_ray_missed_witness :
    (Vec3.dot (Vec3.sub unitTriangle.v0 upRay.origin) upRay.direction ≤ 0 ∧
      Vec3.dot (Vec3.sub unitTriangle.v1 upRay.origin) upRay.direction ≤ 0 ∧
      Vec3.dot (Vec3.sub unitTriangle.v2 upRay.origin) upRay.direction ≤ 0) ∧
    (unitTriangle.intersect Rat.sqrt upRay 0 ⟨0, 0, 0⟩).1 = false :=
  have h0 : Vec3.dot (Vec3.sub unitTriangle.v0 upRay.origin) upRay.direction ≤ 0 := by
    norm_num [Vec3.dot, Vec3.sub, unitTriangle, upRay]
  have h1 : Vec3.dot (Vec3.sub unitTriangle.v1 upRay.origin) upRay.direction ≤ 0 := by
    norm_num [Vec3.dot, Vec3.sub, unitTriangle, upRay]
  have h2 : Vec3.dot (Vec3.sub unitTriangle.v2 upRay.origin) upRay.direction ≤ 0 := by
    norm_num [Vec3.dot, Vec3.sub, unitTriangle, upRay]
  ⟨⟨h0, h1, h2⟩, triangle_behind_ray_missed Rat.sqrt unitTriangle upRay 0 ⟨0, 0, 0⟩ h0 h1 h2⟩

/-- The value written to `t` by a call of `rayIntersectsAABB` that returns true: it is not
negative, it is the entry parameter unless that is negative and the exit parameter then,
and it lies between the two. -/
theorem rayIntersectsAABB_snd {K : Type} [LinearOrderedField K]
    (ray : Ray K) (aabbMin aabbMax : Vec3 K) (t : K)
    (hit : (rayIntersectsAABB ray aabbMin aabbMax t).1 = true) :
    0 ≤ (rayIntersectsAABB ray aabbMin aabbMax t).2 ∧
    (0 ≤ slabEntry ray aabbMin aabbMax →
      (rayIntersectsAABB ray aabbMin aabbMax t).2 = slabEntry ray aabbMin aabbMax) ∧
    (slabEntry ray aabbMin aabbMax < 0 →
      (rayIntersectsAABB ray aabbMin aabbMax t).2 = slabExit ray aabbMin aabbMax) ∧
    slabEntry ray aabbMin aabbMax ≤ (rayIntersectsAABB ray aabbMin aabbMax t).2 ∧
    (rayIntersectsAABB ray aabbMin aabbMax t).2 ≤ slabExit ray aabbMin aabbMax := by
  revert hit
  unfold rayIntersectsAABB slabEntry slabExit
  generalize (aabbMin.x - ray.origin.x) / ray.direction.x = a1
  generalize (aabbMax.x - ray.origin.x) / ray.direction.x = b1
  generalize (aabbMin.y - ray.origin.y) / ray.direction.y = a2
  generalize (aabbMax.y - ray.origin.y) / ray.direction.y = b2
  generalize (aabbMin.z - ray.origin.z) / ray.direction.z = a3
  generalize (aabbMax.z - ray.origin.z) / ray.direction.z = b3
  simp only [gt_iff_lt, ite_lt_min, ite_lt_max, ite_lt_max_right]
  have h1 := min_le_max (a := a1) (b := b1)
  have h2 := min_le_max (a := a2) (b := b2)
  have h3 := min_le_max (a := a3) (b := b3)
  generalize min a1 b1 = l1 at *
  generalize max a1 b1 = u1 at *
  generalize min a2 b2 = l2 at *
  generalize max a2 b2 = u2 at *
  generalize min a3 b3 = l3 at *
  generalize max a3 b3 = u3 at *
  have hE : l3 ⊔ (l1 ⊔ l2) = l1 ⊔ l2 ⊔ l3 := max_comm _ _
  have hE2 : l2 ⊔ l1 = l1 ⊔ l2 := max_comm l2 l1
  simp only [hE2, hE]
  split_ifs with c1 c2 c3 c4
  · intro h; exact absurd h (by simp)
  · intro h; exact absurd h (by simp)
  · intro h; exact absurd h (by simp)
  · intro _
    simp only [not_or, not_lt, max_le_iff, le_min_iff] at c1 c2
    obtain ⟨c11, c12⟩ := c1
    obtain ⟨⟨c21, c22⟩, c23, c24⟩ := c2
    refine ⟨not_lt.mp c4, fun h => absurd c3 (not_lt.mpr h), fun _ => rfl, ?_, le_refl _⟩
    exact max_le (max_le (le_min (le_min h1 c11) c21) (le_min (le_min c12 h2) c22))
      (le_min (le_min c23 c24) h3)
  · intro _
    simp only [not_or, not_lt, max_le_iff, le_min_iff] at c1 c2
    obtain ⟨c11, c12⟩ := c1
    obtain ⟨⟨c21, c22⟩, c23, c24⟩ := c2
    refine ⟨not_lt.mp c3, fun _ => rfl, fun h => absurd h c3, le_refl _, ?_⟩
    exact max_le (max_le (le_min (le_min h1 c11) c21) (le_min (le_min c12 h2) c22))
      (le_min (le_min c23 c24) h3)

/-- The flag of `rayIntersectsAABB` is false when the exit parameter is negative. -/
theorem rayIntersectsAABB_behind {K : Type} [LinearOrderedField K]
    (ray : Ray K) (aabbMin aabbMax : Vec3 K) (t : K)
    (h : slabExit ray aabbMin aabbMax < 0) :
    (rayIntersectsAABB ray aabbMin aabbMax t).1 = false := by
  rw [Bool.eq_false_iff]
  intro hit
  have := rayIntersectsAABB_snd ray aabbMin aabbMax t hit
  linarith [this.1, this.2.2.2.2]

/-- C14: the distance that `rayIntersectsAABB` reports. For a box with `aabbMin ≤ aabbMax`
and a direction without zero component: when the flag is true, the output `t` is not
negative, it is the entry parameter `tmin` when `tmin ≥ 0` and the exit parameter `tmax`
when `tmin < 0`, and `origin + t * direction` lies in the closed box; and the flag is
false whenever the exit parameter is negative. -/
theorem rayIntersectsAABB_distance {K : Type} [LinearOrderedField K]
    (ray : Ray K) (aabbMin aabbMax : Vec3 K) (t : K)
    (hx : aabbMin.x ≤ aabbMax.x) (hy : aabbMin.y ≤ aabbMax.y) (hz : aabbMin.z ≤ aabbMax.z)
    (dx : ray.direction.x ≠ 0) (dy : ray.direction.y ≠ 0) (dz : ray.direction.z ≠ 0) :
    ((rayIntersectsAABB ray aabbMin aabbMax t).1 = true →
      0 ≤ (rayIntersectsAABB ray aabbMin aabbMax t).2 ∧
      (0 ≤ slabEntry ray aabbMin aabbMax →
        (rayIntersectsAABB ray aabbMin aabbMax t).2 = slabEntry ray aabbMin aabbMax) ∧
      (slabEntry ray aabbMin aabbMax < 0 →
        (rayIntersectsAABB ray aabbMin aabbMax t).2 = slabExit ray aabbMin aabbMax) ∧
      inBox (ray.pointAt (rayIntersectsAABB ray aabbMin aabbMax t).2) aabbMin aabbMax) ∧
    (slabExit ray aabbMin aabbMax < 0 →
      (rayIntersectsAABB ray aabbMin aabbMax t).1 = false) := by
  refine ⟨fun hit => ?_, rayIntersectsAABB_behind ray aabbMin aabbMax t⟩
  obtain ⟨h0, he, hx', hlo, hhi⟩ := rayIntersectsAABB_snd ray aabbMin aabbMax t hit
  refine ⟨h0, he, hx', ?_⟩
  generalize (rayIntersectsAABB ray aabbMin aabbMax t).2 = s at hlo hhi
  simp only [slabEntry, max_le_iff] at hlo
  simp only [slabExit, le_min_iff] at hhi
  obtain ⟨⟨l1, l2⟩, l3⟩ := hlo
  obtain ⟨⟨u1, u2⟩, u3⟩ := hhi
  simp only [inBox, Ray.pointAt, Vec3.add, Vec3.smul]
  have e1 := (slab_iff aabbMin.x aabbMax.x ray.origin.x ray.direction.x s dx hx).mpr ⟨l1, u1⟩
  have e2 := (slab_iff aabbMin.y aabbMax.y ray.origin.y ray.direction.y s dy hy).mpr ⟨l2, u2⟩
  have e3 := (slab_iff aabbMin.z aabbMax.z ray.origin.z ray.direction.z s dz hz).mpr ⟨l3, u3⟩
  exact ⟨e1.1, e1.2, e2.1, e2.2, e3.1, e3.2⟩

/-- C14 at the unit cube and a ray that enters it through the face `x = 0` at `t = 1`. -/
theorem rayIntersectsAABB_distance_witness :
    (((0 : ℚ) ≤ 1 ∧ slantRay.direction.x ≠ 0 ∧ slantRay.direction.y ≠ 0 ∧
      slantRay.direction.z ≠ 0) ∧
      rayIntersectsAABB slantRay ⟨0, 0, 0⟩ ⟨1, 1, 1⟩ 0 = (true, 1)) ∧
    (0 ≤ (rayIntersectsAABB slantRay ⟨0, 0, 0⟩ ⟨1, 1, 1⟩ 0).2 ∧
      (0 ≤ slabEntry slantRay ⟨0, 0, 0⟩ ⟨1, 1, 1⟩ →
        (rayIntersectsAABB slantRay ⟨0, 0, 0⟩ ⟨1, 1, 1⟩ 0).2 =
          slabEntry slantRay ⟨0, 0, 0⟩ ⟨1, 1, 1⟩) ∧
      (slabEntry slantRay ⟨0, 0, 0⟩ ⟨1, 1, 1⟩ < 0 →
        (rayIntersectsAABB slantRay ⟨0, 0, 0⟩ ⟨1, 1, 1⟩ 0).2 =
          slabExit slantRay ⟨0, 0, 0⟩ ⟨1, 1, 1⟩) ∧
      inBox (slantRay.pointAt (rayIntersectsAABB slantRay ⟨0, 0, 0⟩ ⟨1, 1, 1⟩ 0).2)
        ⟨0, 0, 0⟩ ⟨1, 1, 1⟩) :=
  have hx : slantRay.direction.x ≠ 0 := by norm_num [slantRay]
  have hy : slantRay.direction.y ≠ 0 := by norm_num [slantRay]
  have hz : slantRay.direction.z ≠ 0 := by norm_num [slantRay]
  have hit : rayIntersectsAABB slantRay ⟨0, 0, 0⟩ ⟨1, 1, 1⟩ 0 = (true, 1) := by
    norm_num [rayIntersectsAABB, slantRay]
  ⟨⟨⟨by norm_num, hx, hy, hz⟩, hit⟩,
    (rayIntersectsAABB_distance slantRay ⟨0, 0, 0⟩ ⟨1, 1, 1⟩ 0 (by norm_num) (by norm_num)
      (by norm_num) hx hy hz).1 (by rw [hit])⟩

/-! ## The stratified sample, the mirror direction and the ray constructor -/

/-- C15 as stated fails: for `totalSamples = 2000000`, `sample = 1999999` and `jitter = 0`
the result is the clamp value `0.999999`, below the lower end `0.9999995` of the
stratum. -/
theorem stratified_stratum_counterexample :
    ((1 : Int) ≤ 2000000 ∧ (0 : Int) ≤ 1999999 ∧ (1999999 : Int) < 2000000 ∧
      (0 : ℚ) ≤ 0 ∧ (0 : ℚ) < 1) ∧
    ¬ (((1999999 : Int) : ℚ) / ((2000000 : Int) : ℚ) ≤
        (SeededRNG.stratified (⟨(), ()⟩ : SeededRNG Unit Unit) 1999999 2000000 (0 : ℚ)).1) := by
  refine ⟨by norm_num, ?_⟩
  norm_num [SeededRNG.stratified]

/-- C15, amended: for `totalSamples ≥ 1`, `0 ≤ sample < totalSamples` and `0 ≤ jitter < 1`
the result `r` of `SeededRNG::stratified` satisfies
`min(sample/totalSamples, 0.999999) ≤ r < (sample+1)/totalSamples` and `r < 1`; and
`sample/totalSamples ≤ r` when `totalSamples ≤ 1000000`. -/
theorem stratified_in_stratum {σ δ K : Type} [LinearOrderedField K]
    (rng : SeededRNG σ δ) (sample totalSamples : Int) (jitter : K)
    (htotal : 1 ≤ totalSamples) (_hs0 : 0 ≤ sample) (hs1 : sample < totalSamples)
    (hj0 : 0 ≤ jitter) (hj1 : jitter < 1) :
    min ((sample : K) / (totalSamples : K)) (999999 / 1000000) ≤
        (rng.stratified sample totalSamples jitter).1 ∧
    (rng.stratified sample totalSamples jitter).1 < ((sample : K) + 1) / (totalSamples : K) ∧
    (rng.stratified sample totalSamples jitter).1 < 1 ∧
    (totalSamples ≤ 1000000 →
      (sample : K) / (totalSamples : K) ≤ (rng.stratified sample totalSamples jitter).1) := by
  have hT : (0 : K) < (totalSamples : K) := by
    exact_mod_cast (by omega : (0 : Int) < totalSamples)
  have hS : (sample : K) + 1 ≤ (totalSamples : K) := by
    exact_mod_cast (by omega : sample + 1 ≤ totalSamples)
  have hbase : (sample : K) / (totalSamples : K) ≤
      ((sample : K) + jitter) / (totalSamples : K) :=
    div_le_div_of_nonneg_right (by linarith) (le_of_lt hT)
  have hup : ((sample : K) + jitter) / (totalSamples : K) <
      ((sample : K) + 1) / (totalSamples : K) :=
    div_lt_div_of_pos_right (by linarith) hT
  simp only [SeededRNG.stratified]
  refine ⟨?_, ?_, ?_, ?_⟩
  · exact le_min (min_le_right _ _) (le_trans (min_le_left _ _) hbase)
  · exact lt_of_le_of_lt (min_le_right _ _) hup
  · exact lt_of_le_of_lt (min_le_left _ _) (by norm_num)
  · intro hsmall
    have hT6 : (totalSamples : K) ≤ 1000000 := by exact_mod_cast hsmall
    refine le_min ?_ hbase
    rw [div_le_iff₀ hT]
    nlinarith

/-- C15, amended, at `sample = 3`, `totalSamples = 4`, `jitter = 1/2`: the result is
`7/8`. -/
theorem stratified_in_stratum_witness :
    ((1 : Int) ≤ 4 ∧ (0 : Int) ≤ 3 ∧ (3 : Int) < 4 ∧ (0 : ℚ) ≤ 1 / 2 ∧ (1 / 2 : ℚ) < 1 ∧
      (SeededRNG.stratified (⟨(), ()⟩ : SeededRNG Unit Unit) 3 4 (1 / 2 : ℚ)).1 = 7 / 8) ∧
    (min (((3 : Int) : ℚ) / ((4 : Int) : ℚ)) (999999 / 1000000) ≤
        (SeededRNG.stratified (⟨(), ()⟩ : SeededRNG Unit Unit) 3 4 (1 / 2 : ℚ)).1 ∧
    (SeededRNG.stratified (⟨(), ()⟩ : SeededRNG Unit Unit) 3 4 (1 / 2 : ℚ)).1 <
      (((3 : Int) : ℚ) + 1) / ((4 : Int) : ℚ) ∧
    (SeededRNG.stratified (⟨(), ()⟩ : SeededRNG Unit Unit) 3 4 (1 / 2 : ℚ)).1 < 1 ∧
    ((4 : Int) ≤ 1000000 →
      ((3 : Int) : ℚ) / ((4 : Int) : ℚ) ≤
        (SeededRNG.stratified (⟨(), ()⟩ : SeededRNG Unit Unit) 3 4 (1 / 2 : ℚ)).1)) :=
  ⟨⟨by norm_num, by norm_num, by norm_num, by norm_num, by norm_num,
      by norm_num [SeededRNG.stratified]⟩,
    stratified_in_stratum (⟨(), ()⟩ : SeededRNG Unit Unit) 3 4 (1 / 2 : ℚ) (by norm_num) (by norm_num) (by norm_num)
      (by norm_num) (by norm_num)⟩

/-- C16, amended: in exact arithmetic (the operations on real numbers),
`microfacet::reflect` is the mirror reflection about the plane with normal `n`. For every
incident `i` and every `n` with `n . n = 1`: `reflect(i, n) = i - 2 (i . n) n`,
`reflect(i, n) . n = -(i . n)`, the reflected vector has the length of `i` (its square,
and the length for any square root function), and `reflect(reflect(i, n), n) = i`. -/
theorem reflect_mirror {K : Type} [LinearOrderedField K] (sqrt : K → K)
    (i n : Vec3 K) (hn : Vec3.dot n n = 1) :
    reflect i n = Vec3.sub i (Vec3.smul (2 * Vec3.dot i n) n) ∧
    Vec3.dot (reflect i n) n = -Vec3.dot i n ∧
    Vec3.dot (reflect i n) (reflect i n) = Vec3.dot i i ∧
    Vec3.length sqrt (reflect i n) = Vec3.length sqrt i ∧
    reflect (reflect i n) n = i := by
  have h2 : Vec3.dot (reflect i n) n = -Vec3.dot i n := by
    obtain ⟨ix, iy, iz⟩ := i
    obtain ⟨nx, ny, nz⟩ := n
    simp only [reflect, Vec3.dot, Vec3.sub, Vec3.smul] at hn ⊢
    linear_combination (-2 * (ix * nx + iy * ny + iz * nz)) * hn
  have h3 : Vec3.dot (reflect i n) (reflect i n) = Vec3.dot i i := by
    obtain ⟨ix, iy, iz⟩ := i
    obtain ⟨nx, ny, nz⟩ := n
    simp only [reflect, Vec3.dot, Vec3.sub, Vec3.smul] at hn ⊢
    linear_combination (4 * (ix * nx + iy * ny + iz * nz) ^ 2) * hn
  refine ⟨rfl, h2, h3, ?_, ?_⟩
  · simp only [Vec3.length, h3]
  · obtain ⟨ix, iy, iz⟩ := i
    obtain ⟨nx, ny, nz⟩ := n
    simp only [reflect, Vec3.dot, Vec3.sub, Vec3.smul, Vec3.eq_iff] at hn ⊢
    refine ⟨?_, ?_, ?_⟩
    · linear_combination (4 * (ix * nx + iy * ny + iz * nz) * nx) * hn
    · linear_combination (4 * (ix * nx + iy * ny + iz * nz) * ny) * hn
    · linear_combination (4 * (ix * nx + iy * ny + iz * nz) * nz) * hn

/-- C16, amended, at the incident direction `(3/5, -4/5, 0)` and the normal `(0, 1, 0)`:
the reflected direction is `(3/5, 4/5, 0)`. -/
theorem reflect_mirror_witness :
    (Vec3.dot (⟨0, 1, 0⟩ : Vec3 ℚ) ⟨0, 1, 0⟩ = 1 ∧
      reflect (⟨3 / 5, -4 / 5, 0⟩ : Vec3 ℚ) ⟨0, 1, 0⟩ = ⟨3 / 5, 4 / 5, 0⟩) ∧
    (reflect (⟨3 / 5, -4 / 5, 0⟩ : Vec3 ℚ) ⟨0, 1, 0⟩ =
      Vec3.sub ⟨3 / 5, -4 / 5, 0⟩
        (Vec3.smul (2 * Vec3.dot (⟨3 / 5, -4 / 5, 0⟩ : Vec3 ℚ) ⟨0, 1, 0⟩) ⟨0, 1, 0⟩) ∧
    Vec3.dot (reflect (⟨3 / 5, -4 / 5, 0⟩ : Vec3 ℚ) ⟨0, 1, 0⟩) ⟨0, 1, 0⟩ =
      -Vec3.dot (⟨3 / 5, -4 / 5, 0⟩ : Vec3 ℚ) ⟨0, 1, 0⟩ ∧
    Vec3.dot (reflect (⟨3 / 5, -4 / 5, 0⟩ : Vec3 ℚ) ⟨0, 1, 0⟩)
        (reflect (⟨3 / 5, -4 / 5, 0⟩ : Vec3 ℚ) ⟨0, 1, 0⟩) =
      Vec3.dot (⟨3 / 5, -4 / 5, 0⟩ : Vec3 ℚ) ⟨3 / 5, -4 / 5, 0⟩ ∧
    Vec3.length Rat.sqrt (reflect (⟨3 / 5, -4 / 5, 0⟩ : Vec3 ℚ) ⟨0, 1, 0⟩) =
      Vec3.length Rat.sqrt (⟨3 / 5, -4 / 5, 0⟩ : Vec3 ℚ) ∧
    reflect (reflect (⟨3 / 5, -4 / 5, 0⟩ : Vec3 ℚ) ⟨0, 1, 0⟩) ⟨0, 1, 0⟩ =
      ⟨3 / 5, -4 / 5, 0⟩) :=
  have hn : Vec3.dot (⟨0, 1, 0⟩ : Vec3 ℚ) ⟨0, 1, 0⟩ = 1 := by norm_num [Vec3.dot]
  ⟨⟨hn, by norm_num [reflect, Vec3.dot, Vec3.sub, Vec3.smul]⟩,
    reflect_mirror Rat.sqrt ⟨3 / 5, -4 / 5, 0⟩ ⟨0, 1, 0⟩ hn⟩

/-- C17, amended: in exact arithmetic (the operations on real numbers, `sqrt` the square
root), for every origin `o` and every direction `dir` other than the zero vector,
`Ray(o, dir)` stores `origin = o` and the direction `dir / |dir|`, a positive
multiple of `dir` of length 1. The function `sqrt` is assumed to be a square root at the
two numbers at which it is used: `dir . dir` and `1`. -/
theorem ray_new_unit_direction {K : Type} [LinearOrderedField K] (sqrt : K → K)
    (o dir : Vec3 K) (hdir : dir ≠ ⟨0, 0, 0⟩)
    (hnonneg : 0 ≤ sqrt (Vec3.dot dir dir))
    (hsqrt : sqrt (Vec3.dot dir dir) * sqrt (Vec3.dot dir dir) = Vec3.dot dir dir)
    (hone : sqrt 1 = 1) :
    (Ray.new sqrt o dir).origin = o ∧
    (Ray.new sqrt o dir).direction = Vec3.smul (1 / Vec3.length sqrt dir) dir ∧
    0 < 1 / Vec3.length sqrt dir ∧
    Vec3.length sqrt (Ray.new sqrt o dir).direction = 1 := by
  have hdot : Vec3.dot dir dir ≠ 0 := by
    intro h
    apply hdir
    obtain ⟨x, y, z⟩ := dir
    simp only [Vec3.dot] at h
    have sx := mul_self_nonneg x
    have sy := mul_self_nonneg y
    have sz := mul_self_nonneg z
    have hx : x = 0 := mul_self_eq_zero.mp (le_antisymm (by linarith) sx)
    have hy : y = 0 := mul_self_eq_zero.mp (le_antisymm (by linarith) sy)
    have hz : z = 0 := mul_self_eq_zero.mp (le_antisymm (by linarith) sz)
    rw [hx, hy, hz]
  have hne : sqrt (Vec3.dot dir dir) ≠ 0 := by
    intro h
    rw [h, mul_zero] at hsqrt
    exact hdot hsqrt.symm
  have hpos : 0 < sqrt (Vec3.dot dir dir) := lt_of_le_of_ne hnonneg (Ne.symm hne)
  refine ⟨rfl, rfl, by simp only [Vec3.length]; positivity, ?_⟩
  have hunit : Vec3.dot (Ray.new sqrt o dir).direction (Ray.new sqrt o dir).direction = 1 := by
    have e : Vec3.dot (Ray.new sqrt o dir).direction (Ray.new sqrt o dir).direction =
        (1 / sqrt (Vec3.dot dir dir)) * (1 / sqrt (Vec3.dot dir dir)) * Vec3.dot dir dir := by
      simp only [Ray.new, Vec3.normalize, Vec3.smul, Vec3.dot]
      ring
    rw [e]
    nth_rewrite 3 [← hsqrt]
    field_simp
  simp only [Vec3.length, hunit, hone]

/-- C17, amended, at the origin `(1, 2, 3)` and the direction `(3, 4, 0)` of length 5. -/
theorem ray_new_unit_direction_witness :
    ((⟨3, 4, 0⟩ : Vec3 ℚ) ≠ ⟨0, 0, 0⟩ ∧
      0 ≤ Rat.sqrt (Vec3.dot (⟨3, 4, 0⟩ : Vec3 ℚ) ⟨3, 4, 0⟩) ∧
      Rat.sqrt (Vec3.dot (⟨3, 4, 0⟩ : Vec3 ℚ) ⟨3, 4, 0⟩) *
        Rat.sqrt (Vec3.dot (⟨3, 4, 0⟩ : Vec3 ℚ) ⟨3, 4, 0⟩) =
        Vec3.dot (⟨3, 4, 0⟩ : Vec3 ℚ) ⟨3, 4, 0⟩ ∧
      Rat.sqrt 1 = 1) ∧
    ((Ray.new Rat.sqrt (⟨1, 2, 3⟩ : Vec3 ℚ) ⟨3, 4, 0⟩).origin = ⟨1, 2, 3⟩ ∧
    (Ray.new Rat.sqrt (⟨1, 2, 3⟩ : Vec3 ℚ) ⟨3, 4, 0⟩).direction =
      Vec3.smul (1 / Vec3.length Rat.sqrt ⟨3, 4, 0⟩) ⟨3, 4, 0⟩ ∧
    0 < 1 / Vec3.length Rat.sqrt (⟨3, 4, 0⟩ : Vec3 ℚ) ∧
    Vec3.length Rat.sqrt (Ray.new Rat.sqrt (⟨1, 2, 3⟩ : Vec3 ℚ) ⟨3, 4, 0⟩).direction = 1) :=
  have h25 : Rat.sqrt (Vec3.dot (⟨3, 4, 0⟩ : Vec3 ℚ) ⟨3, 4, 0⟩) = 5 := by
    have h := Rat.sqrt_eq 5
    norm_num at h
    norm_num [Vec3.dot, h]
  have h1 : Rat.sqrt 1 = 1 := by simp
  have hd : (⟨3, 4, 0⟩ : Vec3 ℚ) ≠ ⟨0, 0, 0⟩ := by
    intro h
    have := congrArg Vec3.x h
    norm_num at this
  have hnonneg : 0 ≤ Rat.sqrt (Vec3.dot (⟨3, 4, 0⟩ : Vec3 ℚ) ⟨3, 4, 0⟩) := by
    rw [h25]; norm_num
  have hsqrt : Rat.sqrt (Vec3.dot (⟨3, 4, 0⟩ : Vec3 ℚ) ⟨3, 4, 0⟩) *
      Rat.sqrt (Vec3.dot (⟨3, 4, 0⟩ : Vec3 ℚ) ⟨3, 4, 0⟩) =
      Vec3.dot (⟨3, 4, 0⟩ : Vec3 ℚ) ⟨3, 4, 0⟩ := by
    rw [h25]; norm_num [Vec3.dot]
  ⟨⟨hd, hnonneg, hsqrt, h1⟩,
    ray_new_unit_direction Rat.sqrt ⟨1, 2, 3⟩ ⟨3, 4, 0⟩ hd hnonneg hsqrt h1⟩

/-! ## The bounding volume hierarchy -/

/-- No second candidate: the first one is kept. -/
theorem closerHit_none_right {K : Type} [LinearOrderedField K] (a : Option (Hit K)) :
    closerHit a none = a := by
  cases a <;> rfl

/-- Keeping the closer of three candidates does not depend on the grouping. -/
theorem closerHit_assoc {K : Type} [LinearOrderedField K] (a b c : Option (Hit K)) :
    closerHit (closerHit a b) c = closerHit a (closerHit b c) := by
  cases a with
  | none => rfl
  | some a =>
    cases b with
    | none => rfl
    | some b =>
      cases c with
      | none => simp only [closerHit_none_right]
      | some c =>
        simp only [closerHit]
        split_ifs <;> simp only [closerHit] <;> split_ifs <;>
          first | rfl | (exfalso; linarith)

/-- A scan from a best hit is the closer of that hit and the scan from no hit. -/
theorem scanTriangles_best {K : Type} [LinearOrderedField K] (sqrt : K → K) (ray : Ray K)
    (l : List (Triangle K)) :
    ∀ best, scanTriangles sqrt ray l best = closerHit best (scanTriangles sqrt ray l none) := by
  induction l with
  | nil => intro best; simp only [scanTriangles, closerHit_none_right]
  | cons tri rest ih =>
    intro best
    simp only [scanTriangles]
    split_ifs with h
    · rw [ih, ih (closerHit none _), closerHit_assoc]
      rfl
    · exact ih best

/-- A scan of two lists in a row. -/
theorem scanTriangles_append {K : Type} [LinearOrderedField K] (sqrt : K → K) (ray : Ray K)
    (l1 l2 : List (Triangle K)) :
    ∀ best, scanTriangles sqrt ray (l1 ++ l2) best =
      scanTriangles sqrt ray l2 (scanTriangles sqrt ray l1 best) := by
  induction l1 with
  | nil => intro best; rfl
  | cons tri rest ih =>
    intro best
    rw [List.cons_append]
    simp only [scanTriangles]
    split_ifs with h
    · exact ih _
    · exact ih _

/-- The scan of two lists in a row keeps the closer of the two results. -/
theorem bruteForceIntersect_append {K : Type} [LinearOrderedField K] (sqrt : K → K)
    (ray : Ray K) (l1 l2 : List (Triangle K)) :
    bruteForceIntersect sqrt ray (l1 ++ l2) =
      closerHit (bruteForceIntersect sqrt ray l1) (bruteForceIntersect sqrt ray l2) := by
  simp only [bruteForceIntersect]
  rw [scanTriangles_append, scanTriangles_best]

/-- A convex combination of three numbers of an interval lies in the interval. -/
theorem convex_mem_interval {K : Type} [LinearOrderedField K] (lo hi a b c u v : K)
    (ha : lo ≤ a ∧ a ≤ hi) (hb : lo ≤ b ∧ b ≤ hi) (hc : lo ≤ c ∧ c ≤ hi)
    (hu : 0 ≤ u) (hv : 0 ≤ v) (huv : u + v ≤ 1) :
    lo ≤ a + (u * (b - a) + v * (c - a)) ∧ a + (u * (b - a) + v * (c - a)) ≤ hi := by
  have hw : 0 ≤ 1 - u - v := by linarith
  have e : a + (u * (b - a) + v * (c - a)) = (1 - u - v) * a + u * b + v * c := by ring
  rw [e]
  constructor
  · have h1 := mul_nonneg hw (sub_nonneg.mpr ha.1)
    have h2 := mul_nonneg hu (sub_nonneg.mpr hb.1)
    have h3 := mul_nonneg hv (sub_nonneg.mpr hc.1)
    linarith
  · have h1 := mul_nonneg hw (sub_nonneg.mpr ha.2)
    have h2 := mul_nonneg hu (sub_nonneg.mpr hb.2)
    have h3 := mul_nonneg hv (sub_nonneg.mpr hc.2)
    linarith

/-- The point at which a ray hits a triangle lies in every box that holds the vertices. -/
theorem hitPoint_inBox {K : Type} [LinearOrderedField K] (sqrt : K → K)
    (tri : Triangle K) (ray : Ray K) (tOut : K) (nOut : Vec3 K) (boundsMin boundsMax : Vec3 K)
    (hin : tri.inBounds boundsMin boundsMax)
    (hit : (tri.intersect sqrt ray tOut nOut).1 = true) :
    0 ≤ tri.paramT ray ∧ inBox (ray.pointAt (tri.paramT ray)) boundsMin boundsMax := by
  rw [Triangle.intersect_fst] at hit
  obtain ⟨hdet, hu0, _, hv0, huv, ht⟩ := hit
  refine ⟨le_of_lt (lt_trans EPS_pos ht), ?_⟩
  rw [moller_trumbore_solves tri ray (Triangle.det_ne_zero_of_EPS_le tri ray hdet)]
  obtain ⟨⟨a1, a2, a3, a4, a5, a6⟩, ⟨b1, b2, b3, b4, b5, b6⟩, c1, c2, c3, c4, c5, c6⟩ := hin
  simp only [inBox, Triangle.pointAt, Vec3.add, Vec3.smul, Vec3.sub]
  have hx := convex_mem_interval boundsMin.x boundsMax.x tri.v0.x tri.v1.x tri.v2.x _ _
    ⟨a1, a2⟩ ⟨b1, b2⟩ ⟨c1, c2⟩ hu0 hv0 huv
  have hy := convex_mem_interval boundsMin.y boundsMax.y tri.v0.y tri.v1.y tri.v2.y _ _
    ⟨a3, a4⟩ ⟨b3, b4⟩ ⟨c3, c4⟩ hu0 hv0 huv
  have hz := convex_mem_interval boundsMin.z boundsMax.z tri.v0.z tri.v1.z tri.v2.z _ _
    ⟨a5, a6⟩ ⟨b5, b6⟩ ⟨c5, c6⟩ hu0 hv0 huv
  exact ⟨hx.1, hx.2, hy.1, hy.2, hz.1, hz.2⟩

/-- A ray with a point in a box at a parameter `s ≥ 0` passes the box test. -/
theorem rayIntersectsAABB_of_inBox {K : Type} [LinearOrderedField K]
    (ray : Ray K) (aabbMin aabbMax : Vec3 K) (t s : K)
    (dx : ray.direction.x ≠ 0) (dy : ray.direction.y ≠ 0) (dz : ray.direction.z ≠ 0)
    (hs : 0 ≤ s) (hin : inBox (ray.pointAt s) aabbMin aabbMax) :
    (rayIntersectsAABB ray aabbMin aabbMax t).1 = true := by
  rw [rayIntersectsAABB_fst]
  simp only [inBox, Ray.pointAt, Vec3.add, Vec3.smul] at hin
  obtain ⟨a1, b1, a2, b2, a3, b3⟩ := hin
  have e1 := (slab_iff aabbMin.x aabbMax.x ray.origin.x ray.direction.x s dx
    (le_trans a1 b1)).mp ⟨a1, b1⟩
  have e2 := (slab_iff aabbMin.y aabbMax.y ray.origin.y ray.direction.y s dy
    (le_trans a2 b2)).mp ⟨a2, b2⟩
  have e3 := (slab_iff aabbMin.z aabbMax.z ray.origin.z ray.direction.z s dz
    (le_trans a3 b3)).mp ⟨a3, b3⟩
  exact ⟨s, hs, e1.1, e1.2, e2.1, e2.2, e3.1, e3.2⟩

/-- The flag of `Triangle::intersect` does not depend on the initial values of the
reference parameters. -/
theorem Triangle.intersect_fst_irrel {K : Type} [LinearOrderedField K] (sqrt : K → K)
    (tri : Triangle K) (ray : Ray K) (t t2 : K) (n n2 : Vec3 K) :
    (tri.intersect sqrt ray t n).1 = (tri.intersect sqrt ray t2 n2).1 := by
  rw [Bool.eq_iff_iff, Triangle.intersect_fst, Triangle.intersect_fst]

/-- A scan over triangles that the ray misses keeps the best hit so far. -/
theorem scanTriangles_of_miss {K : Type} [LinearOrderedField K] (sqrt : K → K) (ray : Ray K)
    (l : List (Triangle K))
    (hmiss : ∀ tri ∈ l, (tri.intersect sqrt ray 0 ⟨0, 0, 0⟩).1 = false) :
    ∀ best, scanTriangles sqrt ray l best = best := by
  induction l with
  | nil => intro best; rfl
  | cons tri rest ih =>
    intro best
    have h := hmiss tri (List.mem_cons_self _ _)
    simp only [scanTriangles, h, Bool.false_eq_true, if_false]
    exact ih (fun x hx => hmiss x (List.mem_cons_of_mem _ hx)) best

/-- The traversal of a tree with bounded nodes and the scan of its triangles in the order
of the tree give the same result. -/
theorem bvh_intersect_eq_scan {K : Type} [LinearOrderedField K] (sqrt : K → K)
    (ray : Ray K) (dx : ray.direction.x ≠ 0) (dy : ray.direction.y ≠ 0)
    (dz : ray.direction.z ≠ 0) :
    ∀ tree : BVHNode K, tree.Bounded →
      tree.intersect sqrt ray = bruteForceIntersect sqrt ray tree.allTriangles
  | BVHNode.null, _ => rfl
  | BVHNode.node boundsMin boundsMax triangles left right, hb => by
    obtain ⟨hin, hl, hr⟩ := hb
    simp only [BVHNode.intersect, BVHNode.allTriangles]
    rw [bvh_intersect_eq_scan sqrt ray dx dy dz left hl,
      bvh_intersect_eq_scan sqrt ray dx dy dz right hr]
    split_ifs with hbox
    · rw [bruteForceIntersect_append, bruteForceIntersect_append, closerHit_assoc]
    · symm
      apply scanTriangles_of_miss
      intro tri htri
      rw [Bool.eq_false_iff]
      intro hit
      obtain ⟨hs, hp⟩ := hitPoint_inBox sqrt tri ray 0 ⟨0, 0, 0⟩ boundsMin boundsMax
        (hin tri htri) hit
      exact hbox (rayIntersectsAABB_of_inBox ray boundsMin boundsMax 0 _ dx dy dz hs hp)

/-- The scan of a list that starts with `tri`. -/
theorem bruteForceIntersect_cons {K : Type} [LinearOrderedField K] (sqrt : K → K)
    (ray : Ray K) (tri : Triangle K) (rest : List (Triangle K)) :
    bruteForceIntersect sqrt ray (tri :: rest) =
      closerHit
        (if (tri.intersect sqrt ray 0 ⟨0, 0, 0⟩).1 = true then
          some (tri, (tri.intersect sqrt ray 0 ⟨0, 0, 0⟩).2) else none)
        (bruteForceIntersect sqrt ray rest) := by
  simp only [bruteForceIntersect, scanTriangles]
  split_ifs with h
  · rw [scanTriangles_best]; rfl
  · rfl

/-- The scan finds nothing exactly when the ray misses every triangle. -/
theorem bruteForceIntersect_eq_none {K : Type} [LinearOrderedField K] (sqrt : K → K)
    (ray : Ray K) (l : List (Triangle K)) :
    bruteForceIntersect sqrt ray l = none ↔
      ∀ tri ∈ l, (tri.intersect sqrt ray 0 ⟨0, 0, 0⟩).1 = false := by
  induction l with
  | nil => simp [bruteForceIntersect, scanTriangles]
  | cons tri rest ih =>
    rw [bruteForceIntersect_cons]
    by_cases h : (tri.intersect sqrt ray 0 ⟨0, 0, 0⟩).1 = true
    · rw [if_pos h]
      constructor
      · intro hc
        cases hr : bruteForceIntersect sqrt ray rest with
        | none => rw [hr] at hc; cases hc
        | some b => rw [hr] at hc; simp only [closerHit] at hc; split_ifs at hc
      · intro hall
        have := hall tri (List.mem_cons_self _ _)
        rw [h] at this
        cases this
    · rw [if_neg h]
      have h' : (tri.intersect sqrt ray 0 ⟨0, 0, 0⟩).1 = false := by
        simpa using h
      show bruteForceIntersect sqrt ray rest = none ↔ _
      rw [ih]
      constructor
      · intro hall x hx
        rcases List.mem_cons.mp hx with e | e
        · rw [e]; exact h'
        · exact hall x e
      · intro hall x hx
        exact hall x (List.mem_cons_of_mem _ hx)

/-- The hit that the scan keeps belongs to a triangle of the list that the ray hits, and no
triangle of the list is hit at a smaller `t`. -/
theorem bruteForceIntersect_eq_some {K : Type} [LinearOrderedField K] (sqrt : K → K)
    (ray : Ray K) (l : List (Triangle K)) :
    ∀ h : Hit K, bruteForceIntersect sqrt ray l = some h →
      (h.1 ∈ l ∧ (h.1.intersect sqrt ray 0 ⟨0, 0, 0⟩).1 = true ∧
        h.2 = (h.1.intersect sqrt ray 0 ⟨0, 0, 0⟩).2) ∧
      ∀ tri ∈ l, (tri.intersect sqrt ray 0 ⟨0, 0, 0⟩).1 = true →
        h.2.1 ≤ (tri.intersect sqrt ray 0 ⟨0, 0, 0⟩).2.1 := by
  induction l with
  | nil => intro h hh; simp [bruteForceIntersect, scanTriangles] at hh
  | cons tri rest ih =>
    intro h hh
    rw [bruteForceIntersect_cons] at hh
    by_cases hit : (tri.intersect sqrt ray 0 ⟨0, 0, 0⟩).1 = true
    · rw [if_pos hit] at hh
      cases hr : bruteForceIntersect sqrt ray rest with
      | none =>
        rw [hr] at hh
        have hnone := (bruteForceIntersect_eq_none sqrt ray rest).mp hr
        simp only [closerHit, Option.some.injEq] at hh
        subst hh
        refine ⟨⟨List.mem_cons_self _ _, hit, rfl⟩, ?_⟩
        intro x hx hxhit
        rcases List.mem_cons.mp hx with e | e
        · rw [e]
        · rw [hnone x e] at hxhit; cases hxhit
      | some b =>
        rw [hr] at hh
        obtain ⟨⟨b1, b2, b3⟩, b4⟩ := ih b hr
        simp only [closerHit] at hh
        split_ifs at hh with hlt
        · simp only [Option.some.injEq] at hh
          subst hh
          refine ⟨⟨List.mem_cons_of_mem _ b1, b2, b3⟩, ?_⟩
          intro x hx hxhit
          rcases List.mem_cons.mp hx with e | e
          · rw [e]; exact le_of_lt hlt
          · exact b4 x e hxhit
        · simp only [Option.some.injEq] at hh
          subst hh
          refine ⟨⟨List.mem_cons_self _ _, hit, rfl⟩, ?_⟩
          intro x hx hxhit
          rcases List.mem_cons.mp hx with e | e
          · rw [e]
          · exact le_trans (not_lt.mp hlt) (b4 x e hxhit)
    · rw [if_neg hit] at hh
      obtain ⟨⟨b1, b2, b3⟩, b4⟩ := ih h hh
      refine ⟨⟨List.mem_cons_of_mem _ b1, b2, b3⟩, ?_⟩
      intro x hx hxhit
      rcases List.mem_cons.mp hx with e | e
      · rw [e] at hxhit; exact absurd hxhit hit
      · exact b4 x e hxhit

/-- Scans of two lists with the same members: the flag and `t` agree, and the whole
result agrees when no two triangles are hit at the same `t`. -/
theorem bruteForceIntersect_order {K : Type} [LinearOrderedField K] (sqrt : K → K)
    (ray : Ray K) (l1 l2 : List (Triangle K)) (hmem : ∀ tri, tri ∈ l1 ↔ tri ∈ l2) :
    (bruteForceIntersect sqrt ray l1).isSome = (bruteForceIntersect sqrt ray l2).isSome ∧
    (bruteForceIntersect sqrt ray l1).map (fun h => h.2.1) =
      (bruteForceIntersect sqrt ray l2).map (fun h => h.2.1) ∧
    ((∀ a ∈ l1, ∀ b ∈ l1, (a.intersect sqrt ray 0 ⟨0, 0, 0⟩).1 = true →
        (b.intersect sqrt ray 0 ⟨0, 0, 0⟩).1 = true →
        (a.intersect sqrt ray 0 ⟨0, 0, 0⟩).2.1 = (b.intersect sqrt ray 0 ⟨0, 0, 0⟩).2.1 →
        a = b) →
      bruteForceIntersect sqrt ray l1 = bruteForceIntersect sqrt ray l2) := by
  cases h1 : bruteForceIntersect sqrt ray l1 with
  | none =>
    have hn := (bruteForceIntersect_eq_none sqrt ray l1).mp h1
    have h2 : bruteForceIntersect sqrt ray l2 = none :=
      (bruteForceIntersect_eq_none sqrt ray l2).mpr (fun x hx => hn x ((hmem x).mpr hx))
    rw [h2]
    exact ⟨rfl, rfl, fun _ => rfl⟩
  | some a =>
    cases h2 : bruteForceIntersect sqrt ray l2 with
    | none =>
      have hn := (bruteForceIntersect_eq_none sqrt ray l2).mp h2
      have := (bruteForceIntersect_eq_none sqrt ray l1).mpr (fun x hx => hn x ((hmem x).mp hx))
      rw [this] at h1
      cases h1
    | some b =>
      obtain ⟨⟨a1, a2, a3⟩, a4⟩ := bruteForceIntersect_eq_some sqrt ray l1 a h1
      obtain ⟨⟨b1, b2, b3⟩, b4⟩ := bruteForceIntersect_eq_some sqrt ray l2 b h2
      have hab : a.2.1 ≤ b.2.1 := by
        have := a4 b.1 ((hmem _).mpr b1) b2
        rw [← b3] at this
        exact this
      have hba : b.2.1 ≤ a.2.1 := by
        have := b4 a.1 ((hmem _).mp a1) a2
        rw [← a3] at this
        exact this
      have ht : a.2.1 = b.2.1 := le_antisymm hab hba
      refine ⟨rfl, by simp only [Option.map_some', ht], fun huniq => ?_⟩
      have hfst : a.1 = b.1 := by
        apply huniq a.1 a1 b.1 ((hmem _).mpr b1) a2 b2
        rw [← a3, ← b3]
        exact ht
      obtain ⟨atri, ahit⟩ := a
      obtain ⟨btri, bhit⟩ := b
      simp only at hfst a3 b3
      subst hfst
      rw [a3, b3]

/-- C11, amended: the acceleration-structure oracle in exact arithmetic, for
`BVHNode::intersect` as section 4.3 describes it and rays whose direction has no zero
component. Let `tree` be a BVH over the triangles `triangles`: every triangle is
reachable beneath the root (`triangles` is a permutation of `tree.allTriangles`) and the
bounds of every node contain the triangles beneath it. For every ray whose direction has
no zero component, `tree.intersect` returns the hit flag, triangle, `t` and normal of the
brute-force scan over the triangles in the order of the tree; the scan over `triangles`
in any order has the same flag and the same `t`, and the same triangle and normal when no
two triangles are hit at the same `t`. -/
theorem bvh_intersect_oracle {K : Type} [LinearOrderedField K] (sqrt : K → K)
    (ray : Ray K) (tree : BVHNode K) (triangles : List (Triangle K))
    (hbounded : tree.Bounded) (hbuilt : triangles.Perm tree.allTriangles)
    (dx : ray.direction.x ≠ 0) (dy : ray.direction.y ≠ 0) (dz : ray.direction.z ≠ 0) :
    tree.intersect sqrt ray = bruteForceIntersect sqrt ray tree.allTriangles ∧
    (tree.intersect sqrt ray).isSome = (bruteForceIntersect sqrt ray triangles).isSome ∧
    (tree.intersect sqrt ray).map (fun h => h.2.1) =
      (bruteForceIntersect sqrt ray triangles).map (fun h => h.2.1) ∧
    ((∀ a ∈ triangles, ∀ b ∈ triangles, (a.intersect sqrt ray 0 ⟨0, 0, 0⟩).1 = true →
        (b.intersect sqrt ray 0 ⟨0, 0, 0⟩).1 = true →
        (a.intersect sqrt ray 0 ⟨0, 0, 0⟩).2.1 = (b.intersect sqrt ray 0 ⟨0, 0, 0⟩).2.1 →
        a = b) →
      tree.intersect sqrt ray = bruteForceIntersect sqrt ray triangles) := by
  have h1 := bvh_intersect_eq_scan sqrt ray dx dy dz tree hbounded
  obtain ⟨h2, h3, h4⟩ := bruteForceIntersect_order sqrt ray triangles tree.allTriangles
    (fun tri => hbuilt.mem_iff)
  rw [h1]
  exact ⟨rfl, h2.symm, h3.symm, fun huniq => (h4 huniq).symm⟩

/-- C11, amended, at a tree of two leaves and a ray that hits both triangles: the closest
hit is on `unitTriangle`, in the right leaf, at `t = 1`. -/
theorem bvh_intersect_oracle_witness :
    (sampleTree.Bounded ∧ [unitTriangle, lowerTriangle].Perm sampleTree.allTriangles ∧
      steepRay.direction.x ≠ 0 ∧ steepRay.direction.y ≠ 0 ∧ steepRay.direction.z ≠ 0 ∧
      (sampleTree.intersect Rat.sqrt steepRay).map (fun h => h.2.1) = some 1) ∧
    (sampleTree.intersect Rat.sqrt steepRay =
        bruteForceIntersect Rat.sqrt steepRay sampleTree.allTriangles ∧
    (sampleTree.intersect Rat.sqrt steepRay).isSome =
      (bruteForceIntersect Rat.sqrt steepRay [unitTriangle, lowerTriangle]).isSome ∧
    (sampleTree.intersect Rat.sqrt steepRay).map (fun h => h.2.1) =
      (bruteForceIntersect Rat.sqrt steepRay [unitTriangle, lowerTriangle]).map
        (fun h => h.2.1) ∧
    ((∀ a ∈ [unitTriangle, lowerTriangle], ∀ b ∈ [unitTriangle, lowerTriangle],
        (a.intersect Rat.sqrt steepRay 0 ⟨0, 0, 0⟩).1 = true →
        (b.intersect Rat.sqrt steepRay 0 ⟨0, 0, 0⟩).1 = true →
        (a.intersect Rat.sqrt steepRay 0 ⟨0, 0, 0⟩).2.1 =
          (b.intersect Rat.sqrt steepRay 0 ⟨0, 0, 0⟩).2.1 →
        a = b) →
      sampleTree.intersect Rat.sqrt steepRay =
        bruteForceIntersect Rat.sqrt steepRay [unitTriangle, lowerTriangle])) :=
  have hbounded : sampleTree.Bounded := by
    simp only [sampleTree, BVHNode.Bounded, BVHNode.allTriangles, List.nil_append,
      List.append_nil, List.mem_append, List.mem_singleton, and_true]
    refine ⟨?_, ?_, ?_⟩
    · rintro tri (rfl | rfl) <;>
        norm_num [Triangle.inBounds, inBox, unitTriangle, lowerTriangle]
    · rintro tri rfl
      norm_num [Triangle.inBounds, inBox, lowerTriangle]
    · rintro tri rfl
      norm_num [Triangle.inBounds, inBox, unitTriangle]
  have hbuilt : [unitTriangle, lowerTriangle].Perm sampleTree.allTriangles :=
    List.Perm.swap lowerTriangle unitTriangle []
  have hx : steepRay.direction.x ≠ 0 := by norm_num [steepRay]
  have hy : steepRay.direction.y ≠ 0 := by norm_num [steepRay]
  have hz : steepRay.direction.z ≠ 0 := by norm_num [steepRay]
  have hu : (unitTriangle.intersect Rat.sqrt steepRay 0 ⟨0, 0, 0⟩).1 = true := by
    rw [Triangle.intersect_fst]
    norm_num [Triangle.det, Triangle.baryU, Triangle.baryV, Triangle.paramT, unitTriangle,
      steepRay, Vec3.dot, Vec3.cross, Vec3.sub, EPS]
  have hl : (lowerTriangle.intersect Rat.sqrt steepRay 0 ⟨0, 0, 0⟩).1 = true := by
    rw [Triangle.intersect_fst]
    norm_num [Triangle.det, Triangle.baryU, Triangle.baryV, Triangle.paramT, lowerTriangle,
      steepRay, Vec3.dot, Vec3.cross, Vec3.sub, EPS]
  have htu : (unitTriangle.intersect Rat.sqrt steepRay 0 ⟨0, 0, 0⟩).2.1 = 1 := by
    rw [Triangle.intersect_tOut, if_pos hu]
    norm_num [Triangle.det, Triangle.paramT, unitTriangle, steepRay, Vec3.dot, Vec3.cross,
      Vec3.sub]
  have htl : (lowerTriangle.intersect Rat.sqrt steepRay 0 ⟨0, 0, 0⟩).2.1 = 2 := by
    rw [Triangle.intersect_tOut, if_pos hl]
    norm_num [Triangle.det, Triangle.paramT, lowerTriangle, steepRay, Vec3.dot, Vec3.cross,
      Vec3.sub]
  have hb1 : (rayIntersectsAABB steepRay ⟨0, 0, -1⟩ ⟨1, 1, 0⟩ 0).1 = true := by
    norm_num [rayIntersectsAABB, steepRay]
  have hb2 : (rayIntersectsAABB steepRay ⟨0, 0, -1⟩ ⟨1, 1, -1⟩ 0).1 = true := by
    norm_num [rayIntersectsAABB, steepRay]
  have hb3 : (rayIntersectsAABB steepRay ⟨0, 0, 0⟩ ⟨1, 1, 0⟩ 0).1 = true := by
    norm_num [rayIntersectsAABB, steepRay]
  have hclosest : (sampleTree.intersect Rat.sqrt steepRay).map (fun h => h.2.1) = some 1 := by
    simp only [sampleTree, BVHNode.intersect, bruteForceIntersect, scanTriangles, hb1, hb2,
      hb3, hu, hl, if_true, closerHit, htu, htl]
    norm_num
    exact htu
  ⟨⟨hbounded, hbuilt, hx, hy, hz, hclosest⟩,
    bvh_intersect_oracle Rat.sqrt steepRay sampleTree [unitTriangle, lowerTriangle] hbounded
      hbuilt hx hy hz⟩

/-! ## Provenance of the resolved configuration -/

/-- C18 fails on the code. With no layer other than the built-in defaults, the resolved
document has the leaf `render.device`, and no record is kept under `render.device`: the
only records are those under `render` and `assets`, the members that were inserted as a
whole. And when the workspace sets `render.device`, the manifest defaults replace `render`
by a string and the CLI overrides set `render` to an object again, the leaf
`render.device` holds the value of the CLI overrides, while the last record under
`render.device` names the workspace configuration and carries its value. -/
theorem resolve_provenance_incomplete :
    ∀ ser : JsonValue → String,
      ((resolve ser true loadedNothing).document.lookup ["render", "device"] =
          some (JsonValue.string "auto") ∧
        (resolve ser true loadedNothing).provenance.recordsAt "render.device" = [] ∧
        (resolve ser true loadedNothing).provenance.map (fun entry => entry.1) =
          ["render", "assets"]) ∧
      ((resolve ser true loadedReplacedTwice).document.lookup ["render", "device"] =
          some (JsonValue.string "cpu") ∧
        (resolve ser true loadedReplacedTwice).provenance.recordsAt "render.device" =
          [{ layer := ConfigLayer.WorkspaceConfig, source := "workspace config",
             json := ser (JsonValue.string "gpu") }]) :=
  fun _ => ⟨⟨rfl, rfl, rfl⟩, rfl, rfl⟩

/-! ## The commands of the supported verbs -/

/-- C19 as stated fails: `render`, `inspect` and `clean` are supported verbs, and
`createCommand` returns the placeholder `StubCommand` for each of them, whose `run`
reports `not_implemented` and returns `RuntimeError`. The six other supported verbs have
their own commands. -/
theorem createCommand_stub_for_supported_verbs :
    (isSupportedVerb "render" = true ∧
      createCommand "render" = some (CommandKind.StubCommand "render")) ∧
    (isSupportedVerb "inspect" = true ∧
      createCommand "inspect" = some (CommandKind.StubCommand "inspect")) ∧
    (isSupportedVerb "clean" = true ∧
      createCommand "clean" = some (CommandKind.StubCommand "clean")) ∧
    (∀ context : CommandExecutionContext,
      StubCommand.run context = (CLIExitCode.RuntimeError, "not_implemented")) ∧
    createCommand "init" = some CommandKind.InitCommandAdapter ∧
    createCommand "validate" = some CommandKind.ValidateCommand ∧
    createCommand "config" = some CommandKind.ConfigCommand ∧
    createCommand "doctor" = some CommandKind.DoctorCommand ∧
    createCommand "modules" = some CommandKind.ModulesCommand ∧
    createCommand "assets" = some CommandKind.AssetsCommand :=
  ⟨⟨by decide, by decide⟩, ⟨by decide, by decide⟩, ⟨by decide, by decide⟩, fun _ => rfl,
    by decide, by decide, by decide, by decide, by decide, by decide⟩

/-! ## The lock registries -/

/-- Nothing is found in the empty list. -/
theorem lookupByName_nil {T : Type} (nameOf : T → String) (name : String) : lookupByName nameOf [] name = none := rfl

/-- The entry found in a list that starts with `entry`. -/
theorem lookupByName_cons {T : Type} (nameOf : T → String) (entry : T) (rest : List T) (name : String) :
    lookupByName nameOf (entry :: rest) name =
      if nameOf entry = name then some entry else lookupByName nameOf rest name := by
  simp only [lookupByName, findIndexByName]
  split_ifs with h
  · simp
  · cases findIndexByName nameOf rest name <;> simp

/-- An index is found exactly when an entry is. -/
theorem findIndexByName_isSome {T : Type} (nameOf : T → String) (entries : List T) (name : String) :
    (findIndexByName nameOf entries name).isSome = (lookupByName nameOf entries name).isSome := by
  induction entries with
  | nil => rfl
  | cons entry rest ih =>
    rw [lookupByName_cons]
    simp only [findIndexByName]
    split_ifs with h
    · rfl
    · rw [← ih]; cases findIndexByName nameOf rest name <;> rfl

/-- Lookup after the entry at the found index was replaced. -/
theorem lookupByName_set {T : Type} (nameOf : T → String) (entries : List T) (entry : T) (index : Nat) (name : String)
    (h : findIndexByName nameOf entries (nameOf entry) = some index) :
    lookupByName nameOf (entries.set index entry) name =
      if nameOf entry = name then some entry else lookupByName nameOf entries name := by
  induction entries generalizing index with
  | nil => simp [findIndexByName] at h
  | cons first rest ih =>
    simp only [findIndexByName] at h
    split_ifs at h with hf
    · cases h
      simp only [List.set_cons_zero, lookupByName_cons, hf]
      split_ifs <;> rfl
    · cases hrest : findIndexByName nameOf rest (nameOf entry) with
      | none => rw [hrest] at h; cases h
      | some i =>
        rw [hrest] at h
        cases h
        simp only [List.set_cons_succ, lookupByName_cons, ih i hrest]
        split_ifs with h1 h2 <;> first | rfl | (exfalso; exact hf (h1.trans h2.symm))

/-- Lookup after an entry with a new name was appended. -/
theorem lookupByName_append {T : Type} (nameOf : T → String) (entries : List T) (entry : T) (name : String)
    (h : findIndexByName nameOf entries (nameOf entry) = none) :
    lookupByName nameOf (entries ++ [entry]) name =
      if nameOf entry = name then some entry else lookupByName nameOf entries name := by
  induction entries with
  | nil => simp [lookupByName_cons, lookupByName_nil]
  | cons first rest ih =>
    simp only [findIndexByName] at h
    split_ifs at h with hf
    cases hrest : findIndexByName nameOf rest (nameOf entry) with
    | some i => rw [hrest] at h; cases h
    | none =>
      simp only [List.cons_append, lookupByName_cons, ih hrest]
      split_ifs with h1 h2 <;> first | rfl | (exfalso; exact hf (h1.trans h2.symm))

/-- C20: `ModuleRegistry::upsert` sets or replaces by name. For an entry `m` with a
non-empty name, after `upsert(m)` the call `find(m.name)` returns `m`, `find(n)` is
unchanged for every other name `n`, and the number of entries grows by one exactly when
no entry named `m.name` existed before and is unchanged otherwise; `upsert` of an entry
with an empty name leaves the registry unchanged. The same holds for
`AssetRegistry::upsert`. -/
theorem registry_upsert (modules : ModuleRegistry) (m : ModuleLockEntry)
    (assets : AssetRegistry) (a : AssetLockEntry) :
    (m.name ≠ "" →
      (modules.upsert m).find m.name = some m ∧
      (∀ n : String, n ≠ m.name → (modules.upsert m).find n = modules.find n) ∧
      (modules.upsert m).m_modules.length =
        if (modules.find m.name).isSome then modules.m_modules.length
        else modules.m_modules.length + 1) ∧
    (m.name = "" → modules.upsert m = modules) ∧
    (a.name ≠ "" →
      (assets.upsert a).find a.name = some a ∧
      (∀ n : String, n ≠ a.name → (assets.upsert a).find n = assets.find n) ∧
      (assets.upsert a).m_assets.length =
        if (assets.find a.name).isSome then assets.m_assets.length
        else assets.m_assets.length + 1) ∧
    (a.name = "" → assets.upsert a = assets) := by
  refine ⟨fun hm => ?_, fun hm => ?_, fun ha => ?_, fun ha => ?_⟩
  · have hne : ¬ m.name.isEmpty = true := fun h => hm ((String.isEmpty_iff _).mp h)
    have hfind : ∀ r : ModuleRegistry, ∀ n, r.find n = lookupByName ModuleLockEntry.name r.m_modules n :=
      fun _ _ => rfl
    simp only [hfind, ModuleRegistry.upsert, if_neg hne]
    have hsome := findIndexByName_isSome ModuleLockEntry.name modules.m_modules m.name
    cases hidx : findIndexByName ModuleLockEntry.name modules.m_modules m.name with
    | some index =>
      rw [hidx] at hsome
      simp only [lookupByName_set ModuleLockEntry.name _ _ _ _ hidx, if_true, ← hsome,
        List.length_set, Option.isSome_some]
      exact ⟨trivial, fun n hn => if_neg (fun h => hn h.symm), trivial⟩
    | none =>
      rw [hidx] at hsome
      simp only [lookupByName_append ModuleLockEntry.name _ _ _ hidx, if_true, ← hsome,
        List.length_append, List.length_singleton, Option.isSome_none]
      exact ⟨trivial, fun n hn => if_neg (fun h => hn h.symm), by simp⟩
  · simp only [ModuleRegistry.upsert, (String.isEmpty_iff _).mpr hm, if_true]
  · have hne : ¬ a.name.isEmpty = true := fun h => ha ((String.isEmpty_iff _).mp h)
    have hfind : ∀ r : AssetRegistry, ∀ n, r.find n = lookupByName AssetLockEntry.name r.m_assets n :=
      fun _ _ => rfl
    simp only [hfind, AssetRegistry.upsert, if_neg hne]
    have hsome := findIndexByName_isSome AssetLockEntry.name assets.m_assets a.name
    cases hidx : findIndexByName AssetLockEntry.name assets.m_assets a.name with
    | some index =>
      rw [hidx] at hsome
      simp only [lookupByName_set AssetLockEntry.name _ _ _ _ hidx, if_true, ← hsome,
        List.length_set, Option.isSome_some]
      exact ⟨trivial, fun n hn => if_neg (fun h => hn h.symm), trivial⟩
    | none =>
      rw [hidx] at hsome
      simp only [lookupByName_append AssetLockEntry.name _ _ _ hidx, if_true, ← hsome,
        List.length_append, List.length_singleton, Option.isSome_none]
      exact ⟨trivial, fun n hn => if_neg (fun h => hn h.symm), by simp⟩
  · simp only [AssetRegistry.upsert, (String.isEmpty_iff _).mpr ha, if_true]

/-- C20 at the sample registries: `upsert` replaces the module `io`, appends the asset
`teapot`, and ignores entries with an empty name. -/
theorem registry_upsert_witness :
    ((ioUpdate.name ≠ "" ∧ teapot.name ≠ "") ∧
      ((sampleModules.upsert ioUpdate).find ioUpdate.name = some ioUpdate ∧
        (∀ n : String, n ≠ ioUpdate.name →
          (sampleModules.upsert ioUpdate).find n = sampleModules.find n) ∧
        (sampleModules.upsert ioUpdate).m_modules.length =
          if (sampleModules.find ioUpdate.name).isSome then sampleModules.m_modules.length
          else sampleModules.m_modules.length + 1) ∧
      ((sampleAssets.upsert teapot).find teapot.name = some teapot ∧
        (∀ n : String, n ≠ teapot.name →
          (sampleAssets.upsert teapot).find n = sampleAssets.find n) ∧
        (sampleAssets.upsert teapot).m_assets.length =
          if (sampleAssets.find teapot.name).isSome then sampleAssets.m_assets.length
          else sampleAssets.m_assets.length + 1)) ∧
    (((⟨"", "1", true, ""⟩ : ModuleLockEntry).name = "" ∧
        (⟨"", "1", "ready", ""⟩ : AssetLockEntry).name = "") ∧
      sampleModules.upsert ⟨"", "1", true, ""⟩ = sampleModules ∧
      sampleAssets.upsert ⟨"", "1", "ready", ""⟩ = sampleAssets) :=
  have hio : ioUpdate.name ≠ "" := by decide
  have hteapot : teapot.name ≠ "" := by decide
  ⟨⟨⟨hio, hteapot⟩, (registry_upsert sampleModules ioUpdate sampleAssets teapot).1 hio,
      (registry_upsert sampleModules ioUpdate sampleAssets teapot).2.2.1 hteapot⟩,
    ⟨⟨rfl, rfl⟩,
      (registry_upsert sampleModules ⟨"", "1", true, ""⟩ sampleAssets
        ⟨"", "1", "ready", ""⟩).2.1 rfl,
      (registry_upsert sampleModules ⟨"", "1", true, ""⟩ sampleAssets
        ⟨"", "1", "ready", ""⟩).2.2.2 rfl⟩⟩

/-! ## Two-sided intersection -/

/-- The quantities of Moeller-Trumbore for the reversed winding: `det` changes its sign,
`u` and `v` swap, and `t` is the same. -/
theorem Triangle.reversed_quantities {K : Type} [LinearOrderedField K]
    (tri : Triangle K) (normal : Vec3 K) (r : Ray K) :
    (tri.reversed normal).det r = -tri.det r ∧
    (tri.reversed normal).baryU r = tri.baryV r ∧
    (tri.reversed normal).baryV r = tri.baryU r ∧
    (tri.reversed normal).paramT r = tri.paramT r := by
  have hdet : (tri.reversed normal).det r = -tri.det r := by
    obtain ⟨⟨ax, ay, az⟩, ⟨bx, b_y, bz⟩, ⟨cx, cy, cz⟩, n⟩ := tri
    obtain ⟨⟨ox, oy, oz⟩, ⟨dx, dy, dz⟩⟩ := r
    simp only [Triangle.reversed, Triangle.det, Vec3.dot, Vec3.cross, Vec3.sub]
    ring
  have hinv : 1 / (tri.reversed normal).det r = -(1 / tri.det r) := by
    rw [hdet, one_div, one_div, inv_neg]
  refine ⟨hdet, ?_, ?_, ?_⟩
  · simp only [Triangle.baryU, Triangle.baryV, hinv]
    obtain ⟨⟨ax, ay, az⟩, ⟨bx, b_y, bz⟩, ⟨cx, cy, cz⟩, n⟩ := tri
    obtain ⟨⟨ox, oy, oz⟩, ⟨dx, dy, dz⟩⟩ := r
    simp only [Triangle.reversed, Vec3.dot, Vec3.cross, Vec3.sub]
    ring
  · simp only [Triangle.baryU, Triangle.baryV, hinv]
    obtain ⟨⟨ax, ay, az⟩, ⟨bx, b_y, bz⟩, ⟨cx, cy, cz⟩, n⟩ := tri
    obtain ⟨⟨ox, oy, oz⟩, ⟨dx, dy, dz⟩⟩ := r
    simp only [Triangle.reversed, Vec3.dot, Vec3.cross, Vec3.sub]
    ring
  · simp only [Triangle.paramT, hinv]
    obtain ⟨⟨ax, ay, az⟩, ⟨bx, b_y, bz⟩, ⟨cx, cy, cz⟩, n⟩ := tri
    obtain ⟨⟨ox, oy, oz⟩, ⟨dx, dy, dz⟩⟩ := r
    simp only [Triangle.reversed, Vec3.dot, Vec3.cross, Vec3.sub]
    ring

/-- C22: `Triangle::intersect` is two-sided. For every ray and every triangle
`(v0, v1, v2)`, the triangle with reversed winding `(v0, v2, v1)` gives the same flag and
the same `tOut`: `det` changes its sign and `u`, `v` swap roles. -/
theorem triangle_intersect_two_sided {K : Type} [LinearOrderedField K]
    (sqrt : K → K) (tri : Triangle K) (normal : Vec3 K) (r : Ray K) (tOut : K)
    (nOut : Vec3 K) :
    ((tri.reversed normal).intersect sqrt r tOut nOut).1 = (tri.intersect sqrt r tOut nOut).1 ∧
    ((tri.reversed normal).intersect sqrt r tOut nOut).2.1 =
      (tri.intersect sqrt r tOut nOut).2.1 ∧
    (tri.reversed normal).det r = -tri.det r ∧
    (tri.reversed normal).baryU r = tri.baryV r ∧
    (tri.reversed normal).baryV r = tri.baryU r := by
  obtain ⟨hdet, hu, hv, ht⟩ := Triangle.reversed_quantities tri normal r
  have hflag : ((tri.reversed normal).intersect sqrt r tOut nOut).1 =
      (tri.intersect sqrt r tOut nOut).1 := by
    rw [Bool.eq_iff_iff, Triangle.intersect_fst, Triangle.intersect_fst, hdet, hu, hv, ht,
      abs_neg]
    constructor
    · rintro ⟨h1, h2, _, h4, h5, h6⟩
      exact ⟨h1, h4, by linarith, h2, by linarith, h6⟩
    · rintro ⟨h1, h2, _, h4, h5, h6⟩
      exact ⟨h1, h4, by linarith, h2, by linarith, h6⟩
  refine ⟨hflag, ?_, hdet, hu, hv⟩
  rw [Triangle.intersect_tOut, Triangle.intersect_tOut, hflag, ht]
/-! ## Binary32 comparison and the mirror threshold -/

/-- The integer that `<` compares is the number of the value, scaled by `2^149`. -/
theorem F32.scaled_cast (sign : Bool) (mant : Nat) (exp : Int) (h : -149 ≤ exp) :
    ((F32.scaled sign mant exp : Int) : ℚ) = (F32.finite sign mant exp).toRat * 2 ^ 149 := by
  have hexp : ((exp + 149).toNat : Int) = exp + 149 := Int.toNat_of_nonneg (by omega)
  have hpow : (2 : ℚ) ^ (exp + 149).toNat = (2 : ℚ) ^ exp * 2 ^ 149 := by
    rw [← zpow_natCast, hexp, zpow_add₀ (by norm_num : (2 : ℚ) ≠ 0)]
    norm_cast
  simp only [F32.scaled, F32.toRat]
  push_cast
  rw [hpow]
  cases sign <;> simp <;> ring

/-- On finite values `<` is the order of the numbers they stand for. -/
theorem F32.lt_finite_iff (s : Bool) (m : Nat) (e : Int) (t : Bool) (n : Nat) (f : Int)
    (he : -149 ≤ e) (hf : -149 ≤ f) :
    F32.lt (F32.finite s m e) (F32.finite t n f) = true ↔
      (F32.finite s m e).toRat < (F32.finite t n f).toRat := by
  simp only [F32.lt, decide_eq_true_eq]
  rw [← @Int.cast_lt ℚ, F32.scaled_cast s m e he, F32.scaled_cast t n f hf]
  exact mul_lt_mul_right (by positivity)

/-- The literal `0.01f` is the number `5368709 / 2^29`. -/
theorem mirrorThreshold_eq :
    F32.ofRatio 1 100 = F32.finite false 10737418 (-30) ∧
    (F32.finite false 10737418 (-30)).toRat = 5368709 / 2 ^ 29 := by
  refine ⟨by decide!, ?_⟩
  norm_num [F32.toRat]

/-- C21 as stated fails: the roughness `0.01f`, the `float` nearest to `0.01`, is the
number `5368709 / 2^29 < 0.01`, and `shouldUsePerfectMirror(0.01f)` is false. -/
theorem shouldUsePerfectMirror_counterexample :
    (F32.ofRatio 1 100).toRat < 1 / 100 ∧ shouldUsePerfectMirror (F32.ofRatio 1 100) = false := by
  refine ⟨?_, by decide!⟩
  rw [mirrorThreshold_eq.1]
  norm_num [F32.toRat]

/-- C21, amended: `microfacet::shouldUsePerfectMirror(r)` returns true if and only if
`r < 0.01f`, where `0.01f` is the number `5368709 / 2^29`: for every `float` value `r`, the
result is true exactly when `r` is minus infinity or a number below `5368709 / 2^29`; so
it is true for every negative number and false for `0.01f`, plus infinity and NaN. -/
theorem shouldUsePerfectMirror_iff (r : F32) (hr : r.Valid) :
    (shouldUsePerfectMirror r = true ↔
      (r = F32.inf true ∨ (r.isFinite = true ∧ r.toRat < 5368709 / 2 ^ 29))) ∧
    (r.isFinite = true → r.toRat < 0 → shouldUsePerfectMirror r = true) := by
  have key : shouldUsePerfectMirror r = true ↔
      (r = F32.inf true ∨ (r.isFinite = true ∧ r.toRat < 5368709 / 2 ^ 29)) := by
    unfold shouldUsePerfectMirror
    rw [mirrorThreshold_eq.1]
    cases r with
    | nan => simp [F32.lt, F32.isFinite]
    | inf s => cases s <;> simp [F32.lt, F32.isFinite]
    | finite s m e =>
      rw [F32.lt_finite_iff s m e false 10737418 (-30) hr.2.1 (by norm_num),
        mirrorThreshold_eq.2]
      simp [F32.isFinite]
  refine ⟨key, fun hfin hneg => key.mpr (Or.inr ⟨hfin, lt_trans hneg (by positivity)⟩)⟩

/-- C21, amended, at the roughness `-1`, and at `0.01f`, `+inf` and NaN. -/
theorem shouldUsePerfectMirror_iff_witness :
    ((F32.neg (F32.ofNat 1)).Valid ∧ (F32.neg (F32.ofNat 1)).isFinite = true ∧
      (F32.neg (F32.ofNat 1)).toRat < 0) ∧
    shouldUsePerfectMirror (F32.neg (F32.ofNat 1)) = true ∧
    shouldUsePerfectMirror (F32.ofRatio 1 100) = false ∧
    shouldUsePerfectMirror (F32.inf false) = false ∧
    shouldUsePerfectMirror F32.nan = false :=
  have hv : (F32.neg (F32.ofNat 1)).Valid := by
    rw [show F32.neg (F32.ofNat 1) = F32.finite true 8388608 (-23) by decide!]
    norm_num [F32.Valid]
  have hf : (F32.neg (F32.ofNat 1)).isFinite = true := by decide!
  have hn : (F32.neg (F32.ofNat 1)).toRat < 0 := by
    rw [show F32.neg (F32.ofNat 1) = F32.finite true 8388608 (-23) by decide!]
    norm_num [F32.toRat]
  ⟨⟨hv, hf, hn⟩, (shouldUsePerfectMirror_iff (F32.neg (F32.ofNat 1)) hv).2 hf hn,
    by decide!, by decide!, by decide!⟩

/-! ## The binary32 code against the claims in exact arithmetic -/

/-- C12 as stated fails on the compiled code: the three vertices of `behindTriangle` lie
behind the origin of the ray `Ray((0, 0, 0), (1, 2, 3))`, with `(vi - o) . d < 0` for the
exact numbers of the `float` values, and `Triangle::intersect` returns true with `tOut`
about `2.48e-5`. -/
theorem triangle_behind_ray_counterexample :
    Binary32.diagonalRay =
      Binary32.Ray.new Binary32.origin ⟨F32.ofNat 1, F32.ofNat 2, F32.ofNat 3⟩ ∧
    (Vec3.dot (Vec3.sub (Binary32.toRat Binary32.behindTriangle.v0)
        (Binary32.toRat Binary32.diagonalRay.origin))
        (Binary32.toRat Binary32.diagonalRay.direction) < 0 ∧
      Vec3.dot (Vec3.sub (Binary32.toRat Binary32.behindTriangle.v1)
        (Binary32.toRat Binary32.diagonalRay.origin))
        (Binary32.toRat Binary32.diagonalRay.direction) < 0 ∧
      Vec3.dot (Vec3.sub (Binary32.toRat Binary32.behindTriangle.v2)
        (Binary32.toRat Binary32.diagonalRay.origin))
        (Binary32.toRat Binary32.diagonalRay.direction) < 0) ∧
    0 < (Binary32.toRat Binary32.diagonalRay.direction).x ∧
    (Binary32.Triangle.intersect Binary32.behindTriangle Binary32.diagonalRay Binary32.zero
      Binary32.origin).1 = true ∧
    (Binary32.Triangle.intersect Binary32.behindTriangle Binary32.diagonalRay Binary32.zero
      Binary32.origin).2.1 = F32.finite false 13617110 (-39) := by
  refine ⟨by decide!, ⟨?_, ?_, ?_⟩, ?_, by decide!, by decide!⟩ <;>
    norm_num [Vec3.dot, Vec3.sub, Binary32.toRat, F32.toRat, Binary32.behindTriangle,
      Binary32.Triangle.new, Binary32.diagonalRay, Binary32.origin, Binary32.zero]

/-- C16 as stated fails on the compiled code. For the normalized normal
`n = normalize((1, 2, 3))` and the incident direction `i = (1, 0, 0)`, the reflected
vector `r = reflect(i, n)` has `r . n = -0.267261207`, not `-(i . n) = -0.267261237`, its
length is `0.99999994`, not `1`, and `reflect(r, n)` is `(1, -2.98e-8, -5.96e-8)`, not `i`.
And for the unit normal `(0, 1, 0)` and the incident vector `(0, 2^127, 0)` the product
`2 * (i . n)` overflows and `reflect(i, n)` is `(NaN, -inf, NaN)`. -/
theorem reflect_mirror_counterexample :
    (Binary32.dot (Binary32.reflect ⟨Binary32.one, Binary32.zero, Binary32.zero⟩
        Binary32.slantedNormal) Binary32.slantedNormal = F32.finite true 8967798 (-25) ∧
      F32.neg (Binary32.dot ⟨Binary32.one, Binary32.zero, Binary32.zero⟩
        Binary32.slantedNormal) = F32.finite true 8967799 (-25)) ∧
    (Binary32.length (Binary32.reflect ⟨Binary32.one, Binary32.zero, Binary32.zero⟩
        Binary32.slantedNormal) = F32.finite false 16777215 (-24) ∧
      Binary32.length ⟨Binary32.one, Binary32.zero, Binary32.zero⟩ = Binary32.one) ∧
    Binary32.reflect (Binary32.reflect ⟨Binary32.one, Binary32.zero, Binary32.zero⟩
        Binary32.slantedNormal) Binary32.slantedNormal =
      ⟨Binary32.one, F32.finite true 8388608 (-48), F32.finite true 8388608 (-47)⟩ ∧
    (Vec3.dot (Binary32.toRat ⟨Binary32.zero, Binary32.one, Binary32.zero⟩)
        (Binary32.toRat ⟨Binary32.zero, Binary32.one, Binary32.zero⟩) = 1 ∧
      Binary32.reflect ⟨Binary32.zero, Binary32.huge, Binary32.zero⟩
        ⟨Binary32.zero, Binary32.one, Binary32.zero⟩ = ⟨F32.nan, F32.inf true, F32.nan⟩) := by
  refine ⟨⟨by decide!, by decide!⟩, ⟨by decide!, by decide!⟩, by decide!, ?_, by decide!⟩
  rw [show Binary32.one = F32.finite false 8388608 (-23) by decide!]
  norm_num [Vec3.dot, Binary32.toRat, F32.toRat, Binary32.zero]

/-- C17 as stated fails on the compiled code: for the zero-length direction the
constructor stores `0 * (1 / sqrt(0)) = 0 * inf`, three NaN; and for the direction
`(1e-30f, 0, 0)`, where `dir . dir` underflows to zero, it stores `(inf, NaN, NaN)`. -/
theorem ray_new_zero_direction_counterexample :
    (Binary32.Ray.new ⟨F32.ofNat 1, F32.ofNat 2, F32.ofNat 3⟩ Binary32.origin).origin =
      ⟨F32.ofNat 1, F32.ofNat 2, F32.ofNat 3⟩ ∧
    (Binary32.Ray.new ⟨F32.ofNat 1, F32.ofNat 2, F32.ofNat 3⟩ Binary32.origin).direction =
      ⟨F32.nan, F32.nan, F32.nan⟩ ∧
    Binary32.length
      (Binary32.Ray.new ⟨F32.ofNat 1, F32.ofNat 2, F32.ofNat 3⟩ Binary32.origin).direction ≠
      Binary32.one ∧
    (Binary32.Ray.new Binary32.origin
        ⟨F32.ofRatio 1 (10 ^ 30), Binary32.zero, Binary32.zero⟩).direction =
      ⟨F32.inf false, F32.nan, F32.nan⟩ := by
  refine ⟨by decide!, by decide!, by decide!, by decide!⟩

/-- The amended C2 needs its exact arithmetic: the ray `grazingRay` meets
`grazedTriangle` at the exact parameters `t = 7.72`, `u = 0.360`, `v = 3.9e-8` of the
`float` inputs, with `det = -8.78`, and the compiled `Triangle::intersect` computes
`v = -5.4e-8` and returns false. -/
theorem triangle_intersect_complete_rounding :
    (∃ t u v : ℚ, EPS < t ∧ 0 ≤ u ∧ u ≤ 1 ∧ 0 ≤ v ∧ v ≤ 1 ∧ u + v ≤ 1 ∧
      (Binary32.toRatRay Binary32.grazingRay).pointAt t =
        (Binary32.toRatTriangle Binary32.grazedTriangle).pointAt u v) ∧
    EPS ≤ |(Binary32.toRatTriangle Binary32.grazedTriangle).det
      (Binary32.toRatRay Binary32.grazingRay)| ∧
    (Binary32.Triangle.intersect Binary32.grazedTriangle Binary32.grazingRay Binary32.zero
      Binary32.origin).1 = false := by
  have hdet : EPS ≤ |(Binary32.toRatTriangle Binary32.grazedTriangle).det
      (Binary32.toRatRay Binary32.grazingRay)| := by
    norm_num [Triangle.det, Vec3.dot, Vec3.cross, Vec3.sub, Binary32.toRatTriangle,
      Binary32.toRatRay, Binary32.toRat, F32.toRat, Binary32.grazedTriangle,
      Binary32.grazingRay, Binary32.Triangle.new, EPS, abs_of_nonpos]
  refine ⟨⟨_, _, _, ?_, ?_, ?_, ?_, ?_, ?_,
    moller_trumbore_solves (Binary32.toRatTriangle Binary32.grazedTriangle)
      (Binary32.toRatRay Binary32.grazingRay) (Triangle.det_ne_zero_of_EPS_le _ _ hdet)⟩,
    hdet, by decide!⟩ <;>
  norm_num [Triangle.paramT, Triangle.baryU, Triangle.baryV, Triangle.det, Vec3.dot,
    Vec3.cross, Vec3.sub, Binary32.toRatTriangle, Binary32.toRatRay, Binary32.toRat,
    F32.toRat, Binary32.grazedTriangle, Binary32.grazingRay, Binary32.Triangle.new, EPS]

/-- C11 as stated fails. The ray from `(0, 1/4, 1)` with the direction `(-0, 0, -1)` meets
`edgeTriangle` at `t = 1` on its edge in the plane `x = 0`, and the brute-force scan
reports this hit. The box `[(0, 0, 0), (1, 1, 0)]` holds the triangle, and the box test
divides by the zero component: `tmin = 0 / -0` is NaN and `tmax = 1 / -0` is minus
infinity, so that `tzmin > tmax` and the test returns false; `BVHNode::intersect` prunes
the node and reports no hit. -/
theorem bvh_intersect_counterexample :
    Binary32.edgeRay =
      Binary32.Ray.new ⟨Binary32.zero, F32.ofRatio 1 4, Binary32.one⟩
        ⟨F32.neg Binary32.zero, Binary32.zero, F32.neg Binary32.one⟩ ∧
    (inBox (Binary32.toRat Binary32.edgeTriangle.v0) ⟨0, 0, 0⟩ ⟨1, 1, 0⟩ ∧
      inBox (Binary32.toRat Binary32.edgeTriangle.v1) ⟨0, 0, 0⟩ ⟨1, 1, 0⟩ ∧
      inBox (Binary32.toRat Binary32.edgeTriangle.v2) ⟨0, 0, 0⟩ ⟨1, 1, 0⟩) ∧
    (Binary32.toRatRay Binary32.edgeRay).pointAt 1 =
      (Binary32.toRatTriangle Binary32.edgeTriangle).pointAt (1 / 4) 0 ∧
    Binary32.bruteForceIntersect Binary32.edgeRay [Binary32.edgeTriangle] =
      some (Binary32.edgeTriangle, Binary32.one,
        ⟨Binary32.zero, Binary32.zero, F32.neg Binary32.one⟩) ∧
    Binary32.rayIntersectsAABB Binary32.edgeRay ⟨Binary32.zero, Binary32.zero, Binary32.zero⟩
      ⟨Binary32.one, Binary32.one, Binary32.zero⟩ Binary32.zero = (false, Binary32.zero) ∧
    Binary32.BVHNode.intersect Binary32.edgeRay Binary32.edgeTree = none := by
  have h1 : Binary32.one = F32.finite false 8388608 (-23) := by decide!
  have h4 : F32.ofRatio 1 4 = F32.finite false 8388608 (-25) := by decide!
  refine ⟨by decide!, ⟨?_, ?_, ?_⟩, ?_, by decide!, by decide!, by decide!⟩
  · norm_num [inBox, Binary32.toRat, F32.toRat, Binary32.edgeTriangle, Binary32.Triangle.new,
      Binary32.zero, h1]
  · norm_num [inBox, Binary32.toRat, F32.toRat, Binary32.edgeTriangle, Binary32.Triangle.new,
      Binary32.zero, h1]
  · norm_num [inBox, Binary32.toRat, F32.toRat, Binary32.edgeTriangle, Binary32.Triangle.new,
      Binary32.zero, h1]
  · norm_num [Ray.pointAt, Triangle.pointAt, Vec3.add, Vec3.smul, Vec3.sub,
      Binary32.toRatRay, Binary32.toRatTriangle, Binary32.toRat, F32.toRat,
      Binary32.edgeTriangle, Binary32.edgeRay, Binary32.Triangle.new, Binary32.zero, h1, h4,
      F32.neg]

/-- C19, amended: `createCommand` returns `InitCommandAdapter`, `ValidateCommand`,
`ConfigCommand`, `DoctorCommand`, `ModulesCommand` and `AssetsCommand` for their verbs, and
the placeholder `StubCommand` for every other verb: among the supported verbs exactly for
`inspect`, `render` and `clean`; the `run` of the placeholder reports `not_implemented`
and returns `RuntimeError`. -/
theorem createCommand_routes :
    (createCommand "init" = some CommandKind.InitCommandAdapter ∧
      createCommand "validate" = some CommandKind.ValidateCommand ∧
      createCommand "config" = some CommandKind.ConfigCommand ∧
      createCommand "doctor" = some CommandKind.DoctorCommand ∧
      createCommand "modules" = some CommandKind.ModulesCommand ∧
      createCommand "assets" = some CommandKind.AssetsCommand) ∧
    (∀ verb : String, isSupportedVerb verb = true →
      (createCommand verb = some (CommandKind.StubCommand verb) ↔
        (verb = "inspect" ∨ verb = "render" ∨ verb = "clean"))) ∧
    (∀ verb : String, isSupportedVerb verb = false →
      createCommand verb = some (CommandKind.StubCommand verb)) ∧
    (∀ context : CommandExecutionContext,
      StubCommand.run context = (CLIExitCode.RuntimeError, "not_implemented")) := by
  refine ⟨⟨by decide, by decide, by decide, by decide, by decide, by decide⟩, ?_, ?_,
    fun _ => rfl⟩
  · intro verb h
    simp only [isSupportedVerb, List.contains_iff_exists_mem_beq, beq_iff_eq] at h
    obtain ⟨x, hx, rfl⟩ := h
    simp only [List.mem_cons, List.mem_singleton, List.not_mem_nil, or_false] at hx
    rcases hx with rfl | rfl | rfl | rfl | rfl | rfl | rfl | rfl | rfl <;> decide
  · intro verb h
    have hne : ∀ w : String, isSupportedVerb w = true → verb ≠ w := by
      intro w hw e
      rw [e, hw] at h
      cases h
    simp only [createCommand, if_neg (hne "init" (by decide)),
      if_neg (hne "validate" (by decide)), if_neg (hne "config" (by decide)),
      if_neg (hne "doctor" (by decide)), if_neg (hne "modules" (by decide)),
      if_neg (hne "assets" (by decide))]

/-- C19, amended, at the supported verb `render` and at the verb `watch`, which is not
supported. -/
theorem createCommand_routes_witness :
    (isSupportedVerb "render" = true ∧ isSupportedVerb "watch" = false) ∧
    (createCommand "render" = some (CommandKind.StubCommand "render") ↔
      ("render" = "inspect" ∨ "render" = "render" ∨ "render" = "clean")) ∧
    createCommand "watch" = some (CommandKind.StubCommand "watch") :=
  ⟨⟨by decide, by decide⟩, createCommand_routes.2.1 "render" (by decide),
    createCommand_routes.2.2.1 "watch" (by decide)⟩

end Glint
